import Mathlib

/-!
Verification of ocs-operator: the condition store, the condition aggregation, the external
reconcile pass and the quickstart loader.

A shallow embedding of `pkg/controller/util/status.go`, of
`pkg/controller/storagecluster/externalstoragecluster_controller.go` and of
`pkg/controller/storagecluster/quickstarts.go`.

* Go strings (condition types, condition statuses, phases, cluster states, messages) are
  Lean `String`s; the named constants carry the values of the Go constants.
* A Go slice is a Lean `List`; the nil slice and the empty slice are both `[]`
  (the slices below are only ever reset to nil and grown by `append`).
* Wall-clock readings (`time.Now()`) are natural numbers supplied by the caller. A function that
  performs several upserts takes a `Clock`: `clk i` is the reading seen by its `i`-th upsert.
-/

namespace Ocs

/-! ## Conditions (`conditionsv1`) -/

/-- A clock reading. -/
abbrev Time := Nat

/-- The readings seen by the successive upserts of one function call. -/
abbrev Clock := Nat → Time

/-- The record `conditionsv1.Condition`. A Go literal that leaves the two time fields out
has them zero. -/
structure Condition where
  type : String
  status : String
  reason : String
  message : String
  lastTransitionTime : Time := 0
  lastHeartbeatTime : Time := 0
deriving DecidableEq, Repr

/-- Value of `corev1.ConditionTrue`. -/
def ConditionTrue : String := "True"
/-- Value of `corev1.ConditionFalse`. -/
def ConditionFalse : String := "False"
/-- Value of `corev1.ConditionUnknown`. -/
def ConditionUnknown : String := "Unknown"

/-- Value of `conditionsv1.ConditionAvailable`. -/
def ConditionAvailable : String := "Available"
/-- Value of `conditionsv1.ConditionProgressing`. -/
def ConditionProgressing : String := "Progressing"
/-- Value of `conditionsv1.ConditionDegraded`. -/
def ConditionDegraded : String := "Degraded"
/-- Value of `conditionsv1.ConditionUpgradeable`. -/
def ConditionUpgradeable : String := "Upgradeable"
/-- Value of `ocsv1.ConditionReconcileComplete`. -/
def ConditionReconcileComplete : String := "ReconcileComplete"
/-- Value of `ocsv1.ConditionExternalClusterConnecting`. -/
def ConditionExternalClusterConnecting : String := "ExternalClusterConnecting"
/-- Value of `ocsv1.ConditionExternalClusterConnected`. -/
def ConditionExternalClusterConnected : String := "ExternalClusterConnected"

/-- Modelled from the spec: `find(type) -> Condition?` of the Condition Store
(`conditionsv1.FindStatusCondition`, whose body is not among the sources): point lookup, the
first record of the type. -/
def FindStatusCondition : List Condition → String → Option Condition
  | [], _ => none
  | c :: cs, t => if c.type = t then some c else FindStatusCondition cs t

/-- Modelled from the spec: the "small pure function taking (existingCondition?, newCondition) ->
finalCondition" of the design notes, for an existing record: the status and `lastTransitionTime`
change only when the status value changes; reason and message are always replaced. The heartbeat
time of the record is refreshed by every upsert. -/
def mergeCondition (now : Time) (existing newCondition : Condition) : Condition :=
  let existing :=
    if existing.status ≠ newCondition.status then
      { existing with status := newCondition.status, lastTransitionTime := now }
    else existing
  { existing with
    reason := newCondition.reason
    message := newCondition.message
    lastHeartbeatTime := now }

/-- Rewrites the first record of type `t` in place. -/
def modifyFirst (f : Condition → Condition) : List Condition → String → List Condition
  | [], _ => []
  | c :: cs, t => if c.type = t then f c :: cs else c :: modifyFirst f cs t

/-- Modelled from the spec: `upsert(condition)` of the Condition Store
(`conditionsv1.SetStatusCondition`, whose body is not among the sources): "replaces any existing
record of the same type; applies the last-transition-time invariant". A record of a new type is
appended, stamped with the current time. -/
def SetStatusCondition (now : Time) (conditions : List Condition) (newCondition : Condition) :
    List Condition :=
  match FindStatusCondition conditions newCondition.type with
  | none =>
    conditions ++ [{ newCondition with lastTransitionTime := now, lastHeartbeatTime := now }]
  | some _ => modifyFirst (fun existing => mergeCondition now existing newCondition)
      conditions newCondition.type

/-- Modelled from the spec: `isTrue(type)` (`conditionsv1.IsStatusConditionTrue`): "unknown" and
"absent" are not true. -/
def IsStatusConditionTrue (conditions : List Condition) (t : String) : Bool :=
  match FindStatusCondition conditions t with
  | some c => c.status = ConditionTrue
  | none => false

/-- Modelled from the spec: `isFalse(type)` (`conditionsv1.IsStatusConditionFalse`): "unknown"
and "absent" are not false. -/
def IsStatusConditionFalse (conditions : List Condition) (t : String) : Bool :=
  match FindStatusCondition conditions t with
  | some c => c.status = ConditionFalse
  | none => false

/-- The data-model invariant: at most one record per condition type. -/
def UniqueTypes (conditions : List Condition) : Prop :=
  (conditions.map (fun c => c.type)).Nodup

instance (conditions : List Condition) : Decidable (UniqueTypes conditions) := by
  unfold UniqueTypes; infer_instance

/-- The list holds a record of type `t`, and the one looked up has this status, reason and
message. -/
def holdsRecord (conditions : List Condition) (t status reason message : String) : Prop :=
  ∃ r, FindStatusCondition conditions t = some r ∧
    r.status = status ∧ r.reason = reason ∧ r.message = message

/-- The list holds a record of type `t`, and the one looked up has this status. -/
def holdsStatus (conditions : List Condition) (t status : String) : Prop :=
  ∃ r, FindStatusCondition conditions t = some r ∧ r.status = status

/-- The text `s` ends with `m`. -/
def EndsWith (s m : String) : Prop := ∃ p : String, s = p ++ m

/-! ## `status.go` -/

/-- The phase `PhaseIgnored`. -/
def PhaseIgnored : String := "Ignored"
/-- The phase `PhaseProgressing`. -/
def PhaseProgressing : String := "Progressing"
/-- The phase `PhaseError`. -/
def PhaseError : String := "Error"
/-- The phase `PhaseReady`. -/
def PhaseReady : String := "Ready"
/-- The phase `PhaseNotReady`. -/
def PhaseNotReady : String := "Not Ready"
/-- The phase `PhaseClusterExpanding`. -/
def PhaseClusterExpanding : String := "Expanding Capacity"
/-- The phase `PhaseDeleting`. -/
def PhaseDeleting : String := "Deleting"
/-- The phase `PhaseConnecting`. -/
def PhaseConnecting : String := "Connecting"
/-- The phase `PhaseConnected`. -/
def PhaseConnected : String := "Connected"

/-- `SetProgressingCondition`: five upserts, in source order. -/
def SetProgressingCondition (clk : Clock) (conditions : List Condition)
    (reason message : String) : List Condition :=
  let conditions := SetStatusCondition (clk 0) conditions
    { type := ConditionReconcileComplete, status := ConditionUnknown, reason := reason,
      message := message }
  let conditions := SetStatusCondition (clk 1) conditions
    { type := ConditionAvailable, status := ConditionFalse, reason := reason,
      message := message }
  let conditions := SetStatusCondition (clk 2) conditions
    { type := ConditionProgressing, status := ConditionTrue, reason := reason,
      message := message }
  let conditions := SetStatusCondition (clk 3) conditions
    { type := ConditionDegraded, status := ConditionFalse, reason := reason,
      message := message }
  SetStatusCondition (clk 4) conditions
    { type := ConditionUpgradeable, status := ConditionUnknown, reason := reason,
      message := message }

/-- `SetErrorCondition`: ReconcileComplete becomes False. -/
def SetErrorCondition (clk : Clock) (conditions : List Condition)
    (reason message : String) : List Condition :=
  SetStatusCondition (clk 0) conditions
    { type := ConditionReconcileComplete, status := ConditionFalse, reason := reason,
      message := message }

/-- `SetCompleteCondition`: the positive bundle, five upserts in source order. -/
def SetCompleteCondition (clk : Clock) (conditions : List Condition)
    (reason message : String) : List Condition :=
  let conditions := SetStatusCondition (clk 0) conditions
    { type := ConditionReconcileComplete, status := ConditionTrue, reason := reason,
      message := message }
  let conditions := SetStatusCondition (clk 1) conditions
    { type := ConditionAvailable, status := ConditionTrue, reason := reason,
      message := message }
  let conditions := SetStatusCondition (clk 2) conditions
    { type := ConditionProgressing, status := ConditionFalse, reason := reason,
      message := message }
  let conditions := SetStatusCondition (clk 3) conditions
    { type := ConditionDegraded, status := ConditionFalse, reason := reason,
      message := message }
  SetStatusCondition (clk 4) conditions
    { type := ConditionUpgradeable, status := ConditionTrue, reason := reason,
      message := message }

/-- Value of `cephv1.ClusterStateCreating`. -/
def ClusterStateCreating : String := "Creating"
/-- Value of `cephv1.ClusterStateCreated`. -/
def ClusterStateCreated : String := "Created"
/-- Value of `cephv1.ClusterStateUpdating`. -/
def ClusterStateUpdating : String := "Updating"
/-- Value of `cephv1.ClusterStateConnecting`. -/
def ClusterStateConnecting : String := "Connecting"
/-- Value of `cephv1.ClusterStateConnected`. -/
def ClusterStateConnected : String := "Connected"
/-- Value of `cephv1.ClusterStateError`. -/
def ClusterStateError : String := "Error"

/-- The part `found.Status` of a `cephv1.CephCluster`. -/
structure ClusterStatus where
  state : String := ""
  message : String := ""
deriving DecidableEq, Repr

/-- `MapCephClusterNegativeConditions`: a `switch` over `found.Status.State` with three cases
and no default. -/
def MapCephClusterNegativeConditions (clk : Clock) (conditions : List Condition)
    (found : ClusterStatus) : List Condition :=
  if found.state = ClusterStateCreating then
    let conditions := SetStatusCondition (clk 0) conditions
      { type := ConditionProgressing, status := ConditionTrue, reason := "ClusterStateCreating",
        message := "CephCluster is creating: " ++ found.message }
    SetStatusCondition (clk 1) conditions
      { type := ConditionUpgradeable, status := ConditionFalse, reason := "ClusterStateCreating",
        message := "CephCluster is creating: " ++ found.message }
  else if found.state = ClusterStateUpdating then
    let conditions := SetStatusCondition (clk 0) conditions
      { type := ConditionProgressing, status := ConditionTrue, reason := "ClusterStateUpdating",
        message := "CephCluster is updating: " ++ found.message }
    SetStatusCondition (clk 1) conditions
      { type := ConditionUpgradeable, status := ConditionFalse, reason := "ClusterStateUpdating",
        message := "CephCluster is updating: " ++ found.message }
  else if found.state = ClusterStateError then
    let conditions := SetStatusCondition (clk 0) conditions
      { type := ConditionAvailable, status := ConditionFalse, reason := "ClusterStateError",
        message := "CephCluster error: " ++ found.message }
    SetStatusCondition (clk 1) conditions
      { type := ConditionDegraded, status := ConditionTrue, reason := "ClusterStateError",
        message := "CephCluster error: " ++ found.message }
  else conditions

/-- `MapExternalCephClusterNegativeConditions`: a `switch` over `found.Status.State` with the
cases Connecting and Error and a `default` case. -/
def MapExternalCephClusterNegativeConditions (clk : Clock) (conditions : List Condition)
    (found : ClusterStatus) : List Condition :=
  if found.state = ClusterStateConnecting then
    let conditions := SetStatusCondition (clk 0) conditions
      { type := ConditionExternalClusterConnecting, status := ConditionTrue,
        reason := "ExternalClusterStateConnecting",
        message := "ExternalCephCluster is trying to connect: " ++ found.message }
    SetStatusCondition (clk 1) conditions
      { type := ConditionExternalClusterConnected, status := ConditionFalse,
        reason := "ExternalClusterStateConnecting",
        message := "ExternalCephCluster is trying to connect: " ++ found.message }
  else if found.state = ClusterStateError then
    let conditions := SetStatusCondition (clk 0) conditions
      { type := ConditionExternalClusterConnected, status := ConditionFalse,
        reason := "ExternalClusterStateError",
        message := "External CephCluster error: " ++ found.message }
    SetStatusCondition (clk 1) conditions
      { type := ConditionExternalClusterConnecting, status := ConditionFalse,
        reason := "ExternalClusterStateError",
        message := "External CephCluster error: " ++ found.message }
  else
    SetStatusCondition (clk 0) conditions
      { type := ConditionDegraded, status := ConditionTrue,
        reason := "ExternalClusterStateUnknownCondition",
        message := "External CephCluster Unknown Condition: " ++ found.message }

/-- `MapCephClusterNoConditions`: three upserts. -/
def MapCephClusterNoConditions (clk : Clock) (conditions : List Condition)
    (reason message : String) : List Condition :=
  let conditions := SetStatusCondition (clk 0) conditions
    { type := ConditionAvailable, status := ConditionFalse, reason := reason,
      message := message }
  let conditions := SetStatusCondition (clk 1) conditions
    { type := ConditionProgressing, status := ConditionTrue, reason := reason,
      message := message }
  SetStatusCondition (clk 2) conditions
    { type := ConditionUpgradeable, status := ConditionFalse, reason := reason,
      message := message }

/-- `setStatusConditionIfNotPresent`: returns early when a record of the type with the same
status is found. -/
def setStatusConditionIfNotPresent (now : Time) (conditions : List Condition)
    (condition : Condition) : List Condition :=
  match FindStatusCondition conditions condition.type with
  | some foundCondition =>
    if foundCondition.status = condition.status then conditions
    else SetStatusCondition now conditions condition
  | none => SetStatusCondition now conditions condition

/-- Value of `nbv1.SystemPhaseRejected`. -/
def SystemPhaseRejected : String := "Rejected"
/-- Value of `nbv1.SystemPhaseVerifying`. -/
def SystemPhaseVerifying : String := "Verifying"
/-- Value of `nbv1.SystemPhaseCreating`. -/
def SystemPhaseCreating : String := "Creating"
/-- Value of `nbv1.SystemPhaseConnecting`. -/
def SystemPhaseConnecting : String := "Connecting"
/-- Value of `nbv1.SystemPhaseConfiguring`. -/
def SystemPhaseConfiguring : String := "Configuring"
/-- Value of `nbv1.SystemPhaseReady`. -/
def SystemPhaseReady : String := "Ready"

/-- The part `found.Status` of a `nbv1.NooBaa`. -/
structure NooBaa where
  phase : String := ""
deriving DecidableEq, Repr

/-- `MapNoobaaNegativeConditions`; a nil `found` is `none`. -/
def MapNoobaaNegativeConditions (clk : Clock) (conditions : List Condition)
    (found : Option NooBaa) : List Condition :=
  match found with
  | none =>
    setStatusConditionIfNotPresent (clk 0) conditions
      { type := ConditionDegraded, status := ConditionTrue, reason := "NoobaaNotFound",
        message := "Waiting on Nooba instance creation" }
  | some found =>
    if found.phase = SystemPhaseRejected then
      setStatusConditionIfNotPresent (clk 0) conditions
        { type := ConditionDegraded, status := ConditionTrue, reason := "NoobaaSpecRejected",
          message := "Noobaa object's configuration is rejected by the noobaa operator" }
    else if found.phase = "" ∨ found.phase = SystemPhaseVerifying ∨
        found.phase = SystemPhaseCreating ∨ found.phase = SystemPhaseConnecting ∨
        found.phase = SystemPhaseConfiguring then
      setStatusConditionIfNotPresent (clk 0) conditions
        { type := ConditionProgressing, status := ConditionTrue, reason := "NoobaaInitializing",
          message := "Waiting on Nooba instance to finish initialization" }
    else if found.phase = SystemPhaseReady then
      conditions
    else
      setStatusConditionIfNotPresent (clk 0) conditions
        { type := ConditionDegraded, status := ConditionTrue, reason := "NoobaaPhaseUnknown",
          message := "Noobaa phase " ++ found.phase ++ " is unknown" }

/-! ## Objects and the object store -/

/-- A Go `error`. `notFound` is the error `errors.IsNotFound` recognises (returned by a `Get`
of an absent object); `failure` is any other error. -/
inductive Err where
  | notFound (name : String)
  | failure (text : String)
deriving DecidableEq, Repr

/-- The text `err.Error()`, which `%v` prints. -/
def Err.text : Err → String
  | .notFound name => name ++ " not found"
  | .failure text => text

/-- `errors.IsNotFound`. -/
def Err.isNotFound : Err → Bool
  | .notFound _ => true
  | .failure _ => false

/-- `corev1.ObjectReference` as built by `reference.GetReference`. -/
structure ObjectReference where
  kind : String
  nameSpace : String
  name : String
  resourceVersion : Nat := 0
deriving DecidableEq, Repr

/-- `metav1.OwnerReference`. -/
structure OwnerReference where
  kind : String
  name : String
  controller : Bool
deriving DecidableEq, Repr

/-- `cephv1.ClusterSpec`: the three fields `newExternalCephCluster` sets; `others` stands for
all remaining fields, which a fresh literal leaves zero (`""`). -/
structure ClusterSpec where
  externalEnable : Bool := false
  dataDirHostPath : String := ""
  cephVersionImage : String := ""
  others : String := ""
deriving DecidableEq, Repr

/-- `cephv1.CephCluster`. `resourceVersion` is the store's version token. -/
structure CephCluster where
  name : String := ""
  nameSpace : String := ""
  labels : List (String × String) := []
  ownerReferences : List OwnerReference := []
  resourceVersion : Nat := 0
  spec : ClusterSpec := {}
  status : ClusterStatus := {}
deriving DecidableEq, Repr

/-- `ocsv1.StorageClusterStatus`. -/
structure StorageClusterStatus where
  phase : String := ""
  conditions : List Condition := []
  relatedObjects : List ObjectReference := []
deriving DecidableEq, Repr

/-- `ocsv1.StorageCluster`: the managed resource. `spec` is opaque to this controller. -/
structure StorageCluster where
  name : String := ""
  nameSpace : String := ""
  finalizers : List String := []
  deletionTimestamp : Option Time := none
  spec : String := ""
  status : StorageClusterStatus := {}
deriving DecidableEq, Repr

/-- `sc.GetDeletionTimestamp().IsZero()`: a nil pointer or the zero instant. -/
def deletionTimestampIsZero (sc : StorageCluster) : Bool :=
  match sc.deletionTimestamp with
  | none => true
  | some t => t = 0

/-- The CephCluster objects held by the store, keyed by namespace and name. -/
abbrev Store := String × String → Option CephCluster

/-- Writes `obj` at `key`. -/
def Store.put (store : Store) (key : String × String) (obj : CephCluster) : Store :=
  fun k => if k = key then some obj else store k

/-- A call issued by a pass, in the order of issue. -/
inductive Call where
  | get (nameSpace name : String)
  | create (obj : CephCluster)
  | update (obj : CephCluster)
  | updateStorageCluster (sc : StorageCluster)
  | statusUpdate (sc : StorageCluster)
  | deleteResources (sc : StorageCluster)
deriving DecidableEq, Repr

/-- Whether the call is a get, create or update of a CephCluster. -/
def Call.onChild : Call → Bool
  | .get _ _ => true
  | .create _ => true
  | .update _ => true
  | _ => false

/-- Whether the call is an invocation of `deleteResources`. -/
def Call.isDeleteResources : Call → Bool
  | .deleteResources _ => true
  | _ => false

/-- Whether the call is a create or update of a CephCluster. -/
def Call.writesChild : Call → Bool
  | .create _ => true
  | .update _ => true
  | _ => false

/-- Everything a pass reads and writes: the object behind the pointer `sc`, the fields
`r.conditions` and `r.phase` of the reconciler, the store (its CephClusters and its copy of the
StorageCluster), the readiness file and the log of calls issued. -/
structure World where
  sc : StorageCluster := {}
  conditions : List Condition := []
  phase : String := ""
  cephClusters : Store := fun _ => none
  stored : StorageCluster := {}
  ready : Bool := false
  calls : List Call := []

/-- A reconcile step `func(*ocsv1.StorageCluster, logr.Logger) error` of the reconciler. -/
abbrev Step := World → World × Option Err

/-- What the pass takes from outside: the configuration of the reconciler (`cephImage`); the
functions of the repository that are not among the sources (the stable naming function of the
child, a function of the owner's name; the reconcile steps `ensureCephConfig` and
`ensureNoobaaSystem`; the result `(isDeleted, err)` of `deleteResources`); the outcome of every
call that can fail, one field per call site (`none`: the call succeeds, `some text`: it fails
with that error; `provisionalStatusErr i` is for the status update after the step of index `i`);
and the clock readings, one clock per function that upserts. -/
structure Env where
  cephImage : String := ""
  generateNameForExternalCephCluster : String → String := fun name => name
  ensureCephConfig : Step := fun w => (w, none)
  ensureNoobaaSystem : Step := fun w => (w, none)
  deleteResources : Bool × Option Err := (true, none)
  seedStatusErr : Option String := none
  addFinalizerErr : Option String := none
  deletingStatusErr : Option String := none
  removeFinalizerErr : Option String := none
  controllerRefErr : Option String := none
  getErr : Option String := none
  createErr : Option String := none
  driftStatusErr : Option String := none
  driftUpdateErr : Option String := none
  provisionalStatusErr : Nat → Option String := fun _ => none
  errorStatusErr : Option String := none
  readySetErr : Option String := none
  readyUnsetErr : Option String := none
  finalStatusErr : Option String := none
  ensureControllerRefErr : Option String := none
  ensureGetErr : Option String := none
  ensureCreateErr : Option String := none
  ensureStatusErr : Option String := none
  ensureUpdateErr : Option String := none
  getReferenceErr : Option String := none
  seedClock : Clock := fun _ => 0
  errorClock : Clock := fun _ => 0
  completeClock : Clock := fun _ => 0
  mergeClock : Clock := fun _ => 0
  ensureClock : Clock := fun _ => 0

/-- `r.client.Status().Update(ctx, sc)`: on success the store's copy takes the status of `sc`. -/
def statusUpdate (fail : Option String) (w : World) : World × Option Err :=
  let w := { w with calls := w.calls ++ [Call.statusUpdate w.sc] }
  match fail with
  | some text => (w, some (Err.failure text))
  | none => ({ w with stored := { w.stored with status := w.sc.status } }, none)

/-- `r.client.Update(ctx, sc)`: on success the store's copy is replaced by `sc`. -/
def updateStorageCluster (fail : Option String) (w : World) : World × Option Err :=
  let w := { w with calls := w.calls ++ [Call.updateStorageCluster w.sc] }
  match fail with
  | some text => (w, some (Err.failure text))
  | none => ({ w with stored := w.sc }, none)

/-- `r.client.Get(ctx, key, found)` for a CephCluster: an absent object is a not-found error. -/
def clientGet (fail : Option String) (w : World) (nameSpace name : String) :
    World × Except Err CephCluster :=
  let w := { w with calls := w.calls ++ [Call.get nameSpace name] }
  match fail with
  | some text => (w, .error (Err.failure text))
  | none =>
    match w.cephClusters (nameSpace, name) with
    | none => (w, .error (Err.notFound name))
    | some found => (w, .ok found)

/-- `r.client.Create(ctx, obj)` for a CephCluster: refused when the key is taken; the stored
object gets its first version token. -/
def clientCreate (fail : Option String) (w : World) (obj : CephCluster) : World × Option Err :=
  let w := { w with calls := w.calls ++ [Call.create obj] }
  match fail with
  | some text => (w, some (Err.failure text))
  | none =>
    match w.cephClusters (obj.nameSpace, obj.name) with
    | some _ => (w, some (Err.failure (obj.name ++ " already exists")))
    | none =>
      let written := { obj with resourceVersion := 1 }
      ({ w with cephClusters := w.cephClusters.put (obj.nameSpace, obj.name) written }, none)

/-- `r.client.Update(ctx, obj)` for a CephCluster: whole-object replace, version-checked; a
successful write advances the version token. -/
def clientUpdate (fail : Option String) (w : World) (obj : CephCluster) : World × Option Err :=
  let w := { w with calls := w.calls ++ [Call.update obj] }
  match fail with
  | some text => (w, some (Err.failure text))
  | none =>
    match w.cephClusters (obj.nameSpace, obj.name) with
    | none => (w, some (Err.notFound obj.name))
    | some current =>
      if current.resourceVersion = obj.resourceVersion then
        let written := { obj with resourceVersion := obj.resourceVersion + 1 }
        ({ w with cephClusters := w.cephClusters.put (obj.nameSpace, obj.name) written }, none)
      else (w, some (Err.failure (obj.name ++ " conflict")))

/-- Modelled from the spec: ownership "is set at creation time" (`controllerutil.
SetControllerReference`, a library function): the owner becomes the controller reference of the
object; the call can fail. -/
def SetControllerReference (fail : Option String) (owner : StorageCluster)
    (object : CephCluster) : Except Err CephCluster :=
  match fail with
  | some text => .error (Err.failure text)
  | none =>
    .ok { object with ownerReferences :=
      object.ownerReferences.filter (fun o => !o.controller) ++
        [{ kind := "StorageCluster", name := owner.name, controller := true }] }

/-- Modelled from the spec: the child's identity (`reference.GetReference`, a library function);
the call can fail. -/
def GetReference (fail : Option String) (found : CephCluster) : Except Err ObjectReference :=
  match fail with
  | some text => .error (Err.failure text)
  | none => .ok { kind := "CephCluster", nameSpace := found.nameSpace, name := found.name,
                  resourceVersion := found.resourceVersion }

/-- Modelled from the spec: "register the child's identity into the owner's related-objects set
(idempotent, keyed by identity)" (`objectreferencesv1.SetObjectReference`, a library function):
a reference with the same kind, namespace and name is replaced, a new one is appended. -/
def SetObjectReference : List ObjectReference → ObjectReference → List ObjectReference
  | [], newObject => [newObject]
  | o :: os, newObject =>
    if o.kind = newObject.kind ∧ o.nameSpace = newObject.nameSpace ∧ o.name = newObject.name
    then newObject :: os
    else o :: SetObjectReference os newObject

/-- Modelled from the spec: the deletion-guard token of this controller (the constant
`storageClusterFinalizer`, declared outside the sources). -/
def storageClusterFinalizer : String := "storagecluster.ocs.openshift.io"

/-- Modelled from the spec: membership test on the guard tokens (the helper `contains`, declared
outside the sources). -/
def contains (slice : List String) (s : String) : Bool :=
  slice.any (fun item => item = s)

/-- Modelled from the spec: "remove the guard token" (the helper `remove`, declared outside the
sources): every occurrence of `s` is dropped, the other entries keep their order. -/
def remove (slice : List String) (s : String) : List String :=
  slice.filter (fun item => item ≠ s)

/-- Value of `ocsv1.ReconcileInit`. -/
def ReconcileInit : String := "Init"
/-- Value of `ocsv1.ReconcileFailed`. -/
def ReconcileFailed : String := "ReconcileFailed"
/-- Value of `ocsv1.ReconcileCompleted`. -/
def ReconcileCompleted : String := "ReconcileCompleted"
/-- Value of `ocsv1.ReconcileCompletedMessage`. -/
def ReconcileCompletedMessage : String := "Reconcile completed successfully"

/-! ## `externalstoragecluster_controller.go` -/

/-- `newExternalCephCluster`: the desired child. -/
def newExternalCephCluster (env : Env) (sc : StorageCluster) (cephImage : String) : CephCluster :=
  { name := env.generateNameForExternalCephCluster sc.name
    nameSpace := sc.nameSpace
    labels := [("app", sc.name)]
    spec := { externalEnable := true, dataDirHostPath := "/var/lib/rook",
              cephVersionImage := cephImage } }

/-- Assignment to `sc.Status.Phase`. -/
def World.setPhase (w : World) (phase : String) : World :=
  { w with sc := { w.sc with status := { w.sc.status with phase := phase } } }

/-- Assignment to `sc.Status.Conditions`. -/
def World.setConditions (w : World) (conditions : List Condition) : World :=
  { w with sc := { w.sc with status := { w.sc.status with conditions := conditions } } }

/-- The tail of `ensureExternalCephCluster` (source lines 280-316), reached when the child was
found with the desired spec. -/
def ensureExternalCephClusterFound (env : Env) (w : World) (found : CephCluster) :
    World × Option Err :=
  match GetReference env.getReferenceErr found with
  | .error err => (w, some err)
  | .ok objectRef =>
    let w := { w with sc := { w.sc with status := { w.sc.status with
      relatedObjects := SetObjectReference w.sc.status.relatedObjects objectRef } } }
    let conditions :=
      if found.status.state = "" then
        MapCephClusterNoConditions env.ensureClock w.conditions
          "CephClusterStatus" "CephCluster resource is not reporting status"
      else
        MapExternalCephClusterNegativeConditions env.ensureClock w.conditions found.status
    let w := { w with conditions := conditions }
    let w :=
      if w.sc.status.phase = PhaseClusterExpanding ∧ found.status.state ≠ ClusterStateUpdating
      then { w with phase := PhaseClusterExpanding }
      else w
    let w := if found.status.state = ClusterStateConnecting then w.setPhase PhaseConnecting else w
    let w := if found.status.state = ClusterStateConnected then w.setPhase PhaseConnected else w
    (w, none)

/-- `ensureExternalCephCluster`. -/
def ensureExternalCephCluster (env : Env) : Step := fun w =>
  let cephCluster := newExternalCephCluster env w.sc env.cephImage
  match SetControllerReference env.ensureControllerRefErr w.sc cephCluster with
  | .error err => (w, some err)
  | .ok cephCluster =>
    match clientGet env.ensureGetErr w cephCluster.nameSpace cephCluster.name with
    | (w, .error err) =>
      if err.isNotFound then clientCreate env.ensureCreateErr w cephCluster
      else (w, some err)
    | (w, .ok found) =>
      if cephCluster.spec ≠ found.spec then
        let w := w.setPhase found.status.state
        match statusUpdate env.ensureStatusErr w with
        | (w, some err) => (w, some err)
        | (w, none) => clientUpdate env.ensureUpdateErr w { found with spec := cephCluster.spec }
      else ensureExternalCephClusterFound env w found

/-- The ordered step list of the pass. -/
def stepList (env : Env) : List Step :=
  [env.ensureCephConfig, ensureExternalCephCluster env, env.ensureNoobaaSystem]

/-- The provisional phase written after a step (source lines 127-141); a failure of the status
update is only logged. -/
def provisionalPhase (env : Env) (i : Nat) (w : World) : World :=
  if w.phase = PhaseClusterExpanding then
    (statusUpdate (env.provisionalStatusErr i) (w.setPhase PhaseClusterExpanding)).1
  else if w.sc.status.phase ≠ PhaseReady ∧ w.sc.status.phase ≠ PhaseConnecting ∧
      w.sc.status.phase ≠ PhaseConnected then
    (statusUpdate (env.provisionalStatusErr i) (w.setPhase PhaseProgressing)).1
  else w

/-- The error exit of the step loop (source lines 142-153); a failure of the status update is
only logged. -/
def stepFailed (env : Env) (w : World) (err : Err) : World :=
  let message := "Error while reconciling: " ++ err.text
  let w := w.setConditions (SetErrorCondition env.errorClock w.sc.status.conditions
    ReconcileFailed message)
  let w := w.setPhase PhaseError
  (statusUpdate env.errorStatusErr w).1

/-- The loop over the step list (source lines 120-154). `i` counts the steps invoked so far; the
result carries the number of steps invoked and the error of the step that failed, if any. -/
def runSteps (env : Env) : List Step → Nat → World → World × Nat × Option Err
  | [], i, w => (w, i, none)
  | f :: fs, i, w =>
    match f w with
    | (w, err) =>
      let w := provisionalPhase env i w
      match err with
      | some err => (stepFailed env w err, i + 1, some err)
      | none => runSteps env fs (i + 1) w

/-- The merge loop `for _, condition := range r.conditions` (source lines 184-186); the `i`-th
upsert of the loop reads `clk i`. -/
def mergeConditions (clk : Clock) : Nat → List Condition → List Condition → List Condition
  | _, conditions, [] => conditions
  | i, conditions, condition :: rest =>
    mergeConditions clk (i + 1) (SetStatusCondition (clk i) conditions condition) rest

/-- The writes of the non-empty branch (source lines 184-194): every condition of the aggregate
is upserted into the status conditions, then ReconcileComplete=True. -/
def mergeAggregate (clk : Clock) (conditions aggregate : List Condition) : List Condition :=
  SetStatusCondition (clk aggregate.length) (mergeConditions clk 0 conditions aggregate)
    { type := ConditionReconcileComplete, status := ConditionTrue,
      reason := ReconcileCompleted, message := ReconcileCompletedMessage }

/-- What a pass returns and leaves: the world, the returned error (`reconcile.Result` is always
empty) and the number of reconcile steps it invoked. -/
structure Outcome where
  world : World
  err : Option Err
  stepsRun : Nat

/-- The end of the pass after a step loop without error (source lines 156-221); `n` is the
number of steps invoked. -/
def finishPass (env : Env) (w : World) (n : Nat) : Outcome :=
  let final (w : World) : Outcome :=
    match statusUpdate env.finalStatusErr w with
    | (w, some phaseErr) => ⟨w, some phaseErr, n⟩
    | (w, none) => ⟨w, none, n⟩
  if w.conditions = [] then
    let w := w.setConditions (SetCompleteCondition env.completeClock w.sc.status.conditions
      ReconcileCompleted ReconcileCompletedMessage)
    match env.readySetErr with
    | some text => ⟨w, some (Err.failure text), n⟩
    | none =>
      let w := { w with ready := true }
      let w := if w.sc.status.phase ≠ PhaseClusterExpanding then w.setPhase PhaseReady else w
      final w
  else
    let w := w.setConditions (mergeAggregate env.mergeClock w.sc.status.conditions w.conditions)
    let derive (w : World) : Outcome :=
      let w :=
        if w.sc.status.phase ≠ PhaseClusterExpanding then
          if IsStatusConditionTrue w.sc.status.conditions ConditionProgressing then
            w.setPhase PhaseProgressing
          else if IsStatusConditionFalse w.sc.status.conditions ConditionUpgradeable then
            w.setPhase PhaseNotReady
          else w.setPhase PhaseError
        else w
      final w
    if IsStatusConditionFalse w.sc.status.conditions ConditionUpgradeable then
      match env.readyUnsetErr with
      | some text => ⟨w, some (Err.failure text), n⟩
      | none => derive { w with ready := false }
    else derive w

/-- The deletion branch (source lines 53-79). -/
def deletionBranch (env : Env) (w : World) : World × Option Err :=
  let w := w.setPhase PhaseDeleting
  let w := (statusUpdate env.deletingStatusErr w).1
  if contains w.sc.finalizers storageClusterFinalizer then
    let w := { w with calls := w.calls ++ [Call.deleteResources w.sc] }
    match env.deleteResources with
    | (_, some err) => (w, some err)
    | (true, none) =>
      let w := { w with sc := { w.sc with
        finalizers := remove w.sc.finalizers storageClusterFinalizer } }
      match updateStorageCluster env.removeFinalizerErr w with
      | (w, some err) => (w, some err)
      | (w, none) => (w, none)
    | (false, none) => (w, none)
  else (w, none)

/-- The live branch up to the step loop (source lines 82-118): the child is fetched, created
when absent, updated when its spec differs, and the fields `r.conditions` and `r.phase` are
reset. `.error out` is an early return of the pass, `.ok w` the world in which the loop starts. -/
def fetchChild (env : Env) (w : World) : Except Outcome World :=
  let externalCephCluster := newExternalCephCluster env w.sc env.cephImage
  match SetControllerReference env.controllerRefErr w.sc externalCephCluster with
  | .error err => .error ⟨w, some err, 0⟩
  | .ok externalCephCluster =>
    match clientGet env.getErr w externalCephCluster.nameSpace externalCephCluster.name with
    | (w, .error err) =>
      if err.isNotFound then
        match clientCreate env.createErr w externalCephCluster with
        | (w, some createErr) => .error ⟨w, some createErr, 0⟩
        | (w, none) => .error ⟨w, some err, 0⟩
      else .error ⟨w, some err, 0⟩
    | (w, .ok found) =>
      let drift : World × Option Err :=
        if externalCephCluster.spec ≠ found.spec then
          let w := w.setPhase found.status.state
          match statusUpdate env.driftStatusErr w with
          | (w, some err) => (w, some err)
          | (w, none) =>
            clientUpdate env.driftUpdateErr w { found with spec := externalCephCluster.spec }
        else (w, none)
      match drift with
      | (w, some err) => .error ⟨w, some err, 0⟩
      | (w, none) => .ok { w with conditions := [], phase := "" }

/-- The seeding of the conditions when there are none (source lines 30-40). The source tests
`sc.Status.Conditions == nil`; the nil slice is `[]` here, and an empty slice that is not nil
(which the source would leave unseeded) has no representation of its own. -/
def seedConditions (env : Env) (w : World) : World × Option Err :=
  if w.sc.status.conditions = [] then
    let w := w.setConditions (SetProgressingCondition env.seedClock w.sc.status.conditions
      ReconcileInit "Initializing External StorageCluster")
    statusUpdate env.seedStatusErr w
  else (w, none)

/-- The pass up to the step loop (source lines 30-118): the seeding of the conditions, the
deletion check with the deletion branch, the guard token and the child. `.error out` is an early
return of the pass, `.ok w` the world in which the loop starts. -/
def beforeSteps (env : Env) (w : World) : Except Outcome World :=
  match seedConditions env w with
  | (w, some err) => .error ⟨w, some err, 0⟩
  | (w, none) =>
    if deletionTimestampIsZero w.sc then
      if !contains w.sc.finalizers storageClusterFinalizer then
        let w := { w with sc := { w.sc with
          finalizers := w.sc.finalizers ++ [storageClusterFinalizer] } }
        match updateStorageCluster env.addFinalizerErr w with
        | (w, some err) => .error ⟨w, some err, 0⟩
        | (w, none) => fetchChild env w
      else fetchChild env w
    else
      match deletionBranch env w with
      | (w, err) => .error ⟨w, err, 0⟩

/-- `ReconcileExternalStorageCluster`: one pass over the StorageCluster `w.sc`. -/
def ReconcileExternalStorageCluster (env : Env) (w : World) : Outcome :=
  match beforeSteps env w with
  | .error out => out
  | .ok w =>
    match runSteps env (stepList env) 0 w with
    | (w, n, some err) => ⟨w, some err, n⟩
    | (w, n, none) => finishPass env w n

/-- A store state is well formed when every object is stored under its own namespace and name. -/
def Store.wf (store : Store) : Prop :=
  ∀ (k : String × String) (c : CephCluster), store k = some c → (c.nameSpace, c.name) = k

/-! ## Concrete worlds and environments -/

/-- A live StorageCluster in the given phase that carries the guard token and one condition, and
a store that holds its child with the desired spec (for the empty image) and the given status. -/
def worldWith (phase : String) (childStatus : ClusterStatus) : World :=
  { sc := { name := "ocs", nameSpace := "openshift-storage",
            finalizers := [storageClusterFinalizer],
            status := { phase := phase, conditions :=
              [{ type := "Available", status := "False", reason := "Init", message := "m" }] } },
    cephClusters := fun k =>
      if k = ("openshift-storage", "ocs") then
        some { name := "ocs", nameSpace := "openshift-storage", resourceVersion := 4,
               spec := { externalEnable := true, dataDirHostPath := "/var/lib/rook" },
               status := childStatus }
      else none }

/-- The world `worldWith` in phase Progressing with a child in state Connected. -/
def liveWorld : World := worldWith "Progressing" { state := "Connected" }

/-- The world `worldWith` in phase Ready with a child that reports no state. -/
def silentChildWorld : World := worldWith "Ready" {}

/-- An environment in which the readiness file cannot be removed; everything else succeeds and
the two steps outside the sources do nothing. -/
def unsetFailsEnv : Env := { readyUnsetErr := some "cannot remove the readiness file" }

/-- An environment in which the third step fails; everything else succeeds. -/
def noobaaFailsEnv : Env :=
  { ensureNoobaaSystem := fun w => (w, some (Err.failure "noobaa is down")) }

/-- An environment in which every call succeeds and the first step leaves the store without the
child (so that `ensureExternalCephCluster` creates it and reports nothing). -/
def childGoneEnv : Env :=
  { ensureCephConfig := fun w => ({ w with cephClusters := fun _ => none }, none) }

/-- As `childGoneEnv`, but the readiness file cannot be written. -/
def readyFailsEnv : Env :=
  { childGoneEnv with readySetErr := some "cannot write the readiness file" }

/-- A StorageCluster under deletion (deletion requested at 7) that carries the guard token and
another finalizer, in phase Ready, with its child in the store. -/
def deletingWorld : World :=
  { worldWith "Ready" { state := "Connected" } with
    sc := { name := "ocs", nameSpace := "openshift-storage",
            finalizers := ["other.io/guard", storageClusterFinalizer],
            deletionTimestamp := some 7,
            status := { phase := "Ready", conditions :=
              [{ type := "Available", status := "True", reason := "r", message := "m" }] } } }

/-- An environment in which the cleanup reports "not yet deleted". -/
def notYetDeletedEnv : Env := { deleteResources := (false, none) }

/-- A store that holds the one object `c`, under its own namespace and name. -/
def singleStore (c : CephCluster) : Store :=
  fun k => if k = (c.nameSpace, c.name) then some c else none

/-- A child with another data directory than the desired spec, reporting state Updating. -/
def driftChild : CephCluster :=
  { name := "ocs", nameSpace := "openshift-storage", resourceVersion := 4,
    spec := { externalEnable := true, dataDirHostPath := "/old/dir" },
    status := { state := "Updating", message := "rolling" } }

/-- The world `worldWith` in phase Ready, but the store holds `driftChild`. -/
def driftWorld : World :=
  { worldWith "Ready" {} with cephClusters := singleStore driftChild }

/-- An environment in which `SetControllerReference` fails inside
`ensureExternalCephCluster`; every store call succeeds. -/
def ownerRefFailsEnv : Env := { ensureControllerRefErr := some "owner type not registered" }

/-- The world `worldWith` in phase Progressing, but the store holds no CephCluster. -/
def noChildWorld : World :=
  { worldWith "Progressing" {} with cephClusters := fun _ => none }

/-- An environment in which the get of the child before the step loop fails; everything else
succeeds. -/
def getFailsEnv : Env := { getErr := some "connection refused" }

/-- The world `worldWith` in phase Progressing with a child in state Connecting. -/
def connectingWorld : World := worldWith "Progressing" { state := "Connecting" }

/-- An environment in which the first step sets the expansion flag `r.phase`; everything else
succeeds. -/
def expansionEnv : Env :=
  { ensureCephConfig := fun w => ({ w with phase := PhaseClusterExpanding }, none) }

/-- The world `worldWith` in phase Ready with a child in state Error, message "disk full". -/
def errorChildWorld : World := worldWith "Ready" { state := "Error", message := "disk full" }

/-! ## `quickstarts.go` -/

/-- `consolev1.ConsoleQuickStartSpec`: the three fields the test of the package compares;
`others` stands for all remaining fields. -/
structure ConsoleQuickStartSpec where
  displayName : String := ""
  durationMinutes : Int := 0
  introduction : String := ""
  others : String := ""
deriving DecidableEq, Repr

/-- `consolev1.ConsoleQuickStart`. `resourceVersion` is the store's version token. -/
structure ConsoleQuickStart where
  name : String := ""
  nameSpace : String := ""
  resourceVersion : Nat := 0
  spec : ConsoleQuickStartSpec := {}
deriving DecidableEq, Repr

/-- The key `types.NamespacedName` under which the loop looks a quickstart up. -/
def ConsoleQuickStart.key (qs : ConsoleQuickStart) : String × String :=
  (qs.nameSpace, qs.name)

/-- The ConsoleQuickStart objects held by the store, keyed by namespace and name. -/
abbrev QuickStartStore := String × String → Option ConsoleQuickStart

/-- Writes `obj` at `key`. -/
def QuickStartStore.put (store : QuickStartStore) (key : String × String)
    (obj : ConsoleQuickStart) : QuickStartStore :=
  fun k => if k = key then some obj else store k

/-- A store state is well formed when every object is stored under its own namespace and name. -/
def QuickStartStore.wf (store : QuickStartStore) : Prop :=
  ∀ (k : String × String) (q : ConsoleQuickStart), store k = some q → q.key = k

/-- The package variable `quickstartDir`. -/
def quickstartDir : String := "/quickstarts/"

/-- What `FetchQuickStarts` reads: `ioutil.ReadDir` (the names of the entries of a directory, in
the order returned), `ioutil.ReadFile` of the file `path.Join(dir, name)`, and the decoder
`k8sYAML.NewYAMLOrJSONDecoder(...).Decode` applied to the content of a file. Each can fail. -/
structure Files where
  readDir : String → Except Err (List String) := fun _ => .ok []
  readFile : String → String → Except Err String := fun _ _ => .ok ""
  decode : String → Except Err ConsoleQuickStart := fun _ => .ok {}

/-- The loop of `FetchQuickStarts` over the directory entries (source lines 63-73): the first
file that cannot be read or decoded ends the function with that error. -/
def fetchLoop (files : Files) (dir : String) :
    List String → List ConsoleQuickStart → Except Err (List ConsoleQuickStart)
  | [], quickstarts => .ok quickstarts
  | f :: rest, quickstarts =>
    match files.readFile dir f with
    | .error err => .error err
    | .ok qsData =>
      match files.decode qsData with
      | .error err => .error err
      | .ok qs => fetchLoop files dir rest (quickstarts ++ [qs])

/-- `FetchQuickStarts`. -/
def FetchQuickStarts (files : Files) (dir : String) : Except Err (List ConsoleQuickStart) :=
  match files.readDir dir with
  | .error err => .error err
  | .ok names => fetchLoop files dir names []

/-- What `ensureQuickStarts` reads and writes: the object behind the pointer `sc` it is given and
the ConsoleQuickStarts of the store. -/
structure QuickStartWorld where
  sc : StorageCluster := {}
  quickStarts : QuickStartStore := fun _ => none

/-- What `ensureQuickStarts` takes from outside: the files of the loader and the outcome of every
store call, one per iteration of the loop (`none`: the call goes through to the store, `some err`:
it returns that error). -/
structure QuickStartEnv where
  files : Files := {}
  getErr : Nat → Option Err := fun _ => none
  createErr : Nat → Option Err := fun _ => none
  updateErr : Nat → Option Err := fun _ => none

/-- `r.client.Get(ctx, key, &found)` for a ConsoleQuickStart: an absent object is a not-found
error. -/
def getQuickStart (fail : Option Err) (w : QuickStartWorld) (nameSpace name : String) :
    Except Err ConsoleQuickStart :=
  match fail with
  | some err => .error err
  | none =>
    match w.quickStarts (nameSpace, name) with
    | none => .error (Err.notFound name)
    | some found => .ok found

/-- `r.client.Create(ctx, &qs)` for a ConsoleQuickStart: refused when the key is taken; the
stored object gets its first version token. -/
def createQuickStart (fail : Option Err) (w : QuickStartWorld) (obj : ConsoleQuickStart) :
    QuickStartWorld × Option Err :=
  match fail with
  | some err => (w, some err)
  | none =>
    match w.quickStarts obj.key with
    | some _ => (w, some (Err.failure (obj.name ++ " already exists")))
    | none =>
      let written := { obj with resourceVersion := 1 }
      ({ w with quickStarts := w.quickStarts.put obj.key written }, none)

/-- `r.client.Update(ctx, &found)` for a ConsoleQuickStart: whole-object replace,
version-checked; a successful write advances the version token. -/
def updateQuickStart (fail : Option Err) (w : QuickStartWorld) (obj : ConsoleQuickStart) :
    QuickStartWorld × Option Err :=
  match fail with
  | some err => (w, some err)
  | none =>
    match w.quickStarts obj.key with
    | none => (w, some (Err.notFound obj.name))
    | some current =>
      if current.resourceVersion = obj.resourceVersion then
        let written := { obj with resourceVersion := obj.resourceVersion + 1 }
        ({ w with quickStarts := w.quickStarts.put obj.key written }, none)
      else (w, some (Err.failure (obj.name ++ " conflict")))

/-- The loop of `ensureQuickStarts` over the fetched quickstarts (source lines 30-53); `i` is the
index of the iteration. Every error is logged and ends the function with a nil error. -/
def ensureQuickStartsLoop (env : QuickStartEnv) :
    List ConsoleQuickStart → Nat → QuickStartWorld → QuickStartWorld × Option Err
  | [], _, w => (w, none)
  | qs :: rest, i, w =>
    match getQuickStart (env.getErr i) w qs.nameSpace qs.name with
    | .error err =>
      if err.isNotFound then
        match createQuickStart (env.createErr i) w qs with
        | (w, some _) => (w, none)
        | (w, none) => ensureQuickStartsLoop env rest (i + 1) w
      else (w, none)
    | .ok found =>
      match updateQuickStart (env.updateErr i) w { found with spec := qs.spec } with
      | (w, some _) => (w, none)
      | (w, none) => ensureQuickStartsLoop env rest (i + 1) w

/-- `ensureQuickStarts`. -/
def ensureQuickStarts (env : QuickStartEnv) (w : QuickStartWorld) :
    QuickStartWorld × Option Err :=
  match FetchQuickStarts env.files quickstartDir with
  | .error _ => (w, none)
  | .ok allQuickStarts =>
    if allQuickStarts.length = 0 then (w, none)
    else ensureQuickStartsLoop env allQuickStarts 0 w

/-- The object the store holds under the key of `qs` after an iteration of the loop whose calls
succeed: the created copy of `qs`, or the object found with its spec replaced. -/
def writtenQuickStart (store : QuickStartStore) (qs : ConsoleQuickStart) : ConsoleQuickStart :=
  match store qs.key with
  | none => { qs with resourceVersion := 1 }
  | some found => { found with spec := qs.spec, resourceVersion := found.resourceVersion + 1 }

/-- A directory with the two documents of the package test; the content of a file is modelled by
its name, and the decoder gives the quickstart of that name. -/
def twoDocuments : Files :=
  { readDir := fun _ => .ok ["getting-started-ocs.yaml", "ocs-configuration.yaml"]
    readFile := fun _ name => .ok name
    decode := fun data =>
      if data = "getting-started-ocs.yaml" then
        .ok { name := "getting-started-ocs",
              spec := { displayName := "Getting started", durationMinutes := 10 } }
      else
        .ok { name := "ocs-configuration",
              spec := { displayName := "Configuration", durationMinutes := 5 } } }

/-- A store that holds an older version of the quickstart "ocs-configuration" only. -/
def oldQuickStartWorld : QuickStartWorld :=
  { sc := { name := "ocs", nameSpace := "openshift-storage", status := { phase := "Ready" } },
    quickStarts := fun k =>
      if k = ("", "ocs-configuration") then
        some { name := "ocs-configuration", resourceVersion := 7,
               spec := { displayName := "Old", durationMinutes := 1 } }
      else none }

/-- An environment with the two documents in which the create of the first iteration fails. -/
def createFailsEnv : QuickStartEnv :=
  { files := twoDocuments,
    createErr := fun _ => some (Err.failure "forbidden") }

/-! ## The condition store: lookup and upsert -/

@[simp]
theorem mergeCondition_type (now : Time) (e n : Condition) :
    (mergeCondition now e n).type = e.type := by
  unfold mergeCondition
  by_cases h : e.status = n.status <;> simp [h]

@[simp]
theorem mergeCondition_status (now : Time) (e n : Condition) :
    (mergeCondition now e n).status = n.status := by
  unfold mergeCondition
  by_cases h : e.status = n.status <;> simp [h]

@[simp]
theorem mergeCondition_reason (now : Time) (e n : Condition) :
    (mergeCondition now e n).reason = n.reason := by
  unfold mergeCondition
  by_cases h : e.status = n.status <;> simp [h]

@[simp]
theorem mergeCondition_message (now : Time) (e n : Condition) :
    (mergeCondition now e n).message = n.message := by
  unfold mergeCondition
  by_cases h : e.status = n.status <;> simp [h]

theorem mergeCondition_time_same (now : Time) (e n : Condition) (h : e.status = n.status) :
    (mergeCondition now e n).lastTransitionTime = e.lastTransitionTime := by
  unfold mergeCondition
  simp [h]

theorem mergeCondition_time_changed (now : Time) (e n : Condition) (h : e.status ≠ n.status) :
    (mergeCondition now e n).lastTransitionTime = now := by
  unfold mergeCondition
  simp [h]

@[simp]
theorem SetStatusCondition_nil (now : Time) (n : Condition) :
    SetStatusCondition now [] n =
      [{ n with lastTransitionTime := now, lastHeartbeatTime := now }] := by
  simp [SetStatusCondition, FindStatusCondition]

/-- The upsert, read record by record. -/
theorem SetStatusCondition_cons (now : Time) (c : Condition) (cs : List Condition)
    (n : Condition) :
    SetStatusCondition now (c :: cs) n =
      if c.type = n.type then mergeCondition now c n :: cs
      else c :: SetStatusCondition now cs n := by
  by_cases h : c.type = n.type
  · simp [SetStatusCondition, FindStatusCondition, modifyFirst, h]
  · simp only [SetStatusCondition, FindStatusCondition, modifyFirst, h, if_false]
    cases FindStatusCondition cs n.type <;> simp

/-- The types held after an upsert. -/
theorem SetStatusCondition_types (now : Time) (l : List Condition) (n : Condition) :
    (SetStatusCondition now l n).map (fun c => c.type) =
      if n.type ∈ l.map (fun c => c.type) then l.map (fun c => c.type)
      else l.map (fun c => c.type) ++ [n.type] := by
  induction l with
  | nil => simp
  | cons c cs ih =>
    rw [SetStatusCondition_cons]
    by_cases h : c.type = n.type
    · simp [h]
    · have h2 : ¬ n.type = c.type := fun e => h e.symm
      simp only [h, if_false, List.map_cons, ih, List.mem_cons, h2, false_or]
      split <;> simp

/-- An upsert keeps the list free of duplicate types. -/
theorem SetStatusCondition_unique (now : Time) (l : List Condition) (n : Condition)
    (h : UniqueTypes l) : UniqueTypes (SetStatusCondition now l n) := by
  unfold UniqueTypes at *
  rw [SetStatusCondition_types]
  split
  · exact h
  · rename_i hn
    rw [List.nodup_append]
    refine ⟨h, List.nodup_singleton _, ?_⟩
    intro a ha hb
    simp only [List.mem_singleton] at hb
    subst hb
    exact hn ha

/-- After an upsert of `n`, the lookup of `n.type` finds the merged record. -/
theorem Find_SetStatusCondition_same (now : Time) (l : List Condition) (n : Condition) :
    FindStatusCondition (SetStatusCondition now l n) n.type =
      some (match FindStatusCondition l n.type with
        | none => { n with lastTransitionTime := now, lastHeartbeatTime := now }
        | some e => mergeCondition now e n) := by
  induction l with
  | nil => simp [FindStatusCondition]
  | cons c cs ih =>
    rw [SetStatusCondition_cons]
    by_cases h : c.type = n.type
    · simp [FindStatusCondition, h]
    · simp [FindStatusCondition, h, ih]

/-- An upsert of `n` leaves the lookup of every other type as it was. -/
theorem Find_SetStatusCondition_other (now : Time) (l : List Condition) (n : Condition)
    (t : String) (ht : t ≠ n.type) :
    FindStatusCondition (SetStatusCondition now l n) t = FindStatusCondition l t := by
  induction l with
  | nil =>
    have : ¬ n.type = t := fun e => ht e.symm
    simp [FindStatusCondition, this]
  | cons c cs ih =>
    rw [SetStatusCondition_cons]
    by_cases h : c.type = n.type
    · have h3 : ¬ n.type = t := fun e => ht e.symm
      simp [FindStatusCondition, h, h3]
    · by_cases h2 : c.type = t
      · subst h2
        simp [FindStatusCondition, h]
      · simp [FindStatusCondition, h, h2, ih]

/-- An upsert of `n` changes no record of another type: any filter that rejects the records of
type `n.type` sees the same records in the same order. -/
theorem filter_SetStatusCondition (now : Time) (l : List Condition) (n : Condition)
    (p : Condition → Bool) (hp : ∀ r : Condition, r.type = n.type → p r = false) :
    (SetStatusCondition now l n).filter p = l.filter p := by
  induction l with
  | nil => simp [hp]
  | cons c cs ih =>
    rw [SetStatusCondition_cons]
    by_cases h : c.type = n.type
    · have h1 : p c = false := hp c h
      have h2 : p (mergeCondition now c n) = false := hp _ (by simp [h])
      simp [h, List.filter_cons, h1, h2]
    · simp [h, List.filter_cons, ih]

/-- In a list without duplicate types every record is the one its type looks up. -/
theorem Find_of_mem_unique (l : List Condition) (r : Condition) (hu : UniqueTypes l)
    (hr : r ∈ l) : FindStatusCondition l r.type = some r := by
  induction l with
  | nil => simp at hr
  | cons c cs ih =>
    unfold UniqueTypes at hu
    simp only [List.map_cons, List.nodup_cons] at hu
    rcases List.mem_cons.mp hr with rfl | hmem
    · simp [FindStatusCondition]
    · have hne : ¬ c.type = r.type := by
        intro e
        exact hu.1 (e ▸ List.mem_map_of_mem (fun c => c.type) hmem)
      simp [FindStatusCondition, hne, ih hu.2 hmem]

/-- A record found by lookup is in the list and has the type looked up. -/
theorem Find_some_mem (l : List Condition) (t : String) (r : Condition)
    (h : FindStatusCondition l t = some r) : r ∈ l ∧ r.type = t := by
  induction l with
  | nil => simp [FindStatusCondition] at h
  | cons c cs ih =>
    by_cases hc : c.type = t
    · simp [FindStatusCondition, hc] at h
      subst h
      exact ⟨List.mem_cons_self _ _, hc⟩
    · simp [FindStatusCondition, hc] at h
      exact ⟨List.mem_cons_of_mem _ (ih h).1, (ih h).2⟩

/-- After an upsert of `n` the list holds `n.type` with the status, reason and message of `n`. -/
theorem holdsRecord_upsert (now : Time) (l : List Condition) (n : Condition) :
    holdsRecord (SetStatusCondition now l n) n.type n.status n.reason n.message := by
  refine ⟨_, Find_SetStatusCondition_same now l n, ?_⟩
  cases FindStatusCondition l n.type <;> simp

/-- An upsert of another type keeps what the list holds for `t`. -/
theorem holdsRecord_upsert_other (now : Time) (l : List Condition) (n : Condition)
    (t status reason message : String) (ht : t ≠ n.type)
    (h : holdsRecord l t status reason message) :
    holdsRecord (SetStatusCondition now l n) t status reason message := by
  obtain ⟨r, hr, h⟩ := h
  exact ⟨r, by rw [Find_SetStatusCondition_other now l n t ht]; exact hr, h⟩

/-- Upserting the same condition again and again keeps the transition time. -/
theorem repeated_upsert_time (c : Condition) (times : List Time) :
    ∀ (l : List Condition) (e : Condition), FindStatusCondition l c.type = some e →
      e.status = c.status →
      ∃ rN, FindStatusCondition (times.foldl (fun l t => SetStatusCondition t l c) l) c.type
          = some rN ∧ rN.lastTransitionTime = e.lastTransitionTime := by
  induction times with
  | nil => intro l e he _; exact ⟨e, he, rfl⟩
  | cons t ts ih =>
    intro l e he hs
    have h1 : FindStatusCondition (SetStatusCondition t l c) c.type
        = some (mergeCondition t e c) := by
      rw [Find_SetStatusCondition_same, he]
    obtain ⟨rN, hrN, htime⟩ := ih (SetStatusCondition t l c) (mergeCondition t e c) h1 (by simp)
    exact ⟨rN, hrN, by rw [htime, mergeCondition_time_same t e c hs]⟩

theorem setStatusConditionIfNotPresent_unique (now : Time) (l : List Condition) (n : Condition)
    (h : UniqueTypes l) : UniqueTypes (setStatusConditionIfNotPresent now l n) := by
  unfold setStatusConditionIfNotPresent
  split
  · split
    · exact h
    · exact SetStatusCondition_unique now l n h
  · exact SetStatusCondition_unique now l n h

/-! ## Claims on the condition store and on `status.go` -/

/-- C1: in a list with at most one record per type that holds a record `old` of the type of `c`,
an upsert of `c` at clock reading `now` leaves exactly one record `r` of that type; if `old` had
the status of `c` then `r` keeps the `lastTransitionTime` of `old`; if the status differed then
the `lastTransitionTime` of `r` is `now`, strictly later than the old one whenever `now` is later
than it; and any number of further upserts of `c`, at any readings, keeps the time of `r`. -/
theorem upsert_lastTransitionTime (conds : List Condition) (c : Condition) (now : Time)
    (old : Condition) (hu : UniqueTypes conds) (hold : old ∈ conds) (ht : old.type = c.type) :
    ∃ r, FindStatusCondition (SetStatusCondition now conds c) c.type = some r ∧
      (∀ r2 ∈ SetStatusCondition now conds c, r2.type = c.type → r2 = r) ∧
      (old.status = c.status → r.lastTransitionTime = old.lastTransitionTime) ∧
      (old.status ≠ c.status → r.lastTransitionTime = now ∧
        (old.lastTransitionTime < now → old.lastTransitionTime < r.lastTransitionTime)) ∧
      (∀ times : List Time, ∃ rN,
        FindStatusCondition (times.foldl (fun l t => SetStatusCondition t l c)
          (SetStatusCondition now conds c)) c.type = some rN ∧
        rN.lastTransitionTime = r.lastTransitionTime) := by
  have hfind : FindStatusCondition conds c.type = some old := by
    rw [← ht]; exact Find_of_mem_unique conds old hu hold
  have hres : FindStatusCondition (SetStatusCondition now conds c) c.type
      = some (mergeCondition now old c) := by
    rw [Find_SetStatusCondition_same, hfind]
  refine ⟨mergeCondition now old c, hres, ?_, ?_, ?_, ?_⟩
  · intro r2 hr2 ht2
    have h2 := Find_of_mem_unique _ r2 (SetStatusCondition_unique now conds c hu) hr2
    rw [ht2, hres] at h2
    exact (Option.some.inj h2).symm
  · exact mergeCondition_time_same now old c
  · intro hne
    have := mergeCondition_time_changed now old c hne
    exact ⟨this, fun hlt => by rw [this]; exact hlt⟩
  · intro times
    exact repeated_upsert_time c times _ _ hres (by simp)

/-- C1, at a list holding Available=False since 3: the same status again at reading 9 keeps 3, a
changed status sets 9. -/
theorem upsert_lastTransitionTime_witness :
    (∃ r, FindStatusCondition (SetStatusCondition 9
        [{ type := "Available", status := "False", reason := "a", message := "b",
           lastTransitionTime := 3, lastHeartbeatTime := 3 }]
        { type := "Available", status := "True", reason := "c", message := "d" })
        "Available" = some r ∧ r.lastTransitionTime = 9) :=
  have h := upsert_lastTransitionTime
    [{ type := "Available", status := "False", reason := "a", message := "b",
       lastTransitionTime := 3, lastHeartbeatTime := 3 }]
    { type := "Available", status := "True", reason := "c", message := "d" } 9
    { type := "Available", status := "False", reason := "a", message := "b",
      lastTransitionTime := 3, lastHeartbeatTime := 3 }
    (by decide) (by simp) rfl
  match h with
  | ⟨r, hr, _, _, hchg, _⟩ => ⟨r, hr, (hchg (by decide)).1⟩

/-- C2: every operation of `status.go` keeps "at most one record per condition type". -/
theorem status_operations_keep_unique (conds : List Condition) (h : UniqueTypes conds) :
    (∀ clk reason message, UniqueTypes (SetProgressingCondition clk conds reason message)) ∧
    (∀ clk reason message, UniqueTypes (SetErrorCondition clk conds reason message)) ∧
    (∀ clk reason message, UniqueTypes (SetCompleteCondition clk conds reason message)) ∧
    (∀ clk found, UniqueTypes (MapCephClusterNegativeConditions clk conds found)) ∧
    (∀ clk found, UniqueTypes (MapExternalCephClusterNegativeConditions clk conds found)) ∧
    (∀ clk reason message, UniqueTypes (MapCephClusterNoConditions clk conds reason message)) ∧
    (∀ now condition, UniqueTypes (setStatusConditionIfNotPresent now conds condition)) ∧
    (∀ clk found, UniqueTypes (MapNoobaaNegativeConditions clk conds found)) := by
  refine ⟨?_, ?_, ?_, ?_, ?_, ?_, ?_, ?_⟩
  · intro clk reason message
    unfold SetProgressingCondition
    repeat apply SetStatusCondition_unique
    exact h
  · intro clk reason message
    unfold SetErrorCondition
    exact SetStatusCondition_unique _ _ _ h
  · intro clk reason message
    unfold SetCompleteCondition
    repeat apply SetStatusCondition_unique
    exact h
  · intro clk found
    unfold MapCephClusterNegativeConditions
    split_ifs
    · repeat apply SetStatusCondition_unique
      exact h
    · repeat apply SetStatusCondition_unique
      exact h
    · repeat apply SetStatusCondition_unique
      exact h
    · exact h
  · intro clk found
    unfold MapExternalCephClusterNegativeConditions
    split_ifs
    · repeat apply SetStatusCondition_unique
      exact h
    · repeat apply SetStatusCondition_unique
      exact h
    · exact SetStatusCondition_unique _ _ _ h
  · intro clk reason message
    unfold MapCephClusterNoConditions
    repeat apply SetStatusCondition_unique
    exact h
  · intro now condition
    exact setStatusConditionIfNotPresent_unique now conds condition h
  · intro clk found
    unfold MapNoobaaNegativeConditions
    cases found with
    | none => exact setStatusConditionIfNotPresent_unique _ _ _ h
    | some nb =>
      simp only
      split_ifs
      · exact setStatusConditionIfNotPresent_unique _ _ _ h
      · exact setStatusConditionIfNotPresent_unique _ _ _ h
      · exact h
      · exact setStatusConditionIfNotPresent_unique _ _ _ h

/-- C2, from the empty list: the list `SetProgressingCondition` builds has no duplicate type. -/
theorem status_operations_keep_unique_witness :
    UniqueTypes [] ∧ UniqueTypes (SetProgressingCondition (fun i => i) [] "Init" "m") :=
  ⟨by decide, (status_operations_keep_unique [] (by decide)).1 (fun i => i) "Init" "m"⟩

/-- Two upserts of different types in a row: the list holds both reports, and the records of
all other types are the ones it had. -/
theorem two_upserts (t0 t1 : Time) (l : List Condition) (a b : Condition)
    (hab : a.type ≠ b.type) :
    holdsRecord (SetStatusCondition t1 (SetStatusCondition t0 l a) b)
      a.type a.status a.reason a.message ∧
    holdsRecord (SetStatusCondition t1 (SetStatusCondition t0 l a) b)
      b.type b.status b.reason b.message ∧
    (SetStatusCondition t1 (SetStatusCondition t0 l a) b).filter
        (fun r => decide (r.type ≠ a.type ∧ r.type ≠ b.type)) =
      l.filter (fun r => decide (r.type ≠ a.type ∧ r.type ≠ b.type)) := by
  refine ⟨?_, ?_, ?_⟩
  · exact holdsRecord_upsert_other t1 _ b _ _ _ _ hab (holdsRecord_upsert t0 l a)
  · exact holdsRecord_upsert t1 _ b
  · rw [filter_SetStatusCondition t1 _ b _ (fun r hr => by simp [hr]),
      filter_SetStatusCondition t0 _ a _ (fun r hr => by simp [hr])]

/-- C3: `MapCephClusterNegativeConditions` on a CephCluster with message `m`. State Creating
(resp. Updating): the aggregate holds Progressing=True and Upgradeable=False, both with reason
ClusterStateCreating (resp. ClusterStateUpdating) and a message ending with `m`. State Error: it
holds Available=False and Degraded=True, both with reason ClusterStateError and a message ending
with `m`. In each case the records of every other type are unchanged. -/
theorem MapCephClusterNegativeConditions_reports (clk : Clock) (conds : List Condition)
    (state m : String) :
    (state = ClusterStateCreating →
      holdsRecord (MapCephClusterNegativeConditions clk conds { state := state, message := m })
        ConditionProgressing ConditionTrue "ClusterStateCreating"
        ("CephCluster is creating: " ++ m) ∧
      holdsRecord (MapCephClusterNegativeConditions clk conds { state := state, message := m })
        ConditionUpgradeable ConditionFalse "ClusterStateCreating"
        ("CephCluster is creating: " ++ m) ∧
      EndsWith ("CephCluster is creating: " ++ m) m ∧
      (MapCephClusterNegativeConditions clk conds { state := state, message := m }).filter
          (fun r => decide (r.type ≠ ConditionProgressing ∧ r.type ≠ ConditionUpgradeable)) =
        conds.filter
          (fun r => decide (r.type ≠ ConditionProgressing ∧ r.type ≠ ConditionUpgradeable))) ∧
    (state = ClusterStateUpdating →
      holdsRecord (MapCephClusterNegativeConditions clk conds { state := state, message := m })
        ConditionProgressing ConditionTrue "ClusterStateUpdating"
        ("CephCluster is updating: " ++ m) ∧
      holdsRecord (MapCephClusterNegativeConditions clk conds { state := state, message := m })
        ConditionUpgradeable ConditionFalse "ClusterStateUpdating"
        ("CephCluster is updating: " ++ m) ∧
      EndsWith ("CephCluster is updating: " ++ m) m ∧
      (MapCephClusterNegativeConditions clk conds { state := state, message := m }).filter
          (fun r => decide (r.type ≠ ConditionProgressing ∧ r.type ≠ ConditionUpgradeable)) =
        conds.filter
          (fun r => decide (r.type ≠ ConditionProgressing ∧ r.type ≠ ConditionUpgradeable))) ∧
    (state = ClusterStateError →
      holdsRecord (MapCephClusterNegativeConditions clk conds { state := state, message := m })
        ConditionAvailable ConditionFalse "ClusterStateError" ("CephCluster error: " ++ m) ∧
      holdsRecord (MapCephClusterNegativeConditions clk conds { state := state, message := m })
        ConditionDegraded ConditionTrue "ClusterStateError" ("CephCluster error: " ++ m) ∧
      EndsWith ("CephCluster error: " ++ m) m ∧
      (MapCephClusterNegativeConditions clk conds { state := state, message := m }).filter
          (fun r => decide (r.type ≠ ConditionAvailable ∧ r.type ≠ ConditionDegraded)) =
        conds.filter
          (fun r => decide (r.type ≠ ConditionAvailable ∧ r.type ≠ ConditionDegraded))) := by
  refine ⟨?_, ?_, ?_⟩
  · intro hs
    subst hs
    have h := two_upserts (clk 0) (clk 1) conds
      { type := ConditionProgressing, status := ConditionTrue, reason := "ClusterStateCreating",
        message := "CephCluster is creating: " ++ m }
      { type := ConditionUpgradeable, status := ConditionFalse, reason := "ClusterStateCreating",
        message := "CephCluster is creating: " ++ m }
      (by show ConditionProgressing ≠ ConditionUpgradeable; decide)
    have hm : MapCephClusterNegativeConditions clk conds
        { state := ClusterStateCreating, message := m } = _ := if_pos rfl
    rw [hm]
    exact ⟨h.1, h.2.1, ⟨_, rfl⟩, h.2.2⟩
  · intro hs
    subst hs
    have h := two_upserts (clk 0) (clk 1) conds
      { type := ConditionProgressing, status := ConditionTrue, reason := "ClusterStateUpdating",
        message := "CephCluster is updating: " ++ m }
      { type := ConditionUpgradeable, status := ConditionFalse, reason := "ClusterStateUpdating",
        message := "CephCluster is updating: " ++ m }
      (by show ConditionProgressing ≠ ConditionUpgradeable; decide)
    have hm : MapCephClusterNegativeConditions clk conds
        { state := ClusterStateUpdating, message := m } = _ :=
      (if_neg (by show ¬ ClusterStateUpdating = ClusterStateCreating; decide)).trans (if_pos rfl)
    rw [hm]
    exact ⟨h.1, h.2.1, ⟨_, rfl⟩, h.2.2⟩
  · intro hs
    subst hs
    have h := two_upserts (clk 0) (clk 1) conds
      { type := ConditionAvailable, status := ConditionFalse, reason := "ClusterStateError",
        message := "CephCluster error: " ++ m }
      { type := ConditionDegraded, status := ConditionTrue, reason := "ClusterStateError",
        message := "CephCluster error: " ++ m }
      (by show ConditionAvailable ≠ ConditionDegraded; decide)
    have hm : MapCephClusterNegativeConditions clk conds
        { state := ClusterStateError, message := m } = _ :=
      (if_neg (by show ¬ ClusterStateError = ClusterStateCreating; decide)).trans
        ((if_neg (by show ¬ ClusterStateError = ClusterStateUpdating; decide)).trans (if_pos rfl))
    rw [hm]
    exact ⟨h.1, h.2.1, ⟨_, rfl⟩, h.2.2⟩

/-- C3, at an aggregate that holds Degraded and a CephCluster in state Error with message
"disk full". -/
theorem MapCephClusterNegativeConditions_reports_witness :
    holdsRecord (MapCephClusterNegativeConditions (fun i => i + 5)
        [{ type := "Degraded", status := "False", reason := "r", message := "x" }]
        { state := "Error", message := "disk full" })
      ConditionDegraded ConditionTrue "ClusterStateError" "CephCluster error: disk full" :=
  ((MapCephClusterNegativeConditions_reports (fun i => i + 5)
    [{ type := "Degraded", status := "False", reason := "r", message := "x" }]
    "Error" "disk full").2.2 rfl).2.1

/-- C4: a subsystem in steady state contributes nothing. `MapCephClusterNegativeConditions` on a
CephCluster whose state is none of Creating, Updating, Error (Created is one such state) and
`MapNoobaaNegativeConditions` on a NooBaa in phase Ready return the aggregate as it was. -/
theorem steady_state_contributes_nothing (clk : Clock) (conds : List Condition) :
    (∀ found : ClusterStatus, found.state ≠ ClusterStateCreating →
      found.state ≠ ClusterStateUpdating → found.state ≠ ClusterStateError →
      MapCephClusterNegativeConditions clk conds found = conds) ∧
    (∀ m : String, MapCephClusterNegativeConditions clk conds
      { state := ClusterStateCreated, message := m } = conds) ∧
    (∀ found : NooBaa, found.phase = SystemPhaseReady →
      MapNoobaaNegativeConditions clk conds (some found) = conds) ∧
    MapCephClusterNegativeConditions clk [] { state := ClusterStateCreated } = [] ∧
    MapNoobaaNegativeConditions clk [] (some { phase := SystemPhaseReady }) = [] := by
  have hceph : ∀ found : ClusterStatus, found.state ≠ ClusterStateCreating →
      found.state ≠ ClusterStateUpdating → found.state ≠ ClusterStateError →
      ∀ l, MapCephClusterNegativeConditions clk l found = l := by
    intro found h1 h2 h3 l
    simp [MapCephClusterNegativeConditions, h1, h2, h3]
  have hnb : ∀ found : NooBaa, found.phase = SystemPhaseReady →
      ∀ l, MapNoobaaNegativeConditions clk l (some found) = l := by
    intro found h l
    simp only [MapNoobaaNegativeConditions, h]
    rw [if_neg (by decide), if_neg (by decide)]
    exact if_pos trivial
  refine ⟨fun found h1 h2 h3 => hceph found h1 h2 h3 conds, ?_,
    fun found h => hnb found h conds, ?_, ?_⟩
  · intro m
    exact hceph _ (by show ClusterStateCreated ≠ ClusterStateCreating; decide)
      (by show ClusterStateCreated ≠ ClusterStateUpdating; decide)
      (by show ClusterStateCreated ≠ ClusterStateError; decide) conds
  · exact hceph _ (by decide) (by decide) (by decide) []
  · exact hnb _ rfl []

/-- C4, at an aggregate of one record and a CephCluster in state Connected. -/
theorem steady_state_contributes_nothing_witness :
    MapCephClusterNegativeConditions (fun i => i)
      [{ type := "Degraded", status := "True", reason := "r", message := "x" }]
      { state := "Connected", message := "ok" } =
      [{ type := "Degraded", status := "True", reason := "r", message := "x" }] :=
  (steady_state_contributes_nothing (fun i => i)
    [{ type := "Degraded", status := "True", reason := "r", message := "x" }]).1
    { state := "Connected", message := "ok" } (by decide) (by decide) (by decide)

/-! ## The pass: bookkeeping lemmas -/

@[simp] theorem setPhase_phase (w : World) (p : String) :
    (w.setPhase p).sc.status.phase = p := rfl
@[simp] theorem setPhase_conditions (w : World) (p : String) :
    (w.setPhase p).sc.status.conditions = w.sc.status.conditions := rfl
@[simp] theorem setPhase_aggregate (w : World) (p : String) :
    (w.setPhase p).conditions = w.conditions := rfl
@[simp] theorem setPhase_flag (w : World) (p : String) : (w.setPhase p).phase = w.phase := rfl
@[simp] theorem setPhase_finalizers (w : World) (p : String) :
    (w.setPhase p).sc.finalizers = w.sc.finalizers := rfl
@[simp] theorem setPhase_store (w : World) (p : String) :
    (w.setPhase p).cephClusters = w.cephClusters := rfl
@[simp] theorem setPhase_calls (w : World) (p : String) : (w.setPhase p).calls = w.calls := rfl
@[simp] theorem setConditions_conditions (w : World) (l : List Condition) :
    (w.setConditions l).sc.status.conditions = l := rfl
@[simp] theorem setConditions_phase (w : World) (l : List Condition) :
    (w.setConditions l).sc.status.phase = w.sc.status.phase := rfl
@[simp] theorem setConditions_aggregate (w : World) (l : List Condition) :
    (w.setConditions l).conditions = w.conditions := rfl
@[simp] theorem setConditions_flag (w : World) (l : List Condition) :
    (w.setConditions l).phase = w.phase := rfl
@[simp] theorem setConditions_finalizers (w : World) (l : List Condition) :
    (w.setConditions l).sc.finalizers = w.sc.finalizers := rfl
@[simp] theorem setConditions_store (w : World) (l : List Condition) :
    (w.setConditions l).cephClusters = w.cephClusters := rfl
@[simp] theorem setConditions_calls (w : World) (l : List Condition) :
    (w.setConditions l).calls = w.calls := rfl

/-- A status update changes neither the object `sc` nor the reconciler nor the CephClusters. -/
@[simp] theorem statusUpdate_sc (fail : Option String) (w : World) :
    (statusUpdate fail w).1.sc = w.sc := by
  cases fail <;> rfl
@[simp] theorem statusUpdate_aggregate (fail : Option String) (w : World) :
    (statusUpdate fail w).1.conditions = w.conditions := by
  cases fail <;> rfl
@[simp] theorem statusUpdate_flag (fail : Option String) (w : World) :
    (statusUpdate fail w).1.phase = w.phase := by
  cases fail <;> rfl
@[simp] theorem statusUpdate_store (fail : Option String) (w : World) :
    (statusUpdate fail w).1.cephClusters = w.cephClusters := by
  cases fail <;> rfl
@[simp] theorem statusUpdate_ready (fail : Option String) (w : World) :
    (statusUpdate fail w).1.ready = w.ready := by
  cases fail <;> rfl
@[simp] theorem statusUpdate_calls (fail : Option String) (w : World) :
    (statusUpdate fail w).1.calls = w.calls ++ [Call.statusUpdate w.sc] := by
  cases fail <;> rfl
theorem statusUpdate_err (fail : Option String) (w : World) :
    (statusUpdate fail w).2 = fail.map Err.failure := by
  cases fail <;> rfl
theorem statusUpdate_stored (w : World) :
    (statusUpdate none w).1.stored.status = w.sc.status := rfl

/-- After the provisional phase update the expansion flag is what it was, and the phase of the
resource is ExpandingCapacity exactly when the flag is set. -/
theorem provisionalPhase_flag (env : Env) (i : Nat) (w : World) :
    (provisionalPhase env i w).phase = w.phase ∧
    (provisionalPhase env i w).conditions = w.conditions ∧
    (provisionalPhase env i w).sc.status.conditions = w.sc.status.conditions ∧
    ((provisionalPhase env i w).sc.status.phase = PhaseClusterExpanding ↔
      w.phase = PhaseClusterExpanding) := by
  unfold provisionalPhase
  by_cases h1 : w.phase = PhaseClusterExpanding
  · simp [h1]
  · by_cases h2 : w.sc.status.phase ≠ PhaseReady ∧ w.sc.status.phase ≠ PhaseConnecting ∧
        w.sc.status.phase ≠ PhaseConnected
    · rw [if_neg h1, if_pos h2]
      simp [h1]
      decide
    · rw [if_neg h1, if_neg h2]
      refine ⟨rfl, rfl, rfl, ?_⟩
      have h3 : w.sc.status.phase ≠ PhaseClusterExpanding := by
        intro h
        apply h2
        rw [h]
        decide
      simp [h1, h3]

/-- The step loop over a concatenated list: the second part runs only if the first ran without
error. -/
theorem runSteps_append (env : Env) (pre rest : List Step) :
    ∀ (i : Nat) (w : World), runSteps env (pre ++ rest) i w =
      match runSteps env pre i w with
      | (w1, k, none) => runSteps env rest k w1
      | (w1, k, some e) => (w1, k, some e) := by
  induction pre with
  | nil => intro i w; rfl
  | cons f fs ih =>
    intro i w
    simp only [List.cons_append, runSteps]
    cases h : (f w).2 with
    | none => exact ih _ _
    | some e => rfl

/-- The loop counts the steps it invokes. -/
theorem runSteps_count (env : Env) (steps : List Step) :
    ∀ (i : Nat) (w w1 : World) (k : Nat), runSteps env steps i w = (w1, k, none) →
      k = i + steps.length := by
  induction steps with
  | nil =>
    intro i w w1 k h
    simp only [runSteps, Prod.mk.injEq] at h
    simp [← h.2.1]
  | cons f fs ih =>
    intro i w w1 k h
    simp only [runSteps] at h
    cases he : (f w).2 with
    | none =>
      rw [he] at h
      have := ih _ _ _ _ h
      simp [this]; omega
    | some e =>
      rw [he] at h
      simp at h

/-- After a loop without error over a non-empty step list, the phase of the resource is
ExpandingCapacity exactly when the expansion flag is set. -/
theorem runSteps_flag (env : Env) (steps : List Step) :
    ∀ (i : Nat) (w w1 : World) (k : Nat), steps ≠ [] →
      runSteps env steps i w = (w1, k, none) →
      (w1.sc.status.phase = PhaseClusterExpanding ↔ w1.phase = PhaseClusterExpanding) := by
  induction steps with
  | nil => intro i w w1 k h; exact absurd rfl h
  | cons f fs ih =>
    intro i w w1 k _ h
    simp only [runSteps] at h
    cases he : (f w).2 with
    | some e => rw [he] at h; simp at h
    | none =>
      rw [he] at h
      simp only at h
      cases fs with
      | nil =>
        simp only [runSteps, Prod.mk.injEq] at h
        have hp := provisionalPhase_flag env i (f w).1
        rw [← h.1]
        rw [hp.2.2.2, hp.1]
      | cons g gs => exact ih _ _ _ _ (by simp) h


theorem holdsStatus_upsert (now : Time) (l : List Condition) (n : Condition) :
    holdsStatus (SetStatusCondition now l n) n.type n.status := by
  refine ⟨_, Find_SetStatusCondition_same now l n, ?_⟩
  cases FindStatusCondition l n.type <;> simp

theorem holdsStatus_upsert_other (now : Time) (l : List Condition) (n : Condition)
    (t status : String) (ht : t ≠ n.type) (h : holdsStatus l t status) :
    holdsStatus (SetStatusCondition now l n) t status := by
  obtain ⟨r, hr, h⟩ := h
  exact ⟨r, by rw [Find_SetStatusCondition_other now l n t ht]; exact hr, h⟩

/-- The positive bundle is held after `SetCompleteCondition`, whatever the list held before. -/
theorem SetCompleteCondition_holds (clk : Clock) (l : List Condition) (reason message : String) :
    holdsStatus (SetCompleteCondition clk l reason message)
      ConditionReconcileComplete ConditionTrue ∧
    holdsStatus (SetCompleteCondition clk l reason message) ConditionAvailable ConditionTrue ∧
    holdsStatus (SetCompleteCondition clk l reason message) ConditionProgressing ConditionFalse ∧
    holdsStatus (SetCompleteCondition clk l reason message) ConditionDegraded ConditionFalse ∧
    holdsStatus (SetCompleteCondition clk l reason message) ConditionUpgradeable ConditionTrue := by
  unfold SetCompleteCondition
  refine ⟨?_, ?_, ?_, ?_, ?_⟩
  · apply holdsStatus_upsert_other _ _ _ _ _ (by dsimp only; decide)
    apply holdsStatus_upsert_other _ _ _ _ _ (by dsimp only; decide)
    apply holdsStatus_upsert_other _ _ _ _ _ (by dsimp only; decide)
    apply holdsStatus_upsert_other _ _ _ _ _ (by dsimp only; decide)
    exact holdsStatus_upsert _ _ _
  · apply holdsStatus_upsert_other _ _ _ _ _ (by dsimp only; decide)
    apply holdsStatus_upsert_other _ _ _ _ _ (by dsimp only; decide)
    apply holdsStatus_upsert_other _ _ _ _ _ (by dsimp only; decide)
    exact holdsStatus_upsert _ _ _
  · apply holdsStatus_upsert_other _ _ _ _ _ (by dsimp only; decide)
    apply holdsStatus_upsert_other _ _ _ _ _ (by dsimp only; decide)
    exact holdsStatus_upsert _ _ _
  · apply holdsStatus_upsert_other _ _ _ _ _ (by dsimp only; decide)
    exact holdsStatus_upsert _ _ _
  · exact holdsStatus_upsert _ _ _

/-- The end of the pass on an empty aggregate, when the readiness file can be written. -/
theorem finishPass_empty (env : Env) (w : World) (n : Nat) (hempty : w.conditions = [])
    (hready : env.readySetErr = none) :
    (finishPass env w n).world.sc.status.conditions =
      SetCompleteCondition env.completeClock w.sc.status.conditions
        ReconcileCompleted ReconcileCompletedMessage ∧
    (finishPass env w n).world.sc.status.phase =
      (if w.sc.status.phase = PhaseClusterExpanding then PhaseClusterExpanding
       else PhaseReady) ∧
    (finishPass env w n).world.ready = true ∧
    (finishPass env w n).stepsRun = n ∧
    (finishPass env w n).err = env.finalStatusErr.map Err.failure ∧
    (env.finalStatusErr = none →
      (finishPass env w n).world.stored.status = (finishPass env w n).world.sc.status) := by
  unfold finishPass
  simp only [hempty, hready, if_true]
  by_cases hp : w.sc.status.phase = PhaseClusterExpanding
  · cases hf : env.finalStatusErr <;> simp [statusUpdate, hp, World.setPhase, World.setConditions]
  · cases hf : env.finalStatusErr <;> simp [statusUpdate, hp, World.setPhase, World.setConditions]


/-- Only a live resource reaches the step loop. -/
theorem beforeSteps_ok_live (env : Env) (w w0 : World) (h : beforeSteps env w = .ok w0) :
    deletionTimestampIsZero w.sc = true := by
  unfold beforeSteps at h
  simp only at h
  split at h
  · cases h
  · rename_i w2 heq
    have hd : w2.sc.deletionTimestamp = w.sc.deletionTimestamp := by
      unfold seedConditions at heq
      split at heq
      · have h1 := congrArg Prod.fst heq
        simp only at h1
        rw [← h1, statusUpdate_sc]
        rfl
      · cases heq; rfl
    split at h
    · rename_i hz
      unfold deletionTimestampIsZero at *
      rw [← hd]
      exact hz
    · cases h

/-- The merge loop keeps what the list holds for a type that the aggregate does not report. -/
theorem mergeConditions_other (clk : Clock) (agg : List Condition) (t status reason message : String)
    (hagg : ∀ c ∈ agg, c.type ≠ t) :
    ∀ (i : Nat) (l : List Condition), holdsRecord l t status reason message →
      holdsRecord (mergeConditions clk i l agg) t status reason message := by
  induction agg with
  | nil => intro i l h; exact h
  | cons c cs ih =>
    intro i l h
    simp only [mergeConditions]
    apply ih (fun d hd => hagg d (List.mem_cons_of_mem _ hd))
    exact holdsRecord_upsert_other _ _ _ _ _ _ _
      (fun e => hagg c (List.mem_cons_self _ _) e.symm) h

/-- After the merge loop over an aggregate without duplicate types, the list holds every
condition of the aggregate with its status, reason and message. -/
theorem mergeConditions_holds (clk : Clock) (agg : List Condition) (hu : UniqueTypes agg) :
    ∀ (i : Nat) (l : List Condition), ∀ c ∈ agg,
      holdsRecord (mergeConditions clk i l agg) c.type c.status c.reason c.message := by
  induction agg with
  | nil => intro i l c hc; simp at hc
  | cons d ds ih =>
    intro i l c hc
    unfold UniqueTypes at hu
    simp only [List.map_cons, List.nodup_cons] at hu
    simp only [mergeConditions]
    rcases List.mem_cons.mp hc with rfl | hmem
    · apply mergeConditions_other
      · intro x hx e
        exact hu.1 (e ▸ List.mem_map_of_mem (fun c => c.type) hx)
      · exact holdsRecord_upsert _ _ _
    · exact ih hu.2 _ _ c hmem

/-- A type that is present stays present under an upsert. -/
theorem present_upsert (now : Time) (l : List Condition) (n : Condition) (t : String)
    (h : ∃ r, FindStatusCondition l t = some r) :
    ∃ r, FindStatusCondition (SetStatusCondition now l n) t = some r := by
  by_cases ht : t = n.type
  · subst ht
    exact ⟨_, Find_SetStatusCondition_same now l n⟩
  · rw [Find_SetStatusCondition_other now l n t ht]
    exact h

/-- A type that is present stays present under the merge loop. -/
theorem present_mergeConditions (clk : Clock) (agg : List Condition) (t : String) :
    ∀ (i : Nat) (l : List Condition), (∃ r, FindStatusCondition l t = some r) →
      ∃ r, FindStatusCondition (mergeConditions clk i l agg) t = some r := by
  induction agg with
  | nil => intro i l h; exact h
  | cons c cs ih =>
    intro i l h
    simp only [mergeConditions]
    exact ih _ _ (present_upsert _ _ _ _ h)

/-- After the merge loop every type of the aggregate is present. -/
theorem mergeConditions_present (clk : Clock) (agg : List Condition) :
    ∀ (i : Nat) (l : List Condition), ∀ c ∈ agg,
      ∃ r, FindStatusCondition (mergeConditions clk i l agg) c.type = some r := by
  induction agg with
  | nil => intro i l c hc; simp at hc
  | cons d ds ih =>
    intro i l c hc
    simp only [mergeConditions]
    rcases List.mem_cons.mp hc with rfl | hmem
    · exact present_mergeConditions clk ds _ _ _ ⟨_, Find_SetStatusCondition_same _ _ _⟩
    · exact ih _ _ c hmem

/-- The lookup predicates: a type is true (false) exactly when a record of the type is held with
status True (False); an absent type and the status Unknown are neither. -/
theorem IsStatusCondition_iff (l : List Condition) (t : String) :
    (IsStatusConditionTrue l t = true ↔ holdsStatus l t ConditionTrue) ∧
    (IsStatusConditionFalse l t = true ↔ holdsStatus l t ConditionFalse) ∧
    (FindStatusCondition l t = none →
      IsStatusConditionTrue l t = false ∧ IsStatusConditionFalse l t = false) ∧
    (holdsStatus l t ConditionUnknown →
      IsStatusConditionTrue l t = false ∧ IsStatusConditionFalse l t = false) := by
  unfold IsStatusConditionTrue IsStatusConditionFalse holdsStatus
  cases h : FindStatusCondition l t with
  | none => simp
  | some r =>
    simp only [Option.some.injEq, exists_eq_left', decide_eq_true_eq, true_and,
      false_implies, reduceCtorEq]
    intro hu
    rw [hu]
    decide

/-- The end of the pass on a non-empty aggregate, when the readiness file can be removed if it
has to be. -/
theorem finishPass_nonempty (env : Env) (w : World) (n : Nat) (hne : w.conditions ≠ [])
    (hunset : IsStatusConditionFalse
        (mergeAggregate env.mergeClock w.sc.status.conditions w.conditions)
        ConditionUpgradeable = true → env.readyUnsetErr = none) :
    (finishPass env w n).world.sc.status.conditions =
      mergeAggregate env.mergeClock w.sc.status.conditions w.conditions ∧
    (finishPass env w n).world.sc.status.phase =
      (if w.sc.status.phase = PhaseClusterExpanding then PhaseClusterExpanding
       else if IsStatusConditionTrue
          (mergeAggregate env.mergeClock w.sc.status.conditions w.conditions)
          ConditionProgressing = true then PhaseProgressing
       else if IsStatusConditionFalse
          (mergeAggregate env.mergeClock w.sc.status.conditions w.conditions)
          ConditionUpgradeable = true then PhaseNotReady
       else PhaseError) ∧
    (finishPass env w n).stepsRun = n ∧
    (finishPass env w n).err = env.finalStatusErr.map Err.failure := by
  unfold finishPass
  simp only [hne, if_false]
  by_cases hu : IsStatusConditionFalse
      (mergeAggregate env.mergeClock w.sc.status.conditions w.conditions)
      ConditionUpgradeable = true
  · have hr := hunset hu
    by_cases hp : w.sc.status.phase = PhaseClusterExpanding <;>
    by_cases ht : IsStatusConditionTrue
      (mergeAggregate env.mergeClock w.sc.status.conditions w.conditions)
      ConditionProgressing = true <;>
    cases hf : env.finalStatusErr <;>
    simp [statusUpdate, hp, ht, hu, hr, World.setPhase, World.setConditions]
  · by_cases hp : w.sc.status.phase = PhaseClusterExpanding <;>
    by_cases ht : IsStatusConditionTrue
      (mergeAggregate env.mergeClock w.sc.status.conditions w.conditions)
      ConditionProgressing = true <;>
    cases hf : env.finalStatusErr <;>
    simp [statusUpdate, hp, ht, hu, World.setPhase, World.setConditions]


theorem contains_iff (slice : List String) (s : String) : contains slice s = true ↔ s ∈ slice := by
  unfold contains
  simp

theorem remove_spec (slice : List String) (s : String) :
    contains (remove slice s) s = false ∧
    (∀ f, f ≠ s → (f ∈ remove slice s ↔ f ∈ slice)) ∧
    remove (remove slice s) s = remove slice s ∧
    (contains slice s = false → remove slice s = slice) := by
  unfold contains remove
  refine ⟨?_, ?_, ?_, ?_⟩
  · simp
  · intro f hf
    simp [List.mem_filter, hf]
  · simp
  · intro h
    simp only [List.any_eq_false, decide_eq_true_eq] at h
    simp only [ne_eq, decide_not, List.filter_eq_self, Bool.not_eq_eq_eq_not, Bool.not_true,
      decide_eq_false_iff_not]
    exact h

/-- The deletion branch, case by case. -/
theorem deletionBranch_spec (env : Env) (w : World) :
    (deletionBranch env w).1.sc.status.phase = PhaseDeleting ∧
    (deletionBranch env w).1.sc.status.conditions = w.sc.status.conditions ∧
    (deletionBranch env w).1.sc.deletionTimestamp = w.sc.deletionTimestamp ∧
    (deletionBranch env w).1.conditions = w.conditions ∧
    (deletionBranch env w).1.phase = w.phase ∧
    (deletionBranch env w).1.cephClusters = w.cephClusters ∧
    (∃ added, (deletionBranch env w).1.calls = w.calls ++ added ∧
      (∀ c ∈ added, c.onChild = false) ∧
      (contains w.sc.finalizers storageClusterFinalizer = false →
        ∀ c ∈ added, c.isDeleteResources = false)) ∧
    (env.deletingStatusErr = none →
      (deletionBranch env w).1.stored.status.phase = PhaseDeleting) ∧
    (deletionBranch env w).1.sc.finalizers =
      (if contains w.sc.finalizers storageClusterFinalizer = true ∧
          env.deleteResources = (true, none)
       then remove w.sc.finalizers storageClusterFinalizer else w.sc.finalizers) ∧
    (deletionBranch env w).2 =
      (if contains w.sc.finalizers storageClusterFinalizer = true then
        match env.deleteResources with
        | (_, some err) => some err
        | (true, none) => env.removeFinalizerErr.map Err.failure
        | (false, none) => none
       else none) ∧
    (contains w.sc.finalizers storageClusterFinalizer = true →
      env.deleteResources = (true, none) → env.removeFinalizerErr = none →
      (deletionBranch env w).1.stored.finalizers =
        remove w.sc.finalizers storageClusterFinalizer) := by
  unfold deletionBranch
  by_cases hc : contains w.sc.finalizers storageClusterFinalizer = true
  · rcases hd : env.deleteResources with ⟨b, oe⟩
    cases oe with
    | some err =>
      simp only [statusUpdate_sc, setPhase_finalizers, hc, if_true]
      cases hs : env.deletingStatusErr <;> simp [statusUpdate, World.setPhase, Call.onChild]
    | none =>
      cases b with
      | false =>
        simp only [statusUpdate_sc, setPhase_finalizers, hc, if_true]
        cases hs : env.deletingStatusErr <;> simp [statusUpdate, World.setPhase, Call.onChild]
      | true =>
        simp only [statusUpdate_sc, setPhase_finalizers, hc, if_true]
        cases hs : env.deletingStatusErr <;> cases hr : env.removeFinalizerErr <;>
          simp [statusUpdate, updateStorageCluster, World.setPhase, Call.onChild]
  · have hc2 : contains w.sc.finalizers storageClusterFinalizer = false := by
      simpa using hc
    simp only [statusUpdate_sc, setPhase_finalizers, hc2]
    cases hs : env.deletingStatusErr <;>
      simp [statusUpdate, World.setPhase, Call.onChild, Call.isDeleteResources]


theorem SetStatusCondition_ne_nil (now : Time) (l : List Condition) (n : Condition) :
    SetStatusCondition now l n ≠ [] := by
  cases l with
  | nil => simp
  | cons c cs =>
    rw [SetStatusCondition_cons]
    split <;> simp

/-- The seeding touches only the status conditions and the log. -/
theorem seedConditions_spec (env : Env) (w : World) :
    (seedConditions env w).1.sc.finalizers = w.sc.finalizers ∧
    (seedConditions env w).1.sc.deletionTimestamp = w.sc.deletionTimestamp ∧
    (seedConditions env w).1.conditions = w.conditions ∧
    (seedConditions env w).1.phase = w.phase ∧
    (seedConditions env w).1.cephClusters = w.cephClusters ∧
    (seedConditions env w).1.sc.status.conditions ≠ [] ∧
    (∃ added, (seedConditions env w).1.calls = w.calls ++ added ∧
      (∀ c ∈ added, c.onChild = false) ∧ (∀ c ∈ added, c.isDeleteResources = false)) ∧
    ((w.sc.status.conditions = [] → env.seedStatusErr = none) →
      (seedConditions env w).2 = none) := by
  unfold seedConditions
  by_cases h : w.sc.status.conditions = []
  · rw [if_pos h]
    refine ⟨by simp, by simp; rfl, by simp, by simp, by simp, ?_,
      ⟨_, statusUpdate_calls _ _, ?_, ?_⟩, ?_⟩
    · simp only [statusUpdate_sc, setConditions_conditions]
      unfold SetProgressingCondition
      exact SetStatusCondition_ne_nil _ _ _
    · intro c hc
      rw [List.mem_singleton.mp hc]
      rfl
    · intro c hc
      rw [List.mem_singleton.mp hc]
      rfl
    · intro hs
      rw [statusUpdate_err, hs h]
      rfl
  · rw [if_neg h]
    exact ⟨rfl, rfl, rfl, rfl, rfl, h, ⟨[], by simp⟩, fun _ => rfl⟩

/-- A pass over a resource under deletion is the seeding followed by the deletion branch. -/
theorem reconcile_deleting (env : Env) (w : World)
    (hdel : deletionTimestampIsZero w.sc = false)
    (hseed : w.sc.status.conditions = [] → env.seedStatusErr = none) :
    ReconcileExternalStorageCluster env w =
      ⟨(deletionBranch env (seedConditions env w).1).1,
       (deletionBranch env (seedConditions env w).1).2, 0⟩ := by
  have hs := seedConditions_spec env w
  have herr := hs.2.2.2.2.2.2.2 hseed
  have hd : deletionTimestampIsZero (seedConditions env w).1.sc = false := by
    unfold deletionTimestampIsZero at *
    rw [hs.2.1]
    exact hdel
  unfold ReconcileExternalStorageCluster beforeSteps
  rcases hsc : seedConditions env w with ⟨ws, e⟩
  rw [hsc] at herr hd
  simp only at herr hd
  subst herr
  simp only [hd]
  rfl


/-! ## Claims on the pass -/

/-- C5 (amended): when the pass reaches the step loop (so the resource is live), the three steps
succeed, the aggregate `r.conditions` is empty after the last step and the readiness file is
written without error, the status conditions hold ReconcileComplete=True, Available=True,
Progressing=False, Degraded=False and Upgradeable=True, and the final phase is Ready unless the
expansion flag is set after the last step, in which case it is ExpandingCapacity; if the final
status update succeeds the pass returns no error and this status is the persisted one. -/
theorem empty_aggregate_positive_bundle (env : Env) (w w0 w1 : World) (n : Nat)
    (hpre : beforeSteps env w = .ok w0)
    (hsteps : runSteps env (stepList env) 0 w0 = (w1, n, none))
    (hempty : w1.conditions = [])
    (hready : env.readySetErr = none) :
    deletionTimestampIsZero w.sc = true ∧
    holdsStatus (ReconcileExternalStorageCluster env w).world.sc.status.conditions
      ConditionReconcileComplete ConditionTrue ∧
    holdsStatus (ReconcileExternalStorageCluster env w).world.sc.status.conditions
      ConditionAvailable ConditionTrue ∧
    holdsStatus (ReconcileExternalStorageCluster env w).world.sc.status.conditions
      ConditionProgressing ConditionFalse ∧
    holdsStatus (ReconcileExternalStorageCluster env w).world.sc.status.conditions
      ConditionDegraded ConditionFalse ∧
    holdsStatus (ReconcileExternalStorageCluster env w).world.sc.status.conditions
      ConditionUpgradeable ConditionTrue ∧
    (ReconcileExternalStorageCluster env w).world.sc.status.phase =
      (if w1.phase = PhaseClusterExpanding then PhaseClusterExpanding else PhaseReady) ∧
    (ReconcileExternalStorageCluster env w).world.ready = true ∧
    (env.finalStatusErr = none →
      (ReconcileExternalStorageCluster env w).err = none ∧
      (ReconcileExternalStorageCluster env w).world.stored.status =
        (ReconcileExternalStorageCluster env w).world.sc.status) := by
  have hrec : ReconcileExternalStorageCluster env w = finishPass env w1 n := by
    unfold ReconcileExternalStorageCluster
    rw [hpre]
    simp only [hsteps]
  have hfin := finishPass_empty env w1 n hempty hready
  have hflag := runSteps_flag env (stepList env) 0 w0 w1 n (by simp [stepList]) hsteps
  have hbundle := SetCompleteCondition_holds env.completeClock w1.sc.status.conditions
    ReconcileCompleted ReconcileCompletedMessage
  rw [hrec, hfin.1]
  refine ⟨beforeSteps_ok_live env w w0 hpre, hbundle.1, hbundle.2.1, hbundle.2.2.1,
    hbundle.2.2.2.1, hbundle.2.2.2.2, ?_, hfin.2.2.1, ?_⟩
  · rw [hfin.2.1]
    by_cases hp : w1.phase = PhaseClusterExpanding
    · rw [if_pos (hflag.2 hp), if_pos hp]
    · rw [if_neg (fun h => hp (hflag.1 h)), if_neg hp]
  · intro hf
    refine ⟨?_, ?_⟩
    · rw [hfin.2.2.2.2.1, hf]; rfl
    · exact hfin.2.2.2.2.2 hf

/-- C5 (amended), at `liveWorld` with `childGoneEnv`: the pass ends in phase Ready without error
and holds Available=True. -/
theorem empty_aggregate_positive_bundle_witness :
    holdsStatus (ReconcileExternalStorageCluster childGoneEnv liveWorld).world.sc.status.conditions
      ConditionAvailable ConditionTrue ∧
    (ReconcileExternalStorageCluster childGoneEnv liveWorld).world.sc.status.phase = PhaseReady ∧
    (ReconcileExternalStorageCluster childGoneEnv liveWorld).err = none :=
  have h := empty_aggregate_positive_bundle childGoneEnv liveWorld _ _ _ rfl rfl rfl rfl
  ⟨h.2.2.1, h.2.2.2.2.2.2.1, (h.2.2.2.2.2.2.2.2 rfl).1⟩

/-- C5 as stated fails: at `liveWorld` with `readyFailsEnv` the resource is live, every store
call and all three steps succeed, the aggregate is empty after the last step and the expansion
flag is not set, yet the pass ends in phase Progressing, not Ready: the readiness file could not
be written and the pass returned that error before the phase was set. -/
theorem empty_aggregate_not_ready :
    deletionTimestampIsZero liveWorld.sc = true ∧
    (∃ w0 w1 n, beforeSteps readyFailsEnv liveWorld = .ok w0 ∧
      runSteps readyFailsEnv (stepList readyFailsEnv) 0 w0 = (w1, n, none) ∧
      w1.conditions = [] ∧ w1.phase ≠ PhaseClusterExpanding ∧
      w1.sc.status.phase ≠ PhaseClusterExpanding) ∧
    (ReconcileExternalStorageCluster readyFailsEnv liveWorld).world.sc.status.phase
      = PhaseProgressing ∧
    (ReconcileExternalStorageCluster readyFailsEnv liveWorld).world.sc.status.phase
      ≠ PhaseReady ∧
    (ReconcileExternalStorageCluster readyFailsEnv liveWorld).err =
      some (Err.failure "cannot write the readiness file") :=
  ⟨rfl, ⟨_, _, _, rfl, rfl, rfl, by decide, by decide⟩, by decide, by decide, by decide⟩


/-- C6 (amended): when the pass reaches the step loop, the steps succeed, the aggregate is not
empty after the last step, the expansion flag is not set, and the readiness file is removed
without error if the merged conditions hold Upgradeable=False: the status conditions are the old
ones with every condition of the aggregate upserted in order and then ReconcileComplete=True;
every type of the aggregate is present, with the status, reason and message of its report when
the aggregate has one record per type (ReconcileComplete apart); and the final phase is
Progressing if the merged conditions hold Progressing=True, otherwise Not Ready if they hold
Upgradeable=False, otherwise Error, where an absent or Unknown condition is neither true nor
false. -/
theorem nonempty_aggregate_merged (env : Env) (w w0 w1 : World) (n : Nat)
    (hpre : beforeSteps env w = .ok w0)
    (hsteps : runSteps env (stepList env) 0 w0 = (w1, n, none))
    (hne : w1.conditions ≠ [])
    (hpin : w1.phase ≠ PhaseClusterExpanding)
    (hunset : IsStatusConditionFalse
        (mergeAggregate env.mergeClock w1.sc.status.conditions w1.conditions)
        ConditionUpgradeable = true → env.readyUnsetErr = none) :
    (ReconcileExternalStorageCluster env w).world.sc.status.conditions =
      mergeAggregate env.mergeClock w1.sc.status.conditions w1.conditions ∧
    (∀ c ∈ w1.conditions, ∃ r, FindStatusCondition
      (ReconcileExternalStorageCluster env w).world.sc.status.conditions c.type = some r) ∧
    (UniqueTypes w1.conditions → ∀ c ∈ w1.conditions, c.type ≠ ConditionReconcileComplete →
      holdsRecord (ReconcileExternalStorageCluster env w).world.sc.status.conditions
        c.type c.status c.reason c.message) ∧
    holdsRecord (ReconcileExternalStorageCluster env w).world.sc.status.conditions
      ConditionReconcileComplete ConditionTrue ReconcileCompleted ReconcileCompletedMessage ∧
    (ReconcileExternalStorageCluster env w).world.sc.status.phase =
      (if IsStatusConditionTrue
          (ReconcileExternalStorageCluster env w).world.sc.status.conditions
          ConditionProgressing = true then PhaseProgressing
       else if IsStatusConditionFalse
          (ReconcileExternalStorageCluster env w).world.sc.status.conditions
          ConditionUpgradeable = true then PhaseNotReady
       else PhaseError) ∧
    (∀ t, (IsStatusConditionTrue
        (ReconcileExternalStorageCluster env w).world.sc.status.conditions t = true ↔
      holdsStatus (ReconcileExternalStorageCluster env w).world.sc.status.conditions
        t ConditionTrue) ∧
      (IsStatusConditionFalse
        (ReconcileExternalStorageCluster env w).world.sc.status.conditions t = true ↔
      holdsStatus (ReconcileExternalStorageCluster env w).world.sc.status.conditions
        t ConditionFalse)) := by
  have hrec : ReconcileExternalStorageCluster env w = finishPass env w1 n := by
    unfold ReconcileExternalStorageCluster
    rw [hpre]
    simp only [hsteps]
  have hfin := finishPass_nonempty env w1 n hne hunset
  have hflag := runSteps_flag env (stepList env) 0 w0 w1 n (by simp [stepList]) hsteps
  have hphase : ¬ w1.sc.status.phase = PhaseClusterExpanding := fun h => hpin (hflag.1 h)
  rw [hrec, hfin.2.1, hfin.1, if_neg hphase]
  refine ⟨rfl, ?_, ?_, ?_, rfl, ?_⟩
  · intro c hc
    exact present_upsert _ _ _ _ (mergeConditions_present _ _ _ _ c hc)
  · intro hu c hc hrc
    exact holdsRecord_upsert_other _ _ _ _ _ _ _ hrc (mergeConditions_holds _ _ hu _ _ c hc)
  · exact holdsRecord_upsert _ _ _
  · intro t
    exact ⟨(IsStatusCondition_iff _ t).1, (IsStatusCondition_iff _ t).2.1⟩

/-- C6 (amended), at `silentChildWorld` with every call succeeding: the child reports no state,
the aggregate holds Available=False, Progressing=True, Upgradeable=False, and the pass ends in
phase Progressing. -/
theorem nonempty_aggregate_merged_witness :
    (ReconcileExternalStorageCluster {} silentChildWorld).world.sc.status.phase
      = PhaseProgressing ∧
    holdsRecord (ReconcileExternalStorageCluster {} silentChildWorld).world.sc.status.conditions
      ConditionReconcileComplete ConditionTrue ReconcileCompleted ReconcileCompletedMessage :=
  have h := nonempty_aggregate_merged {} silentChildWorld _ _ _ rfl rfl (by decide) (by decide)
    (fun _ => rfl)
  ⟨h.2.2.2.2.1.trans (by decide), h.2.2.2.1⟩

/-- C6 as stated fails: at `silentChildWorld` with `unsetFailsEnv` the resource is live, every
store call and all three steps succeed, the aggregate is not empty and the expansion flag is not
set; the merged conditions hold Progressing=True, yet the pass ends in phase Ready, not
Progressing: the readiness file could not be removed and the pass returned that error before the
phase was derived. -/
theorem nonempty_aggregate_phase_not_derived :
    deletionTimestampIsZero silentChildWorld.sc = true ∧
    (∃ w0 w1 n, beforeSteps unsetFailsEnv silentChildWorld = .ok w0 ∧
      runSteps unsetFailsEnv (stepList unsetFailsEnv) 0 w0 = (w1, n, none) ∧
      w1.conditions ≠ [] ∧ w1.phase ≠ PhaseClusterExpanding) ∧
    IsStatusConditionTrue
      (ReconcileExternalStorageCluster unsetFailsEnv silentChildWorld).world.sc.status.conditions
      ConditionProgressing = true ∧
    (ReconcileExternalStorageCluster unsetFailsEnv silentChildWorld).world.sc.status.phase
      = PhaseReady ∧
    (ReconcileExternalStorageCluster unsetFailsEnv silentChildWorld).world.sc.status.phase
      ≠ PhaseProgressing ∧
    (ReconcileExternalStorageCluster unsetFailsEnv silentChildWorld).err =
      some (Err.failure "cannot remove the readiness file") :=
  ⟨rfl, ⟨_, _, _, rfl, rfl, by decide, by decide⟩, by decide, by decide, by decide, by decide⟩

/-- The error exit of the loop: phase Error and ReconcileComplete=False with the error text. -/
theorem stepFailed_spec (env : Env) (w : World) (e : Err) :
    (stepFailed env w e).sc.status.phase = PhaseError ∧
    holdsRecord (stepFailed env w e).sc.status.conditions ConditionReconcileComplete
      ConditionFalse ReconcileFailed ("Error while reconciling: " ++ e.text) := by
  unfold stepFailed
  simp only [statusUpdate_sc, setPhase_phase, setPhase_conditions, setConditions_conditions,
    true_and]
  exact holdsRecord_upsert _ _ _

/-- C7: when the pass reaches the step loop, the steps before the k-th succeed and the k-th
returns the error `e`, then the pass returns `e` itself, the phase is Error, ReconcileComplete
is False with the message "Error while reconciling: " followed by the text of `e`, exactly the
first k steps were invoked, and the result is the same whatever steps follow in the list. The
aggregate and the expansion flag are arbitrary. -/
theorem step_error_fails_fast (env : Env) (w w0 w1 w2 : World) (pre post : List Step)
    (f : Step) (k : Nat) (e : Err)
    (hpre : beforeSteps env w = .ok w0)
    (hlist : stepList env = pre ++ f :: post)
    (hearlier : runSteps env pre 0 w0 = (w1, k, none))
    (hfail : f w1 = (w2, some e)) :
    (ReconcileExternalStorageCluster env w).err = some e ∧
    (ReconcileExternalStorageCluster env w).world.sc.status.phase = PhaseError ∧
    holdsRecord (ReconcileExternalStorageCluster env w).world.sc.status.conditions
      ConditionReconcileComplete ConditionFalse ReconcileFailed
      ("Error while reconciling: " ++ e.text) ∧
    EndsWith ("Error while reconciling: " ++ e.text) e.text ∧
    k = pre.length ∧
    (ReconcileExternalStorageCluster env w).stepsRun = pre.length + 1 ∧
    (∀ later : List Step, runSteps env (pre ++ f :: later) 0 w0 =
      ((ReconcileExternalStorageCluster env w).world, pre.length + 1, some e)) := by
  have hk : k = pre.length := by
    have := runSteps_count env pre 0 w0 w1 k hearlier
    omega
  have hrun : ∀ later : List Step, runSteps env (pre ++ f :: later) 0 w0 =
      (stepFailed env (provisionalPhase env k w2) e, k + 1, some e) := by
    intro later
    rw [runSteps_append, hearlier]
    simp only [runSteps, hfail]
  have hrec : ReconcileExternalStorageCluster env w =
      ⟨stepFailed env (provisionalPhase env k w2) e, some e, k + 1⟩ := by
    unfold ReconcileExternalStorageCluster
    rw [hpre]
    simp only [hlist, hrun post]
  have hspec := stepFailed_spec env (provisionalPhase env k w2) e
  rw [hrec]
  refine ⟨rfl, hspec.1, hspec.2, ⟨_, rfl⟩, hk, by simp [hk], ?_⟩
  intro later
  rw [hrun later, hk]

/-- C7, at `liveWorld` with `noobaaFailsEnv`: the third step fails, the pass returns its error
and ends in phase Error after three steps. -/
theorem step_error_fails_fast_witness :
    (ReconcileExternalStorageCluster noobaaFailsEnv liveWorld).err
      = some (Err.failure "noobaa is down") ∧
    (ReconcileExternalStorageCluster noobaaFailsEnv liveWorld).world.sc.status.phase
      = PhaseError ∧
    (ReconcileExternalStorageCluster noobaaFailsEnv liveWorld).stepsRun = 3 :=
  have h := step_error_fails_fast noobaaFailsEnv liveWorld _ _ _
    [noobaaFailsEnv.ensureCephConfig, ensureExternalCephCluster noobaaFailsEnv] []
    noobaaFailsEnv.ensureNoobaaSystem 2 (Err.failure "noobaa is down") rfl rfl rfl rfl
  ⟨h.1, h.2.1, h.2.2.2.2.2.1⟩


/-- C8: a pass over a resource whose deletionTimestamp is set (the seeding of the conditions, if
any, having persisted) ends in phase Deleting on every return path, also in the store when that
status update succeeds; it invokes no reconcile step, issues no get, create or update of a
CephCluster, and leaves the CephClusters, the aggregate and the expansion flag as they were,
whatever the conditions, the previous phase and the state of the child. -/
theorem deletion_short_circuits (env : Env) (w : World)
    (hdel : deletionTimestampIsZero w.sc = false)
    (hseed : w.sc.status.conditions = [] → env.seedStatusErr = none) :
    (ReconcileExternalStorageCluster env w).world.sc.status.phase = PhaseDeleting ∧
    (env.deletingStatusErr = none →
      (ReconcileExternalStorageCluster env w).world.stored.status.phase = PhaseDeleting) ∧
    (ReconcileExternalStorageCluster env w).stepsRun = 0 ∧
    (∃ added, (ReconcileExternalStorageCluster env w).world.calls = w.calls ++ added ∧
      ∀ c ∈ added, c.onChild = false) ∧
    (ReconcileExternalStorageCluster env w).world.cephClusters = w.cephClusters ∧
    (ReconcileExternalStorageCluster env w).world.conditions = w.conditions ∧
    (ReconcileExternalStorageCluster env w).world.phase = w.phase := by
  have hs := seedConditions_spec env w
  have hb := deletionBranch_spec env (seedConditions env w).1
  rw [reconcile_deleting env w hdel hseed]
  refine ⟨hb.1, hb.2.2.2.2.2.2.2.1, rfl, ?_, ?_, ?_, ?_⟩
  · obtain ⟨a1, h1, hc1, _⟩ := hs.2.2.2.2.2.2.1
    obtain ⟨a2, h2, hc2, _⟩ := hb.2.2.2.2.2.2.1
    refine ⟨a1 ++ a2, ?_, ?_⟩
    · simp only [h2, h1, List.append_assoc]
    · intro c hc
      rcases List.mem_append.mp hc with h | h
      · exact hc1 c h
      · exact hc2 c h
  · simp only [hb.2.2.2.2.2.1, hs.2.2.2.2.1]
  · simp only [hb.2.2.2.1, hs.2.2.1]
  · simp only [hb.2.2.2.2.1, hs.2.2.2.1]

/-- C8, at `deletingWorld` (phase Ready, child Connected) with every call succeeding: the pass
ends in phase Deleting and has invoked no step. -/
theorem deletion_short_circuits_witness :
    (ReconcileExternalStorageCluster {} deletingWorld).world.sc.status.phase = PhaseDeleting ∧
    (ReconcileExternalStorageCluster {} deletingWorld).stepsRun = 0 :=
  have h := deletion_short_circuits {} deletingWorld (by decide) (fun _ => rfl)
  ⟨h.1, h.2.2.1⟩

/-- C9: in a pass over a resource under deletion (the seeding, if any, having persisted), the
guard token leaves the finalizers exactly when it was present and `deleteResources` reported
(true, no error), and then the finalizers are the old ones without the token, also in the store
when the update succeeds. On "not yet deleted" the finalizers are unchanged and the pass returns
no error; on an error of `deleteResources` the finalizers are unchanged and that error is
returned; when the token is absent `deleteResources` is not invoked, the finalizers are
unchanged and the pass returns no error. Every other finalizer stays, and a further pass over
the resulting world changes no finalizer once the token is gone. -/
theorem guard_token_removal (env : Env) (w : World)
    (hdel : deletionTimestampIsZero w.sc = false)
    (hseed : w.sc.status.conditions = [] → env.seedStatusErr = none) :
    ((contains w.sc.finalizers storageClusterFinalizer = true ∧
        contains (ReconcileExternalStorageCluster env w).world.sc.finalizers
          storageClusterFinalizer = false) ↔
      (contains w.sc.finalizers storageClusterFinalizer = true ∧
        env.deleteResources = (true, none))) ∧
    (contains w.sc.finalizers storageClusterFinalizer = true →
      env.deleteResources = (true, none) →
      (ReconcileExternalStorageCluster env w).world.sc.finalizers =
        remove w.sc.finalizers storageClusterFinalizer ∧
      (ReconcileExternalStorageCluster env w).err = env.removeFinalizerErr.map Err.failure ∧
      (env.removeFinalizerErr = none →
        (ReconcileExternalStorageCluster env w).world.stored.finalizers =
          remove w.sc.finalizers storageClusterFinalizer)) ∧
    (contains w.sc.finalizers storageClusterFinalizer = true →
      env.deleteResources = (false, none) →
      (ReconcileExternalStorageCluster env w).world.sc.finalizers = w.sc.finalizers ∧
      (ReconcileExternalStorageCluster env w).err = none) ∧
    (∀ (b : Bool) (e : Err), contains w.sc.finalizers storageClusterFinalizer = true →
      env.deleteResources = (b, some e) →
      (ReconcileExternalStorageCluster env w).world.sc.finalizers = w.sc.finalizers ∧
      (ReconcileExternalStorageCluster env w).err = some e) ∧
    (contains w.sc.finalizers storageClusterFinalizer = false →
      (ReconcileExternalStorageCluster env w).world.sc.finalizers = w.sc.finalizers ∧
      (ReconcileExternalStorageCluster env w).err = none ∧
      ∃ added, (ReconcileExternalStorageCluster env w).world.calls = w.calls ++ added ∧
        ∀ c ∈ added, c.isDeleteResources = false) ∧
    (∀ f, f ≠ storageClusterFinalizer →
      (f ∈ (ReconcileExternalStorageCluster env w).world.sc.finalizers ↔
        f ∈ w.sc.finalizers)) ∧
    (contains (ReconcileExternalStorageCluster env w).world.sc.finalizers
        storageClusterFinalizer = false →
      ∀ env2 : Env,
        (ReconcileExternalStorageCluster env2
          (ReconcileExternalStorageCluster env w).world).world.sc.finalizers =
          (ReconcileExternalStorageCluster env w).world.sc.finalizers ∧
        (ReconcileExternalStorageCluster env2
          (ReconcileExternalStorageCluster env w).world).err = none) := by
  have hs := seedConditions_spec env w
  have hb := deletionBranch_spec env (seedConditions env w).1
  have hfin := hb.2.2.2.2.2.2.2.2.1
  have herr := hb.2.2.2.2.2.2.2.2.2.1
  have hstored := hb.2.2.2.2.2.2.2.2.2.2
  rw [hs.1] at hfin herr hstored
  have hrm := remove_spec w.sc.finalizers storageClusterFinalizer
  rw [reconcile_deleting env w hdel hseed]
  simp only
  refine ⟨?_, ?_, ?_, ?_, ?_, ?_, ?_⟩
  · rw [hfin]
    constructor
    · rintro ⟨hc, hgone⟩
      refine ⟨hc, ?_⟩
      by_contra hd
      rw [if_neg (fun h => hd h.2)] at hgone
      rw [hc] at hgone
      cases hgone
    · rintro ⟨hc, hd⟩
      rw [if_pos ⟨hc, hd⟩]
      exact ⟨hc, hrm.1⟩
  · intro hc hd
    rw [hfin, herr, if_pos ⟨hc, hd⟩, if_pos hc, hd]
    exact ⟨rfl, rfl, fun hr => hstored hc hd hr⟩
  · intro hc hd
    rw [hfin, herr, if_pos hc, hd]
    refine ⟨if_neg ?_, rfl⟩
    rintro ⟨_, h⟩
    cases h
  · intro b e hc hd
    rw [hfin, herr, if_pos hc, hd]
    refine ⟨if_neg ?_, by cases b <;> rfl⟩
    rintro ⟨_, h⟩
    cases h
  · intro hc
    rw [hfin, herr]
    refine ⟨if_neg (by simp [hc]), if_neg (by simp [hc]), ?_⟩
    obtain ⟨a1, h1, _, hd1⟩ := hs.2.2.2.2.2.2.1
    obtain ⟨a2, h2, _, hd2⟩ := hb.2.2.2.2.2.2.1
    refine ⟨a1 ++ a2, ?_, ?_⟩
    · simp only [h2, h1, List.append_assoc]
    · intro c hcm
      rcases List.mem_append.mp hcm with h | h
      · exact hd1 c h
      · exact hd2 (by rw [hs.1]; exact hc) c h
  · intro f hf
    rw [hfin]
    split
    · exact hrm.2.1 f hf
    · rfl
  · intro hgone env2
    have hdel2 : deletionTimestampIsZero (deletionBranch env (seedConditions env w).1).1.sc
        = false := by
      unfold deletionTimestampIsZero at *
      rw [hb.2.2.1, hs.2.1]
      exact hdel
    have hcond2 : (deletionBranch env (seedConditions env w).1).1.sc.status.conditions ≠ [] := by
      rw [hb.2.1]
      exact hs.2.2.2.2.2.1
    have hs2 := seedConditions_spec env2 (deletionBranch env (seedConditions env w).1).1
    have hb2 := deletionBranch_spec env2
      (seedConditions env2 (deletionBranch env (seedConditions env w).1).1).1
    rw [reconcile_deleting env2 _ hdel2 (fun h => absurd h hcond2)]
    simp only
    rw [hb2.2.2.2.2.2.2.2.2.1, hb2.2.2.2.2.2.2.2.2.2.1, hs2.1]
    exact ⟨if_neg (by simp [hgone]), if_neg (by simp [hgone])⟩

/-- C9, at `deletingWorld`: when the cleanup reports "fully deleted" the guard token is removed
and the other finalizer stays; when it reports "not yet deleted" both finalizers stay. -/
theorem guard_token_removal_witness :
    (ReconcileExternalStorageCluster {} deletingWorld).world.sc.finalizers = ["other.io/guard"] ∧
    (ReconcileExternalStorageCluster {} deletingWorld).err = none ∧
    (ReconcileExternalStorageCluster notYetDeletedEnv deletingWorld).world.sc.finalizers =
      ["other.io/guard", storageClusterFinalizer] :=
  have h := (guard_token_removal {} deletingWorld (by decide) (fun _ => rfl)).2.1
    (by decide) rfl
  have h2 := (guard_token_removal notYetDeletedEnv deletingWorld (by decide)
    (fun _ => rfl)).2.2.1 (by decide) rfl
  ⟨h.1.trans (by decide), h.2.1, h2.1⟩


/-- The tail of `ensureExternalCephCluster` issues no call and leaves the store and the identity
of the owner as they were. -/
theorem ensureExternalCephClusterFound_frame (env : Env) (w : World) (found : CephCluster) :
    (ensureExternalCephClusterFound env w found).1.cephClusters = w.cephClusters ∧
    (ensureExternalCephClusterFound env w found).1.calls = w.calls ∧
    (ensureExternalCephClusterFound env w found).1.sc.name = w.sc.name ∧
    (ensureExternalCephClusterFound env w found).1.sc.nameSpace = w.sc.nameSpace := by
  unfold ensureExternalCephClusterFound GetReference
  cases env.getReferenceErr with
  | some text => exact ⟨rfl, rfl, rfl, rfl⟩
  | none =>
    simp only
    split_ifs <;> exact ⟨rfl, rfl, rfl, rfl⟩

/-- The child of a world: the CephCluster stored under the deterministic name in the namespace
of the owner is `found`, and its spec is the desired one. -/
theorem ensure_found_equal (env : Env) (w : World) (found : CephCluster)
    (hfound : w.cephClusters (w.sc.nameSpace, env.generateNameForExternalCephCluster w.sc.name)
      = some found)
    (hspec : found.spec = (newExternalCephCluster env w.sc env.cephImage).spec) :
    (ensureExternalCephCluster env w).1.cephClusters = w.cephClusters ∧
    ∃ added, (ensureExternalCephCluster env w).1.calls = w.calls ++ added ∧
      ∀ c ∈ added, c.writesChild = false := by
  unfold ensureExternalCephCluster SetControllerReference
  cases env.ensureControllerRefErr with
  | some text => exact ⟨rfl, [], by simp, by simp⟩
  | none =>
    simp only [clientGet, newExternalCephCluster]
    cases env.ensureGetErr with
    | some text =>
      simp only [Err.isNotFound]
      exact ⟨rfl, [Call.get _ _], rfl, by simp [Call.writesChild]⟩
    | none =>
      simp only [hfound]
      simp only [newExternalCephCluster] at hspec
      rw [if_neg (by simp [hspec])]
      have hf := ensureExternalCephClusterFound_frame env
        { w with calls := w.calls ++
            [Call.get w.sc.nameSpace (env.generateNameForExternalCephCluster w.sc.name)] } found
      rw [hf.1, hf.2.1]
      exact ⟨rfl, [Call.get _ _], rfl, by simp [Call.writesChild]⟩


theorem Store.wf_put (store : Store) (key : String × String) (obj : CephCluster)
    (hwf : store.wf) (hkey : (obj.nameSpace, obj.name) = key) : (store.put key obj).wf := by
  intro k c hc
  unfold Store.put at hc
  by_cases hk : k = key
  · rw [if_pos hk] at hc
    cases hc
    rw [hk]
    exact hkey
  · rw [if_neg hk] at hc
    exact hwf k c hc

theorem Store.put_same (store : Store) (key : String × String) (obj : CephCluster) :
    store.put key obj key = some obj := by
  unfold Store.put
  simp

/-- After an invocation of `ensureExternalCephCluster` that returns no error, the child is in
the store with the desired spec, and the owner has the name and namespace it had. -/
theorem ensure_success_child (env : Env) (w w1 : World) (hwf : w.cephClusters.wf)
    (h : ensureExternalCephCluster env w = (w1, none)) :
    w1.sc.name = w.sc.name ∧ w1.sc.nameSpace = w.sc.nameSpace ∧ w1.cephClusters.wf ∧
    ∃ found, w1.cephClusters
        (w.sc.nameSpace, env.generateNameForExternalCephCluster w.sc.name) = some found ∧
      found.spec = (newExternalCephCluster env w.sc env.cephImage).spec := by
  unfold ensureExternalCephCluster SetControllerReference at h
  cases hc : env.ensureControllerRefErr with
  | some text => rw [hc] at h; simp at h
  | none =>
    rw [hc] at h
    simp only [clientGet, newExternalCephCluster] at h
    cases hg : env.ensureGetErr with
    | some text => rw [hg] at h; simp [Err.isNotFound] at h
    | none =>
      rw [hg] at h
      simp only at h
      cases hl : w.cephClusters
          (w.sc.nameSpace, env.generateNameForExternalCephCluster w.sc.name) with
      | none =>
        rw [hl] at h
        simp only [Err.isNotFound, if_true, clientCreate] at h
        cases hcr : env.ensureCreateErr with
        | some text => rw [hcr] at h; simp at h
        | none =>
          rw [hcr] at h
          simp only [hl] at h
          have hw := congrArg Prod.fst h
          simp only at hw
          subst hw
          refine ⟨rfl, rfl, Store.wf_put _ _ _ hwf rfl, _, Store.put_same _ _ _, rfl⟩
      | some found =>
        rw [hl] at h
        simp only at h
        have hkey := hwf _ _ hl
        by_cases hs : found.spec = (newExternalCephCluster env w.sc env.cephImage).spec
        · simp only [newExternalCephCluster] at hs
          rw [if_neg (by simp [hs])] at h
          have hf := ensureExternalCephClusterFound_frame env
            { w with calls := w.calls ++
              [Call.get w.sc.nameSpace (env.generateNameForExternalCephCluster w.sc.name)] } found
          rw [h] at hf
          simp only at hf
          refine ⟨hf.2.2.1, hf.2.2.2, ?_, found, ?_, ?_⟩
          · rw [hf.1]; exact hwf
          · rw [hf.1]; exact hl
          · simp only [newExternalCephCluster]; exact hs
        · simp only [newExternalCephCluster] at hs
          rw [if_pos (by simpa using fun e => hs e.symm)] at h
          cases hst : env.ensureStatusErr with
          | some text => rw [hst] at h; simp [statusUpdate] at h
          | none =>
            rw [hst] at h
            simp only [statusUpdate, clientUpdate] at h
            cases hu : env.ensureUpdateErr with
            | some text => rw [hu] at h; simp at h
            | none =>
              rw [hu] at h
              simp only [World.setPhase] at h
              have hk1 : found.nameSpace = w.sc.nameSpace := congrArg Prod.fst hkey
              have hk2 : found.name = env.generateNameForExternalCephCluster w.sc.name :=
                congrArg Prod.snd hkey
              simp only [hk1, hk2, hl, if_true] at h
              have hw := congrArg Prod.fst h
              simp only at hw
              subst hw
              refine ⟨rfl, rfl, Store.wf_put _ _ _ hwf ?_, _, Store.put_same _ _ _, rfl⟩
              simp only [hk1, hk2]


/-- C10: when the store holds the child CephCluster under the deterministic name and its spec
equals the desired spec of `newExternalCephCluster`, `ensureExternalCephCluster` issues no
create and no update call and leaves every stored CephCluster, the child with its spec and
version token included, as it was, whatever the outcome of its other calls. Consequently, after
any invocation that returned no error on a well-formed store, a second invocation with the same
image and naming function issues no create and no update and leaves the store unchanged. -/
theorem ensure_idempotent (env : Env) (w : World) (found : CephCluster)
    (hfound : w.cephClusters (w.sc.nameSpace, env.generateNameForExternalCephCluster w.sc.name)
      = some found)
    (hspec : found.spec = (newExternalCephCluster env w.sc env.cephImage).spec) :
    (ensureExternalCephCluster env w).1.cephClusters = w.cephClusters ∧
    (ensureExternalCephCluster env w).1.cephClusters
      (w.sc.nameSpace, env.generateNameForExternalCephCluster w.sc.name) = some found ∧
    (∃ added, (ensureExternalCephCluster env w).1.calls = w.calls ++ added ∧
      ∀ c ∈ added, c.writesChild = false) ∧
    (∀ (env1 env2 : Env) (u u1 : World), u.cephClusters.wf →
      ensureExternalCephCluster env1 u = (u1, none) →
      env2.cephImage = env1.cephImage →
      env2.generateNameForExternalCephCluster = env1.generateNameForExternalCephCluster →
      (ensureExternalCephCluster env2 u1).1.cephClusters = u1.cephClusters ∧
      ∃ added, (ensureExternalCephCluster env2 u1).1.calls = u1.calls ++ added ∧
        ∀ c ∈ added, c.writesChild = false) := by
  have h1 := ensure_found_equal env w found hfound hspec
  refine ⟨h1.1, by rw [h1.1]; exact hfound, h1.2, ?_⟩
  intro env1 env2 u u1 hwf hrun himg hname
  obtain ⟨hn, hns, _, child, hchild, hcs⟩ := ensure_success_child env1 u u1 hwf hrun
  apply ensure_found_equal env2 u1 child
  · rw [hname, hn, hns]; exact hchild
  · rw [hcs]
    simp only [newExternalCephCluster, himg]

/-- C10, at `liveWorld`, whose store holds the child with the desired spec and version token 4:
the invocation leaves the child as it is and logs one call, the get. -/
theorem ensure_idempotent_witness :
    (ensureExternalCephCluster {} liveWorld).1.cephClusters ("openshift-storage", "ocs") =
      some { name := "ocs", nameSpace := "openshift-storage", resourceVersion := 4,
             spec := { externalEnable := true, dataDirHostPath := "/var/lib/rook" },
             status := { state := "Connected" } } ∧
    (ensureExternalCephCluster {} liveWorld).1.calls = [Call.get "openshift-storage" "ocs"] :=
  have h := ensure_idempotent {} liveWorld
    { name := "ocs", nameSpace := "openshift-storage", resourceVersion := 4,
      spec := { externalEnable := true, dataDirHostPath := "/var/lib/rook" },
      status := { state := "Connected" } } rfl rfl
  ⟨h.2.1, by decide⟩



theorem singleStore_wf (c : CephCluster) : (singleStore c).wf := by
  intro k d hd
  unfold singleStore at hd
  by_cases hk : k = (c.nameSpace, c.name)
  · rw [if_pos hk] at hd
    cases hd
    exact hk.symm
  · rw [if_neg hk] at hd
    cases hd

/-! ## Claims on the convergence of the child -/

/-- C11 (amended): when the store (well formed) holds the child with a spec different from the
desired one, and `SetControllerReference` and the store calls succeed, `ensureExternalCephCluster`
issues, in this order, the get, a status update of the owner whose phase is the state the child
last reported, and exactly one update of the child whose spec is the desired spec and whose other
fields are those of the fetched child; it issues no create, returns no error, and the store then
holds the child with the desired spec under the next version token. -/
theorem drift_correction (env : Env) (w : World) (found : CephCluster)
    (hwf : w.cephClusters.wf)
    (hfound : w.cephClusters (w.sc.nameSpace, env.generateNameForExternalCephCluster w.sc.name)
      = some found)
    (hspec : (newExternalCephCluster env w.sc env.cephImage).spec ≠ found.spec)
    (hctl : env.ensureControllerRefErr = none) (hget : env.ensureGetErr = none)
    (hst : env.ensureStatusErr = none) (hup : env.ensureUpdateErr = none) :
    (ensureExternalCephCluster env w).2 = none ∧
    (ensureExternalCephCluster env w).1.sc.status.phase = found.status.state ∧
    (ensureExternalCephCluster env w).1.stored.status.phase = found.status.state ∧
    (ensureExternalCephCluster env w).1.calls = w.calls ++
      [Call.get w.sc.nameSpace (env.generateNameForExternalCephCluster w.sc.name),
       Call.statusUpdate (w.setPhase found.status.state).sc,
       Call.update { found with spec := (newExternalCephCluster env w.sc env.cephImage).spec }] ∧
    (w.setPhase found.status.state).sc.status.phase = found.status.state ∧
    (∀ c ∈ (ensureExternalCephCluster env w).1.calls, (∃ obj, c = Call.create obj) →
      c ∈ w.calls) ∧
    (ensureExternalCephCluster env w).1.cephClusters
        (w.sc.nameSpace, env.generateNameForExternalCephCluster w.sc.name) =
      some { found with spec := (newExternalCephCluster env w.sc env.cephImage).spec,
                        resourceVersion := found.resourceVersion + 1 } := by
  have hkey := hwf _ _ hfound
  have hk1 : found.nameSpace = w.sc.nameSpace := congrArg Prod.fst hkey
  have hk2 : found.name = env.generateNameForExternalCephCluster w.sc.name :=
    congrArg Prod.snd hkey
  have hrun : ensureExternalCephCluster env w =
      ({ w with
          sc := (w.setPhase found.status.state).sc
          stored := { w.stored with status := (w.setPhase found.status.state).sc.status }
          calls := w.calls ++
            [Call.get w.sc.nameSpace (env.generateNameForExternalCephCluster w.sc.name),
             Call.statusUpdate (w.setPhase found.status.state).sc,
             Call.update
               { found with spec := (newExternalCephCluster env w.sc env.cephImage).spec }]
          cephClusters := w.cephClusters.put
            (w.sc.nameSpace, env.generateNameForExternalCephCluster w.sc.name)
            { found with spec := (newExternalCephCluster env w.sc env.cephImage).spec,
                         resourceVersion := found.resourceVersion + 1 } }, none) := by
    simp only [newExternalCephCluster] at hspec
    unfold ensureExternalCephCluster SetControllerReference
    rw [hctl]
    simp only [clientGet, newExternalCephCluster, hget, hfound]
    rw [if_pos hspec]
    simp only [statusUpdate, hst, clientUpdate, hup, World.setPhase, hk1, hk2, hfound, if_true,
      List.append_assoc, List.singleton_append]
    simp [hk1, hk2]
  rw [hrun]
  refine ⟨rfl, rfl, rfl, rfl, rfl, ?_, Store.put_same _ _ _⟩
  intro c hc hcreate
  obtain ⟨obj, rfl⟩ := hcreate
  simp only [List.mem_append, List.mem_cons, List.mem_singleton, reduceCtorEq, or_self,
    or_false, List.not_mem_nil] at hc
  exact hc

/-- C11 (amended), at `driftWorld`: the owner's phase becomes Updating, the child is updated
once and then carries the desired data directory and version token 5. -/
theorem drift_correction_witness :
    (ensureExternalCephCluster {} driftWorld).1.sc.status.phase = "Updating" ∧
    (ensureExternalCephCluster {} driftWorld).1.cephClusters ("openshift-storage", "ocs") =
      some { name := "ocs", nameSpace := "openshift-storage", resourceVersion := 5,
             spec := { externalEnable := true, dataDirHostPath := "/var/lib/rook" },
             status := { state := "Updating", message := "rolling" } } :=
  have h := drift_correction {} driftWorld driftChild (singleStore_wf driftChild)
    rfl (by decide) rfl rfl rfl rfl
  ⟨h.2.1, h.2.2.2.2.2.2⟩

/-- C11 as stated fails: at `driftWorld` with `ownerRefFailsEnv` the child exists with a spec
different from the desired one and no store call fails, yet `ensureExternalCephCluster` issues
no update of the child (it issues no call at all) and leaves the owner's phase as it was: it
returned the error of `SetControllerReference`. -/
theorem drift_not_corrected_without_owner_reference :
    (∃ found, driftWorld.cephClusters ("openshift-storage", "ocs") = some found ∧
      found.spec ≠ (newExternalCephCluster ownerRefFailsEnv driftWorld.sc
        ownerRefFailsEnv.cephImage).spec) ∧
    ownerRefFailsEnv.ensureGetErr = none ∧ ownerRefFailsEnv.ensureStatusErr = none ∧
    ownerRefFailsEnv.ensureUpdateErr = none ∧ ownerRefFailsEnv.ensureCreateErr = none ∧
    (ensureExternalCephCluster ownerRefFailsEnv driftWorld).1.calls = [] ∧
    (ensureExternalCephCluster ownerRefFailsEnv driftWorld).1.sc.status.phase = "Ready" ∧
    (ensureExternalCephCluster ownerRefFailsEnv driftWorld).2 =
      some (Err.failure "owner type not registered") :=
  ⟨⟨_, rfl, by decide⟩, rfl, rfl, rfl, rfl, by decide, by decide, by decide⟩


/-- C12, at `noChildWorld` with every call succeeding: the pass finds no child, creates it (the
store then holds it with the desired spec) and returns the not-found error of the get, although
nothing failed; `ensureExternalCephCluster` in the same world creates the child and returns no
error. -/
theorem notFound_returned_after_create :
    deletionTimestampIsZero noChildWorld.sc = true ∧
    noChildWorld.cephClusters ("openshift-storage", "ocs") = none ∧
    (ReconcileExternalStorageCluster {} noChildWorld).world.calls =
      [Call.get "openshift-storage" "ocs",
       Call.create { name := "ocs", nameSpace := "openshift-storage", labels := [("app", "ocs")],
                     ownerReferences := [{ kind := "StorageCluster", name := "ocs",
                                           controller := true }],
                     spec := { externalEnable := true, dataDirHostPath := "/var/lib/rook" } }] ∧
    ((ReconcileExternalStorageCluster {} noChildWorld).world.cephClusters
      ("openshift-storage", "ocs")).map (fun c => c.spec) =
      some { externalEnable := true, dataDirHostPath := "/var/lib/rook" } ∧
    (ReconcileExternalStorageCluster {} noChildWorld).err = some (Err.notFound "ocs") ∧
    (ReconcileExternalStorageCluster {} noChildWorld).stepsRun = 0 ∧
    (ensureExternalCephCluster {} noChildWorld).2 = none :=
  ⟨rfl, rfl, by decide, by decide, by decide, by decide, by decide⟩

/-- A step loop that ends with an error leaves phase Error and ReconcileComplete=False with the
text of that error. -/
theorem runSteps_error (env : Env) (steps : List Step) :
    ∀ (i : Nat) (w w1 : World) (n : Nat) (e : Err),
      runSteps env steps i w = (w1, n, some e) →
      w1.sc.status.phase = PhaseError ∧
      holdsRecord w1.sc.status.conditions ConditionReconcileComplete ConditionFalse
        ReconcileFailed ("Error while reconciling: " ++ e.text) := by
  induction steps with
  | nil => intro i w w1 n e h; simp [runSteps] at h
  | cons f fs ih =>
    intro i w w1 n e h
    simp only [runSteps] at h
    cases he : (f w).2 with
    | none =>
      rw [he] at h
      exact ih _ _ _ _ _ h
    | some e2 =>
      rw [he] at h
      simp only [Prod.mk.injEq, Option.some.injEq] at h
      obtain ⟨hw, _, hee⟩ := h
      subst hw hee
      exact stepFailed_spec env _ _

/-- C13 (amended): every pass on a live resource that returns an error raised by one of the
reconcile steps of the ordered list leaves the resource with phase Error and with its
ReconcileComplete condition False (and the error it returns is that of the step). -/
theorem step_error_leaves_error_phase (env : Env) (w w0 w1 : World) (n : Nat) (e : Err)
    (hpre : beforeSteps env w = .ok w0)
    (hsteps : runSteps env (stepList env) 0 w0 = (w1, n, some e)) :
    deletionTimestampIsZero w.sc = true ∧
    (ReconcileExternalStorageCluster env w).err = some e ∧
    (ReconcileExternalStorageCluster env w).world.sc.status.phase = PhaseError ∧
    holdsStatus (ReconcileExternalStorageCluster env w).world.sc.status.conditions
      ConditionReconcileComplete ConditionFalse ∧
    IsStatusConditionFalse (ReconcileExternalStorageCluster env w).world.sc.status.conditions
      ConditionReconcileComplete = true := by
  have hrec : ReconcileExternalStorageCluster env w = ⟨w1, some e, n⟩ := by
    unfold ReconcileExternalStorageCluster
    rw [hpre]
    simp only [hsteps]
  have herr := runSteps_error env (stepList env) 0 w0 w1 n e hsteps
  have hheld : holdsStatus w1.sc.status.conditions ConditionReconcileComplete
      ConditionFalse := by
    obtain ⟨r, hr, hs, _⟩ := herr.2
    exact ⟨r, hr, hs⟩
  rw [hrec]
  exact ⟨beforeSteps_ok_live env w w0 hpre, rfl, herr.1, hheld,
    (IsStatusCondition_iff _ _).2.1.2 hheld⟩

/-- C13 (amended), at `liveWorld` with `noobaaFailsEnv`: the third step fails and the pass ends
in phase Error with ReconcileComplete=False. -/
theorem step_error_leaves_error_phase_witness :
    (ReconcileExternalStorageCluster noobaaFailsEnv liveWorld).world.sc.status.phase
      = PhaseError ∧
    IsStatusConditionFalse
      (ReconcileExternalStorageCluster noobaaFailsEnv liveWorld).world.sc.status.conditions
      ConditionReconcileComplete = true :=
  have h := step_error_leaves_error_phase noobaaFailsEnv liveWorld _ _ _ _ rfl rfl
  ⟨h.2.2.1, h.2.2.2.2⟩

/-- C13 as stated fails: at `liveWorld` with `getFailsEnv` the resource is live and the pass
returns an error, the one of the get of the child, yet it leaves the resource in phase
Progressing, not Error, and without a ReconcileComplete condition. -/
theorem early_error_leaves_phase :
    deletionTimestampIsZero liveWorld.sc = true ∧
    (ReconcileExternalStorageCluster getFailsEnv liveWorld).err =
      some (Err.failure "connection refused") ∧
    (ReconcileExternalStorageCluster getFailsEnv liveWorld).world.sc.status.phase
      = PhaseProgressing ∧
    (ReconcileExternalStorageCluster getFailsEnv liveWorld).world.sc.status.phase
      ≠ PhaseError ∧
    FindStatusCondition
      (ReconcileExternalStorageCluster getFailsEnv liveWorld).world.sc.status.conditions
      ConditionReconcileComplete = none ∧
    IsStatusConditionFalse
      (ReconcileExternalStorageCluster getFailsEnv liveWorld).world.sc.status.conditions
      ConditionReconcileComplete = false :=
  ⟨rfl, by decide, by decide, by decide, by decide, by decide⟩

/-- C14, at `liveWorld` (child Connected) and `connectingWorld` (child Connecting) with every
call succeeding and the expansion flag never set: `ensureExternalCephCluster` observes the state
and sets the phase Connected (Connecting), all steps succeed and the pass returns no error, yet
the phase at the end of the pass, in memory and in the store, is Error. -/
theorem connection_phase_overwritten :
    (ensureExternalCephCluster {} liveWorld).1.sc.status.phase = PhaseConnected ∧
    (ensureExternalCephCluster {} connectingWorld).1.sc.status.phase = PhaseConnecting ∧
    (ReconcileExternalStorageCluster {} liveWorld).err = none ∧
    (ReconcileExternalStorageCluster {} liveWorld).stepsRun = 3 ∧
    (ReconcileExternalStorageCluster {} liveWorld).world.phase ≠ PhaseClusterExpanding ∧
    (ReconcileExternalStorageCluster {} liveWorld).world.sc.status.phase = PhaseError ∧
    (ReconcileExternalStorageCluster {} liveWorld).world.stored.status.phase = PhaseError ∧
    (ReconcileExternalStorageCluster {} connectingWorld).err = none ∧
    (ReconcileExternalStorageCluster {} connectingWorld).stepsRun = 3 ∧
    (ReconcileExternalStorageCluster {} connectingWorld).world.phase ≠ PhaseClusterExpanding ∧
    (ReconcileExternalStorageCluster {} connectingWorld).world.sc.status.phase = PhaseError ∧
    (ReconcileExternalStorageCluster {} connectingWorld).world.stored.status.phase
      = PhaseError :=
  ⟨by decide, by decide, by decide, by decide, by decide, by decide, by decide, by decide,
    by decide, by decide, by decide, by decide⟩


/-- The last call of the log is a status update that carries the phase ExpandingCapacity. -/
theorem provisionalPhase_pinned (env : Env) (i : Nat) (u : World)
    (h : u.phase = PhaseClusterExpanding) :
    (provisionalPhase env i u).sc.status.phase = PhaseClusterExpanding ∧
    ∃ pre sc2, (provisionalPhase env i u).calls = pre ++ [Call.statusUpdate sc2] ∧
      sc2.status.phase = PhaseClusterExpanding := by
  unfold provisionalPhase
  rw [if_pos h]
  refine ⟨by simp, u.calls, (u.setPhase PhaseClusterExpanding).sc, ?_, rfl⟩
  rw [statusUpdate_calls]
  rfl

/-- A loop without error over a non-empty step list ends with a provisional phase update. -/
theorem runSteps_last (env : Env) (steps : List Step) :
    ∀ (i : Nat) (w w1 : World) (k : Nat), steps ≠ [] →
      runSteps env steps i w = (w1, k, none) →
      ∃ j u, w1 = provisionalPhase env j u := by
  induction steps with
  | nil => intro i w w1 k h; exact absurd rfl h
  | cons f fs ih =>
    intro i w w1 k _ h
    simp only [runSteps] at h
    cases he : (f w).2 with
    | some e => rw [he] at h; simp at h
    | none =>
      rw [he] at h
      simp only at h
      cases fs with
      | nil =>
        simp only [runSteps, Prod.mk.injEq] at h
        exact ⟨i, (f w).1, h.1.symm⟩
      | cons g gs => exact ih _ _ _ _ (by simp) h

/-- The end of the pass keeps a pinned phase, on every path. -/
theorem finishPass_pinned (env : Env) (w : World) (n : Nat)
    (hp : w.sc.status.phase = PhaseClusterExpanding)
    (hlast : ∃ pre sc2, w.calls = pre ++ [Call.statusUpdate sc2] ∧
      sc2.status.phase = PhaseClusterExpanding) :
    (finishPass env w n).world.sc.status.phase = PhaseClusterExpanding ∧
    (∃ pre sc2, (finishPass env w n).world.calls = pre ++ [Call.statusUpdate sc2] ∧
      sc2.status.phase = PhaseClusterExpanding) ∧
    ((finishPass env w n).err = none →
      (finishPass env w n).world.stored.status.phase = PhaseClusterExpanding) := by
  have hfinal : ∀ u : World, u.sc.status.phase = PhaseClusterExpanding →
      (match statusUpdate env.finalStatusErr u with
        | (w2, some phaseErr) => (⟨w2, some phaseErr, n⟩ : Outcome)
        | (w2, none) => ⟨w2, none, n⟩).world.sc.status.phase = PhaseClusterExpanding ∧
      (∃ pre sc2, (match statusUpdate env.finalStatusErr u with
        | (w2, some phaseErr) => (⟨w2, some phaseErr, n⟩ : Outcome)
        | (w2, none) => ⟨w2, none, n⟩).world.calls = pre ++ [Call.statusUpdate sc2] ∧
        sc2.status.phase = PhaseClusterExpanding) ∧
      ((match statusUpdate env.finalStatusErr u with
        | (w2, some phaseErr) => (⟨w2, some phaseErr, n⟩ : Outcome)
        | (w2, none) => ⟨w2, none, n⟩).err = none →
        (match statusUpdate env.finalStatusErr u with
        | (w2, some phaseErr) => (⟨w2, some phaseErr, n⟩ : Outcome)
        | (w2, none) => ⟨w2, none, n⟩).world.stored.status.phase = PhaseClusterExpanding) := by
    intro u hu
    cases hf : env.finalStatusErr with
    | none => exact ⟨hu, ⟨u.calls, u.sc, rfl, hu⟩, fun _ => hu⟩
    | some text =>
      refine ⟨hu, ⟨u.calls, u.sc, rfl, hu⟩, ?_⟩
      intro h
      simp [statusUpdate] at h
  unfold finishPass
  simp only
  by_cases he : w.conditions = []
  · rw [if_pos he]
    cases hr : env.readySetErr with
    | some text =>
      refine ⟨hp, hlast, ?_⟩
      intro h
      simp at h
    | none =>
      simp only
      rw [if_neg (by simp [hp])]
      exact hfinal _ hp
  · rw [if_neg he]
    split
    · cases hr : env.readyUnsetErr with
      | some text =>
        refine ⟨hp, hlast, ?_⟩
        intro h
        simp at h
      | none =>
        simp only
        rw [if_neg (by simp [hp])]
        exact hfinal _ hp
    · rw [if_neg (by simp [hp])]
      exact hfinal _ hp

/-- C15: when the pass reaches the step loop, all steps succeed and the expansion flag `r.phase`
is ExpandingCapacity after the last step, the phase at the end of the pass is ExpandingCapacity,
whether the aggregate is empty or not and whatever the conditions are; the last call the pass
issues is a status update that carries this phase, and when the pass returns no error the
persisted phase is ExpandingCapacity. After each step with the flag set the provisional phase
is ExpandingCapacity and a status update carrying it is issued. -/
theorem expansion_pin (env : Env) (w w0 w1 : World) (n : Nat)
    (hpre : beforeSteps env w = .ok w0)
    (hsteps : runSteps env (stepList env) 0 w0 = (w1, n, none))
    (hflag : w1.phase = PhaseClusterExpanding) :
    (ReconcileExternalStorageCluster env w).world.sc.status.phase = PhaseClusterExpanding ∧
    (∃ pre sc2, (ReconcileExternalStorageCluster env w).world.calls =
        pre ++ [Call.statusUpdate sc2] ∧ sc2.status.phase = PhaseClusterExpanding) ∧
    ((ReconcileExternalStorageCluster env w).err = none →
      (ReconcileExternalStorageCluster env w).world.stored.status.phase
        = PhaseClusterExpanding) ∧
    (∀ (i : Nat) (u : World), u.phase = PhaseClusterExpanding →
      (provisionalPhase env i u).sc.status.phase = PhaseClusterExpanding ∧
      ∃ pre sc2, (provisionalPhase env i u).calls = pre ++ [Call.statusUpdate sc2] ∧
        sc2.status.phase = PhaseClusterExpanding) := by
  have hrec : ReconcileExternalStorageCluster env w = finishPass env w1 n := by
    unfold ReconcileExternalStorageCluster
    rw [hpre]
    simp only [hsteps]
  obtain ⟨j, u, hu⟩ := runSteps_last env (stepList env) 0 w0 w1 n (by simp [stepList]) hsteps
  have huflag : u.phase = PhaseClusterExpanding := by
    rw [← (provisionalPhase_flag env j u).1, ← hu]
    exact hflag
  have hpin := provisionalPhase_pinned env j u huflag
  rw [← hu] at hpin
  have hfin := finishPass_pinned env w1 n hpin.1 hpin.2
  rw [hrec]
  exact ⟨hfin.1, hfin.2.1, hfin.2.2, fun i u hu => provisionalPhase_pinned env i u hu⟩

/-- C15, at `liveWorld` with `expansionEnv` (the first step sets the flag, the child is Connected,
not Updating): the aggregate is not empty, and the pass ends in phase ExpandingCapacity, also in
the store. -/
theorem expansion_pin_witness :
    (ReconcileExternalStorageCluster expansionEnv liveWorld).world.conditions ≠ [] ∧
    (ReconcileExternalStorageCluster expansionEnv liveWorld).world.sc.status.phase
      = PhaseClusterExpanding ∧
    (ReconcileExternalStorageCluster expansionEnv liveWorld).world.stored.status.phase
      = PhaseClusterExpanding :=
  have h := expansion_pin expansionEnv liveWorld _ _ _ rfl rfl rfl
  ⟨by decide, h.1, h.2.2.1 (by decide)⟩


/-! ## Claims on the mappers of `status.go` -/

/-- C16, what the code does: for an external CephCluster in state Connected the `switch` of
`MapExternalCephClusterNegativeConditions` takes its `default` case, so the aggregate is not left
unchanged: Degraded=True is upserted with reason ExternalClusterStateUnknownCondition, and an
empty aggregate becomes non-empty. -/
theorem connected_recorded_as_degraded (clk : Clock) (conds : List Condition) (m : String) :
    MapExternalCephClusterNegativeConditions clk conds
        { state := ClusterStateConnected, message := m } =
      SetStatusCondition (clk 0) conds
        { type := ConditionDegraded, status := ConditionTrue,
          reason := "ExternalClusterStateUnknownCondition",
          message := "External CephCluster Unknown Condition: " ++ m } ∧
    holdsRecord (MapExternalCephClusterNegativeConditions clk conds
        { state := ClusterStateConnected, message := m })
      ConditionDegraded ConditionTrue "ExternalClusterStateUnknownCondition"
      ("External CephCluster Unknown Condition: " ++ m) ∧
    MapExternalCephClusterNegativeConditions clk []
        { state := ClusterStateConnected, message := m } ≠ [] ∧
    MapExternalCephClusterNegativeConditions (fun _ => 3) [] { state := "Connected" } =
      [{ type := "Degraded", status := "True", reason := "ExternalClusterStateUnknownCondition",
         message := "External CephCluster Unknown Condition: ", lastTransitionTime := 3,
         lastHeartbeatTime := 3 }] := by
  have hm : ∀ l, MapExternalCephClusterNegativeConditions clk l
        { state := ClusterStateConnected, message := m } =
      SetStatusCondition (clk 0) l
        { type := ConditionDegraded, status := ConditionTrue,
          reason := "ExternalClusterStateUnknownCondition",
          message := "External CephCluster Unknown Condition: " ++ m } := by
    intro l
    unfold MapExternalCephClusterNegativeConditions
    rw [if_neg (by show ¬ ClusterStateConnected = ClusterStateConnecting; decide),
      if_neg (by show ¬ ClusterStateConnected = ClusterStateError; decide)]
  refine ⟨hm conds, ?_, ?_, by decide⟩
  · rw [hm]
    exact holdsRecord_upsert _ _ _
  · rw [hm]
    exact SetStatusCondition_ne_nil _ _ _

/-- An upsert of a type that is absent appends the record, stamped with the current time. -/
theorem SetStatusCondition_absent (now : Time) (l : List Condition) (n : Condition)
    (h : FindStatusCondition l n.type = none) :
    SetStatusCondition now l n =
      l ++ [{ n with lastTransitionTime := now, lastHeartbeatTime := now }] := by
  unfold SetStatusCondition
  rw [h]

/-- A lookup in a list with one more record at the end. -/
theorem Find_append_singleton (l : List Condition) (c : Condition) (t : String) :
    FindStatusCondition (l ++ [c]) t =
      match FindStatusCondition l t with
      | some r => some r
      | none => if c.type = t then some c else none := by
  induction l with
  | nil => simp [FindStatusCondition]
  | cons d ds ih =>
    by_cases hd : d.type = t
    · simp [FindStatusCondition, hd]
    · simp [FindStatusCondition, hd, ih]

/-- C19 (amended): for every aggregate that holds no Progressing and no Upgradeable record,
`MapNoobaaNegativeConditions` applied to a NooBaa whose phase is Verifying, Creating, Connecting
or Configuring appends the one record Progressing=True with reason NoobaaInitializing; the
resulting aggregate holds Progressing with status True and still no Upgradeable record. -/
theorem noobaa_transient_progressing (clk : Clock) (conds : List Condition) (found : NooBaa)
    (hprog : FindStatusCondition conds ConditionProgressing = none)
    (hupg : FindStatusCondition conds ConditionUpgradeable = none)
    (hphase : found.phase = SystemPhaseVerifying ∨ found.phase = SystemPhaseCreating ∨
      found.phase = SystemPhaseConnecting ∨ found.phase = SystemPhaseConfiguring) :
    MapNoobaaNegativeConditions clk conds (some found) =
      conds ++ [{ type := ConditionProgressing, status := ConditionTrue,
                  reason := "NoobaaInitializing",
                  message := "Waiting on Nooba instance to finish initialization",
                  lastTransitionTime := clk 0, lastHeartbeatTime := clk 0 }] ∧
    holdsRecord (MapNoobaaNegativeConditions clk conds (some found))
      ConditionProgressing ConditionTrue "NoobaaInitializing"
      "Waiting on Nooba instance to finish initialization" ∧
    FindStatusCondition (MapNoobaaNegativeConditions clk conds (some found))
      ConditionUpgradeable = none := by
  have hrej : ¬ found.phase = SystemPhaseRejected := by
    rcases hphase with h | h | h | h <;> rw [h] <;> decide
  have hmap : MapNoobaaNegativeConditions clk conds (some found) =
      conds ++ [{ type := ConditionProgressing, status := ConditionTrue,
                  reason := "NoobaaInitializing",
                  message := "Waiting on Nooba instance to finish initialization",
                  lastTransitionTime := clk 0, lastHeartbeatTime := clk 0 }] := by
    unfold MapNoobaaNegativeConditions
    simp only
    rw [if_neg hrej, if_pos (Or.inr hphase)]
    unfold setStatusConditionIfNotPresent
    simp only [hprog]
    exact SetStatusCondition_absent _ _ _ hprog
  rw [hmap]
  refine ⟨rfl, ⟨{ type := ConditionProgressing, status := ConditionTrue,
                  reason := "NoobaaInitializing",
                  message := "Waiting on Nooba instance to finish initialization",
                  lastTransitionTime := clk 0, lastHeartbeatTime := clk 0 }, ?_, rfl, rfl, rfl⟩, ?_⟩
  · rw [Find_append_singleton, hprog]
    simp
  · rw [Find_append_singleton, hupg]
    simp only
    rw [if_neg (by show ¬ ConditionProgressing = ConditionUpgradeable; decide)]

/-- C19 (amended), at the empty aggregate and a NooBaa in phase Creating. -/
theorem noobaa_transient_progressing_witness :
    MapNoobaaNegativeConditions (fun _ => 2) [] (some { phase := "Creating" }) =
      [{ type := "Progressing", status := "True", reason := "NoobaaInitializing",
         message := "Waiting on Nooba instance to finish initialization",
         lastTransitionTime := 2, lastHeartbeatTime := 2 }] :=
  (noobaa_transient_progressing (fun _ => 2) [] { phase := "Creating" } rfl rfl
    (Or.inr (Or.inl rfl))).1

/-- C19 as stated fails: from the empty aggregate (which holds no Progressing and no Upgradeable
record) and a NooBaa in phase Creating, the resulting aggregate holds Progressing=True but no
Upgradeable record at all, so it does not hold Upgradeable with status False. -/
theorem noobaa_transient_no_upgradeable :
    FindStatusCondition [] ConditionProgressing = none ∧
    FindStatusCondition [] ConditionUpgradeable = none ∧
    IsStatusConditionTrue
      (MapNoobaaNegativeConditions (fun _ => 2) [] (some { phase := SystemPhaseCreating }))
      ConditionProgressing = true ∧
    FindStatusCondition
      (MapNoobaaNegativeConditions (fun _ => 2) [] (some { phase := SystemPhaseCreating }))
      ConditionUpgradeable = none ∧
    IsStatusConditionFalse
      (MapNoobaaNegativeConditions (fun _ => 2) [] (some { phase := SystemPhaseCreating }))
      ConditionUpgradeable = false :=
  ⟨rfl, rfl, by decide, by decide, by decide⟩

/-- After `setStatusConditionIfNotPresent` the list holds the type with the status of the
condition. -/
theorem setStatusConditionIfNotPresent_holds (now : Time) (l : List Condition) (c : Condition) :
    holdsStatus (setStatusConditionIfNotPresent now l c) c.type c.status := by
  unfold setStatusConditionIfNotPresent
  cases h : FindStatusCondition l c.type with
  | none => exact holdsStatus_upsert _ _ _
  | some r =>
    simp only
    by_cases hs : r.status = c.status
    · rw [if_pos hs]
      exact ⟨r, h, hs⟩
    · rw [if_neg hs]
      exact holdsStatus_upsert _ _ _

/-- When the lookup finds the status of the condition, `setStatusConditionIfNotPresent` returns
the list as it is. -/
theorem setStatusConditionIfNotPresent_same (now : Time) (l : List Condition) (c : Condition)
    (h : holdsStatus l c.type c.status) : setStatusConditionIfNotPresent now l c = l := by
  obtain ⟨r, hr, hs⟩ := h
  unfold setStatusConditionIfNotPresent
  rw [hr]
  simp only
  rw [if_pos hs]

/-- C20: if the list holds a record of the type of `c` whose status equals that of `c` (the
record the lookup finds; in a list with one record per type, any record of that type),
`setStatusConditionIfNotPresent` leaves the list exactly as it was, so that record keeps its
reason, message, lastTransitionTime and heartbeat time and no record is added; otherwise the
result is that of the plain upsert of `c`. Hence applying `MapNoobaaNegativeConditions` twice
with the same NooBaa (nil included), at any clock readings, yields the aggregate of applying it
once. -/
theorem setStatusConditionIfNotPresent_noop (now : Time) (conds : List Condition)
    (c : Condition) :
    (holdsStatus conds c.type c.status → setStatusConditionIfNotPresent now conds c = conds) ∧
    (UniqueTypes conds → ∀ r ∈ conds, r.type = c.type → r.status = c.status →
      setStatusConditionIfNotPresent now conds c = conds ∧
      FindStatusCondition (setStatusConditionIfNotPresent now conds c) c.type = some r) ∧
    (¬ holdsStatus conds c.type c.status →
      setStatusConditionIfNotPresent now conds c = SetStatusCondition now conds c) ∧
    (∀ (clk1 clk2 : Clock) (found : Option NooBaa),
      MapNoobaaNegativeConditions clk2 (MapNoobaaNegativeConditions clk1 conds found) found =
        MapNoobaaNegativeConditions clk1 conds found) := by
  refine ⟨setStatusConditionIfNotPresent_same now conds c, ?_, ?_, ?_⟩
  · intro hu r hr ht hs
    have hfind : FindStatusCondition conds c.type = some r := by
      rw [← ht]
      exact Find_of_mem_unique conds r hu hr
    have hsame := setStatusConditionIfNotPresent_same now conds c ⟨r, hfind, hs⟩
    exact ⟨hsame, by rw [hsame]; exact hfind⟩
  · intro hn
    unfold setStatusConditionIfNotPresent
    cases h : FindStatusCondition conds c.type with
    | none => rfl
    | some r =>
      simp only
      rw [if_neg (fun hs => hn ⟨r, h, hs⟩)]
  · intro clk1 clk2 found
    have hidem : ∀ (t1 t2 : Time) (l : List Condition) (d : Condition),
        setStatusConditionIfNotPresent t2 (setStatusConditionIfNotPresent t1 l d) d =
          setStatusConditionIfNotPresent t1 l d := fun t1 t2 l d =>
      setStatusConditionIfNotPresent_same t2 _ d (setStatusConditionIfNotPresent_holds t1 l d)
    unfold MapNoobaaNegativeConditions
    cases found with
    | none => exact hidem _ _ _ _
    | some nb =>
      simp only
      split_ifs
      · exact hidem _ _ _ _
      · exact hidem _ _ _ _
      · rfl
      · exact hidem _ _ _ _

/-- C20, at an aggregate that holds Degraded=True since 3 with another wording: the report of a
rejected NooBaa at reading 9 leaves the record as it is. -/
theorem setStatusConditionIfNotPresent_noop_witness :
    setStatusConditionIfNotPresent 9
      [{ type := "Degraded", status := "True", reason := "ClusterStateError",
         message := "CephCluster error: x", lastTransitionTime := 3, lastHeartbeatTime := 4 }]
      { type := "Degraded", status := "True", reason := "NoobaaSpecRejected",
        message := "rejected" } =
      [{ type := "Degraded", status := "True", reason := "ClusterStateError",
         message := "CephCluster error: x", lastTransitionTime := 3, lastHeartbeatTime := 4 }] :=
  (setStatusConditionIfNotPresent_noop 9
    [{ type := "Degraded", status := "True", reason := "ClusterStateError",
       message := "CephCluster error: x", lastTransitionTime := 3, lastHeartbeatTime := 4 }]
    { type := "Degraded", status := "True", reason := "NoobaaSpecRejected",
      message := "rejected" }).1 ⟨_, rfl, rfl⟩


/-- The reference just registered is in the related objects. -/
theorem SetObjectReference_mem (l : List ObjectReference) (o : ObjectReference) :
    o ∈ SetObjectReference l o := by
  induction l with
  | nil => simp [SetObjectReference]
  | cons d ds ih =>
    unfold SetObjectReference
    split
    · exact List.mem_cons_self _ _
    · exact List.mem_cons_of_mem _ ih

/-- C18 (amended): when the store does not hold the child under the deterministic name and
`SetControllerReference`, the get (answering not-found) and the create succeed,
`ensureExternalCephCluster` issues the get and exactly one create, whose object has the desired
spec, the deterministic name, the namespace of the owner and the owner as its controller
reference, and returns no error; the store then holds that object. The owner, its related
objects included, is left as it was: the identity of the child is registered by a following
invocation that finds the child (with the same image and naming function, and with
`SetControllerReference`, the get and `GetReference` succeeding). -/
theorem create_path (env : Env) (w : World)
    (habsent : w.cephClusters (w.sc.nameSpace, env.generateNameForExternalCephCluster w.sc.name)
      = none)
    (hctl : env.ensureControllerRefErr = none) (hget : env.ensureGetErr = none)
    (hcreate : env.ensureCreateErr = none) :
    (ensureExternalCephCluster env w).2 = none ∧
    (ensureExternalCephCluster env w).1.calls = w.calls ++
      [Call.get w.sc.nameSpace (env.generateNameForExternalCephCluster w.sc.name),
       Call.create
         { name := env.generateNameForExternalCephCluster w.sc.name
           nameSpace := w.sc.nameSpace
           labels := [("app", w.sc.name)]
           ownerReferences := [{ kind := "StorageCluster", name := w.sc.name, controller := true }]
           spec := (newExternalCephCluster env w.sc env.cephImage).spec }] ∧
    (ensureExternalCephCluster env w).1.cephClusters
        (w.sc.nameSpace, env.generateNameForExternalCephCluster w.sc.name) =
      some { name := env.generateNameForExternalCephCluster w.sc.name
             nameSpace := w.sc.nameSpace
             labels := [("app", w.sc.name)]
             ownerReferences := [{ kind := "StorageCluster", name := w.sc.name,
                                   controller := true }]
             resourceVersion := 1
             spec := (newExternalCephCluster env w.sc env.cephImage).spec } ∧
    (ensureExternalCephCluster env w).1.sc = w.sc ∧
    (∀ env2 : Env, env2.cephImage = env.cephImage →
      env2.generateNameForExternalCephCluster = env.generateNameForExternalCephCluster →
      env2.ensureControllerRefErr = none → env2.ensureGetErr = none →
      env2.getReferenceErr = none →
      (ensureExternalCephCluster env2 (ensureExternalCephCluster env w).1).2 = none ∧
      ({ kind := "CephCluster", nameSpace := w.sc.nameSpace,
         name := env.generateNameForExternalCephCluster w.sc.name, resourceVersion := 1 }
        : ObjectReference) ∈
        (ensureExternalCephCluster env2
          (ensureExternalCephCluster env w).1).1.sc.status.relatedObjects) := by
  have hrun : ensureExternalCephCluster env w =
      ({ w with
          calls := w.calls ++
            [Call.get w.sc.nameSpace (env.generateNameForExternalCephCluster w.sc.name),
             Call.create
               { name := env.generateNameForExternalCephCluster w.sc.name
                 nameSpace := w.sc.nameSpace
                 labels := [("app", w.sc.name)]
                 ownerReferences :=
                   [{ kind := "StorageCluster", name := w.sc.name, controller := true }]
                 spec := (newExternalCephCluster env w.sc env.cephImage).spec }]
          cephClusters := w.cephClusters.put
            (w.sc.nameSpace, env.generateNameForExternalCephCluster w.sc.name)
            { name := env.generateNameForExternalCephCluster w.sc.name
              nameSpace := w.sc.nameSpace
              labels := [("app", w.sc.name)]
              ownerReferences :=
                [{ kind := "StorageCluster", name := w.sc.name, controller := true }]
              resourceVersion := 1
              spec := (newExternalCephCluster env w.sc env.cephImage).spec } }, none) := by
    unfold ensureExternalCephCluster SetControllerReference
    rw [hctl]
    simp only [clientGet, newExternalCephCluster, hget, habsent, Err.isNotFound, if_true,
      clientCreate, hcreate]
    simp
  rw [hrun]
  refine ⟨rfl, rfl, Store.put_same _ _ _, rfl, ?_⟩
  intro env2 himg hname hctl2 hget2 href2
  unfold ensureExternalCephCluster SetControllerReference
  rw [hctl2]
  simp only [clientGet, newExternalCephCluster, hget2, hname, himg, Store.put_same]
  rw [if_neg (by simp)]
  unfold ensureExternalCephClusterFound GetReference
  rw [href2]
  simp only
  refine ⟨trivial, ?_⟩
  split_ifs <;> exact SetObjectReference_mem _ _

/-- C18 (amended), at `noChildWorld` with every call succeeding: the child is created with the
desired spec and the owner as controller, and the related objects of the owner stay empty. -/
theorem create_path_witness :
    (ensureExternalCephCluster {} noChildWorld).1.cephClusters ("openshift-storage", "ocs") =
      some { name := "ocs", nameSpace := "openshift-storage", labels := [("app", "ocs")],
             ownerReferences := [{ kind := "StorageCluster", name := "ocs", controller := true }],
             resourceVersion := 1,
             spec := { externalEnable := true, dataDirHostPath := "/var/lib/rook" } } ∧
    (ensureExternalCephCluster {} noChildWorld).1.sc.status.relatedObjects = [] :=
  have h := create_path {} noChildWorld rfl rfl rfl rfl
  ⟨h.2.2.1, (congrArg (fun sc => sc.status.relatedObjects) h.2.2.2.1).trans rfl⟩

/-- C18 as stated fails: at `noChildWorld` with every call succeeding the child does not exist,
`ensureExternalCephCluster` issues one create and returns no error, yet afterwards the related
objects of the owner are empty: they do not contain the identity of the created child. -/
theorem created_child_not_registered :
    noChildWorld.cephClusters ("openshift-storage", "ocs") = none ∧
    (ensureExternalCephCluster {} noChildWorld).2 = none ∧
    ((ensureExternalCephCluster {} noChildWorld).1.calls.filter Call.writesChild).length = 1 ∧
    ((ensureExternalCephCluster {} noChildWorld).1.cephClusters
      ("openshift-storage", "ocs")).isSome = true ∧
    (ensureExternalCephCluster {} noChildWorld).1.sc.status.relatedObjects = [] ∧
    ¬ (∃ o ∈ (ensureExternalCephCluster {} noChildWorld).1.sc.status.relatedObjects,
        o.kind = "CephCluster" ∧ o.nameSpace = "openshift-storage" ∧ o.name = "ocs") :=
  ⟨rfl, by decide, by decide, by decide, by decide, by decide⟩


/-- The provisional phase update keeps the store and the identity of the owner. -/
theorem provisionalPhase_frame (env : Env) (i : Nat) (w : World) :
    (provisionalPhase env i w).cephClusters = w.cephClusters ∧
    (provisionalPhase env i w).sc.name = w.sc.name ∧
    (provisionalPhase env i w).sc.nameSpace = w.sc.nameSpace := by
  unfold provisionalPhase
  split_ifs
  · simp only [statusUpdate_store, statusUpdate_sc, setPhase_store]
    exact ⟨trivial, rfl, rfl⟩
  · simp only [statusUpdate_store, statusUpdate_sc, setPhase_store]
    exact ⟨trivial, rfl, rfl⟩
  · exact ⟨rfl, rfl, rfl⟩

/-- The loop entered by the pass starts with an empty aggregate and an unset expansion flag. -/
theorem beforeSteps_ok_reset (env : Env) (w w0 : World) (h : beforeSteps env w = .ok w0) :
    w0.conditions = [] ∧ w0.phase = "" := by
  have hfetch : ∀ u : World, fetchChild env u = .ok w0 → w0.conditions = [] ∧ w0.phase = "" := by
    intro u hu
    unfold fetchChild at hu
    simp only at hu
    split at hu
    · cases hu
    · split at hu
      · split at hu
        · split at hu <;> cases hu
        · cases hu
      · split at hu
        · cases hu
        · cases hu
          exact ⟨rfl, rfl⟩
  unfold beforeSteps at h
  simp only at h
  split at h
  · cases h
  · split at h
    · split at h
      · split at h
        · cases h
        · exact hfetch _ h
      · exact hfetch _ h
    · cases h

/-- The step loop over three steps that succeed. -/
theorem runSteps_three (env : Env) (a b c : Step) (w0 wa wb wc : World)
    (ha : a w0 = (wa, none)) (hb : b (provisionalPhase env 0 wa) = (wb, none))
    (hc : c (provisionalPhase env 1 wb) = (wc, none)) :
    runSteps env [a, b, c] 0 w0 = (provisionalPhase env 2 wc, 3, none) := by
  simp only [runSteps, ha, hb, hc]

/-- What `ensureExternalCephCluster` adds to the aggregate when it finds the child with the
desired spec and returns no error. -/
theorem ensure_found_result (env : Env) (w wb : World) (found : CephCluster)
    (hfound : w.cephClusters (w.sc.nameSpace, env.generateNameForExternalCephCluster w.sc.name)
      = some found)
    (hspec : found.spec = (newExternalCephCluster env w.sc env.cephImage).spec)
    (hrun : ensureExternalCephCluster env w = (wb, none)) :
    wb.conditions =
      (if found.status.state = "" then
        MapCephClusterNoConditions env.ensureClock w.conditions
          "CephClusterStatus" "CephCluster resource is not reporting status"
       else MapExternalCephClusterNegativeConditions env.ensureClock w.conditions found.status) ∧
    wb.sc.status.conditions = w.sc.status.conditions := by
  unfold ensureExternalCephCluster SetControllerReference at hrun
  cases hc : env.ensureControllerRefErr with
  | some text => rw [hc] at hrun; simp at hrun
  | none =>
    rw [hc] at hrun
    simp only [clientGet, newExternalCephCluster] at hrun
    cases hg : env.ensureGetErr with
    | some text => rw [hg] at hrun; simp [Err.isNotFound] at hrun
    | none =>
      rw [hg] at hrun
      simp only [hfound] at hrun
      simp only [newExternalCephCluster] at hspec
      rw [if_neg (by simp [hspec])] at hrun
      unfold ensureExternalCephClusterFound GetReference at hrun
      cases hr : env.getReferenceErr with
      | some text => rw [hr] at hrun; simp at hrun
      | none =>
        rw [hr] at hrun
        simp only at hrun
        have hw := congrArg Prod.fst hrun
        simp only at hw
        subst hw
        split_ifs <;> exact ⟨rfl, rfl⟩

/-- The report of an external CephCluster in state Error into an empty aggregate. -/
theorem MapExternal_error_nil (clk : Clock) (status : ClusterStatus)
    (hs : status.state = ClusterStateError) :
    MapExternalCephClusterNegativeConditions clk [] status =
      [{ type := ConditionExternalClusterConnected, status := ConditionFalse,
         reason := "ExternalClusterStateError",
         message := "External CephCluster error: " ++ status.message,
         lastTransitionTime := clk 0, lastHeartbeatTime := clk 0 },
       { type := ConditionExternalClusterConnecting, status := ConditionFalse,
         reason := "ExternalClusterStateError",
         message := "External CephCluster error: " ++ status.message,
         lastTransitionTime := clk 1, lastHeartbeatTime := clk 1 }] := by
  unfold MapExternalCephClusterNegativeConditions
  rw [hs, if_neg (by decide), if_pos rfl]
  simp only [SetStatusCondition_nil, SetStatusCondition_cons]
  rw [if_neg (by decide)]

/-- The end of the pass on a non-empty aggregate: the conditions are merged on every path. -/
theorem finishPass_nonempty_conditions (env : Env) (w : World) (n : Nat)
    (hne : w.conditions ≠ []) :
    (finishPass env w n).world.sc.status.conditions =
      mergeAggregate env.mergeClock w.sc.status.conditions w.conditions ∧
    (finishPass env w n).world.conditions = w.conditions ∧
    (finishPass env w n).world.phase = w.phase := by
  unfold finishPass
  simp only [hne, if_false]
  by_cases hu : IsStatusConditionFalse
      (mergeAggregate env.mergeClock w.sc.status.conditions w.conditions)
      ConditionUpgradeable = true <;>
  by_cases hp : w.sc.status.phase = PhaseClusterExpanding <;>
  by_cases ht : IsStatusConditionTrue
    (mergeAggregate env.mergeClock w.sc.status.conditions w.conditions)
    ConditionProgressing = true <;>
  cases hr : env.readyUnsetErr <;>
  cases hf : env.finalStatusErr <;>
  simp [statusUpdate, hp, ht, hu, World.setPhase, World.setConditions]

/-- The merge of the aggregate leaves the lookup of a type alone that the aggregate does not
report and that is not ReconcileComplete. -/
theorem Find_mergeAggregate_other (clk : Clock) (agg : List Condition) (t : String)
    (hrc : t ≠ ConditionReconcileComplete) (hagg : ∀ c ∈ agg, t ≠ c.type) :
    ∀ l : List Condition,
      FindStatusCondition (mergeAggregate clk l agg) t = FindStatusCondition l t := by
  have hloop : ∀ (rest : List Condition), (∀ c ∈ rest, t ≠ c.type) →
      ∀ (i : Nat) (l : List Condition),
        FindStatusCondition (mergeConditions clk i l rest) t = FindStatusCondition l t := by
    intro rest
    induction rest with
    | nil => intro _ i l; rfl
    | cons c cs ih =>
      intro h i l
      simp only [mergeConditions]
      rw [ih (fun d hd => h d (List.mem_cons_of_mem _ hd)),
        Find_SetStatusCondition_other _ _ _ _ (h c (List.mem_cons_self _ _))]
  intro l
  unfold mergeAggregate
  rw [Find_SetStatusCondition_other _ _ _ _ hrc, hloop agg hagg]

/-- C17, what the code does: in a pass that reaches the step loop, whose first and third step
succeed and add nothing to the aggregate, and whose second step `ensureExternalCephCluster` finds
the child with the desired spec in state Error with message `m` and returns no error, the
aggregate is exactly the two records ExternalClusterConnected=False and
ExternalClusterConnecting=False (reason ExternalClusterStateError, message ending with `m`): it
holds neither an Available nor a Degraded record. The pass merges these two records and
ReconcileComplete=True into the status conditions of the resource and leaves the lookups of
Available and Degraded there as the last step left them, so it writes no Degraded=True. The final
phase is Error when the expansion flag is not set and the merged status conditions hold neither
Progressing=True nor Upgradeable=False. -/
theorem child_error_aggregation (env : Env) (w w0 wa wb wc : World) (found : CephCluster)
    (m : String)
    (hpre : beforeSteps env w = .ok w0)
    (h1 : env.ensureCephConfig w0 = (wa, none)) (hagg1 : wa.conditions = w0.conditions)
    (hchild : wa.cephClusters
      (wa.sc.nameSpace, env.generateNameForExternalCephCluster wa.sc.name) = some found)
    (hspec : found.spec = (newExternalCephCluster env wa.sc env.cephImage).spec)
    (hstate : found.status.state = ClusterStateError) (hm : found.status.message = m)
    (h2 : ensureExternalCephCluster env (provisionalPhase env 0 wa) = (wb, none))
    (h3 : env.ensureNoobaaSystem (provisionalPhase env 1 wb) = (wc, none))
    (hagg3 : wc.conditions = wb.conditions) :
    deletionTimestampIsZero w.sc = true ∧
    (ReconcileExternalStorageCluster env w).stepsRun = 3 ∧
    (ReconcileExternalStorageCluster env w).world.conditions =
      [{ type := ConditionExternalClusterConnected, status := ConditionFalse,
         reason := "ExternalClusterStateError",
         message := "External CephCluster error: " ++ m,
         lastTransitionTime := env.ensureClock 0, lastHeartbeatTime := env.ensureClock 0 },
       { type := ConditionExternalClusterConnecting, status := ConditionFalse,
         reason := "ExternalClusterStateError",
         message := "External CephCluster error: " ++ m,
         lastTransitionTime := env.ensureClock 1, lastHeartbeatTime := env.ensureClock 1 }] ∧
    FindStatusCondition (ReconcileExternalStorageCluster env w).world.conditions
      ConditionAvailable = none ∧
    FindStatusCondition (ReconcileExternalStorageCluster env w).world.conditions
      ConditionDegraded = none ∧
    holdsRecord (ReconcileExternalStorageCluster env w).world.conditions
      ConditionExternalClusterConnected ConditionFalse "ExternalClusterStateError"
      ("External CephCluster error: " ++ m) ∧
    holdsRecord (ReconcileExternalStorageCluster env w).world.conditions
      ConditionExternalClusterConnecting ConditionFalse "ExternalClusterStateError"
      ("External CephCluster error: " ++ m) ∧
    EndsWith ("External CephCluster error: " ++ m) m ∧
    holdsRecord (ReconcileExternalStorageCluster env w).world.sc.status.conditions
      ConditionReconcileComplete ConditionTrue ReconcileCompleted ReconcileCompletedMessage ∧
    holdsStatus (ReconcileExternalStorageCluster env w).world.sc.status.conditions
      ConditionExternalClusterConnected ConditionFalse ∧
    holdsStatus (ReconcileExternalStorageCluster env w).world.sc.status.conditions
      ConditionExternalClusterConnecting ConditionFalse ∧
    FindStatusCondition (ReconcileExternalStorageCluster env w).world.sc.status.conditions
      ConditionAvailable = FindStatusCondition wc.sc.status.conditions ConditionAvailable ∧
    FindStatusCondition (ReconcileExternalStorageCluster env w).world.sc.status.conditions
      ConditionDegraded = FindStatusCondition wc.sc.status.conditions ConditionDegraded ∧
    ((ReconcileExternalStorageCluster env w).world.phase ≠ PhaseClusterExpanding →
      IsStatusConditionTrue (ReconcileExternalStorageCluster env w).world.sc.status.conditions
        ConditionProgressing = false →
      IsStatusConditionFalse (ReconcileExternalStorageCluster env w).world.sc.status.conditions
        ConditionUpgradeable = false →
      (ReconcileExternalStorageCluster env w).world.sc.status.phase = PhaseError ∧
      (ReconcileExternalStorageCluster env w).err = env.finalStatusErr.map Err.failure) := by
  -- the loop
  have hsteps : runSteps env (stepList env) 0 w0 = (provisionalPhase env 2 wc, 3, none) :=
    runSteps_three env _ _ _ w0 wa wb wc h1 h2 h3
  have hrec : ReconcileExternalStorageCluster env w =
      finishPass env (provisionalPhase env 2 wc) 3 := by
    unfold ReconcileExternalStorageCluster
    rw [hpre]
    simp only [hsteps]
  -- the aggregate
  have hfr := provisionalPhase_frame env 0 wa
  have hfl := provisionalPhase_flag env 0 wa
  have hres := ensure_found_result env (provisionalPhase env 0 wa) wb found
    (by rw [hfr.1, hfr.2.1, hfr.2.2]; exact hchild) (by simpa [newExternalCephCluster] using hspec)
    h2
  have hne : ¬ found.status.state = "" := by rw [hstate]; decide
  have hagg : (provisionalPhase env 2 wc).conditions =
      [{ type := ConditionExternalClusterConnected, status := ConditionFalse,
         reason := "ExternalClusterStateError",
         message := "External CephCluster error: " ++ m,
         lastTransitionTime := env.ensureClock 0, lastHeartbeatTime := env.ensureClock 0 },
       { type := ConditionExternalClusterConnecting, status := ConditionFalse,
         reason := "ExternalClusterStateError",
         message := "External CephCluster error: " ++ m,
         lastTransitionTime := env.ensureClock 1, lastHeartbeatTime := env.ensureClock 1 }] := by
    rw [(provisionalPhase_flag env 2 wc).2.1, hagg3, hres.1, if_neg hne, hfl.2.1, hagg1,
      (beforeSteps_ok_reset env w w0 hpre).1, MapExternal_error_nil _ _ hstate, hm]
  have hnonempty : (provisionalPhase env 2 wc).conditions ≠ [] := by rw [hagg]; simp
  have hunique : UniqueTypes (provisionalPhase env 2 wc).conditions := by
    rw [hagg]
    unfold UniqueTypes
    simp only [List.map_cons, List.map_nil]
    decide
  have hcond := finishPass_nonempty_conditions env (provisionalPhase env 2 wc) 3 hnonempty
  have hmerged : ∀ c ∈ (provisionalPhase env 2 wc).conditions,
      c.type ≠ ConditionReconcileComplete →
      holdsRecord (mergeAggregate env.mergeClock (provisionalPhase env 2 wc).sc.status.conditions
        (provisionalPhase env 2 wc).conditions) c.type c.status c.reason c.message := by
    intro c hc hrc
    exact holdsRecord_upsert_other _ _ _ _ _ _ _ hrc (mergeConditions_holds _ _ hunique _ _ c hc)
  have hda : ¬ ConditionExternalClusterConnected = ConditionAvailable := by decide
  have hdb : ¬ ConditionExternalClusterConnecting = ConditionAvailable := by decide
  have hdc : ¬ ConditionExternalClusterConnected = ConditionDegraded := by decide
  have hdd : ¬ ConditionExternalClusterConnecting = ConditionDegraded := by decide
  have hother : ∀ t : String, t ≠ ConditionReconcileComplete →
      t ≠ ConditionExternalClusterConnected → t ≠ ConditionExternalClusterConnecting →
      FindStatusCondition (mergeAggregate env.mergeClock
        (provisionalPhase env 2 wc).sc.status.conditions
        (provisionalPhase env 2 wc).conditions) t = FindStatusCondition wc.sc.status.conditions t := by
    intro t hrc ha hb
    rw [Find_mergeAggregate_other _ _ _ hrc, (provisionalPhase_flag env 2 wc).2.2.1]
    intro c hc
    rw [hagg] at hc
    simp only [List.mem_cons, List.mem_singleton, List.not_mem_nil, or_false] at hc
    rcases hc with rfl | rfl
    · exact ha
    · exact hb
  rw [hrec, hcond.1, hcond.2.1, hcond.2.2]
  refine ⟨beforeSteps_ok_live env w w0 hpre, ?_, hagg, ?_, ?_, ?_, ?_, ⟨_, rfl⟩,
    holdsRecord_upsert _ _ _, ?_, ?_, ?_, ?_, ?_⟩
  · unfold finishPass
    simp only [hnonempty, if_false]
    split
    · cases env.readyUnsetErr <;> cases env.finalStatusErr <;> simp [statusUpdate]
    · cases env.finalStatusErr <;> simp [statusUpdate]
  · rw [hagg]
    simp [FindStatusCondition, hda, hdb]
  · rw [hagg]
    simp [FindStatusCondition, hdc, hdd]
  · rw [hagg]
    refine ⟨{ type := ConditionExternalClusterConnected, status := ConditionFalse,
              reason := "ExternalClusterStateError",
              message := "External CephCluster error: " ++ m,
              lastTransitionTime := env.ensureClock 0,
              lastHeartbeatTime := env.ensureClock 0 }, ?_, rfl, rfl, rfl⟩
    simp [FindStatusCondition]
  · rw [hagg]
    refine ⟨{ type := ConditionExternalClusterConnecting, status := ConditionFalse,
              reason := "ExternalClusterStateError",
              message := "External CephCluster error: " ++ m,
              lastTransitionTime := env.ensureClock 1,
              lastHeartbeatTime := env.ensureClock 1 }, ?_, rfl, rfl, rfl⟩
    have hd : ¬ ConditionExternalClusterConnected = ConditionExternalClusterConnecting := by
      decide
    simp [FindStatusCondition, hd]
  · have h := hmerged _ (by rw [hagg]; exact List.mem_cons_self _ _) (by dsimp only; decide)
    obtain ⟨r, hr, hs, _⟩ := h
    exact ⟨r, hr, hs⟩
  · have h := hmerged _ (by rw [hagg]; exact List.mem_cons_of_mem _ (List.mem_cons_self _ _))
      (by dsimp only; decide)
    obtain ⟨r, hr, hs, _⟩ := h
    exact ⟨r, hr, hs⟩
  · exact hother _ (by decide) (by decide) (by decide)
  · exact hother _ (by decide) (by decide) (by decide)
  · intro hpin hprog hupg
    have hfin := finishPass_nonempty env (provisionalPhase env 2 wc) 3 hnonempty
      (fun h => by rw [hupg] at h; cases h)
    have hflag := runSteps_flag env (stepList env) 0 w0 _ 3 (by simp [stepList]) hsteps
    have hphase : ¬ (provisionalPhase env 2 wc).sc.status.phase = PhaseClusterExpanding :=
      fun h => hpin (hflag.1 h)
    rw [hfin.2.1, if_neg hphase, hprog, hupg]
    exact ⟨by simp, hfin.2.2.2⟩


/-- C17, at `errorChildWorld` (child in state Error, message "disk full") with every call
succeeding: all three steps run and the pass returns no error; the aggregate is the two
connection records and holds neither Available nor Degraded; at the end of the pass the status
holds ReconcileComplete=True and the phase is Error, but Degraded is not held as True. -/
theorem child_error_aggregation_witness :
    (ReconcileExternalStorageCluster {} errorChildWorld).err = none ∧
    (ReconcileExternalStorageCluster {} errorChildWorld).world.conditions =
      [{ type := "ExternalClusterConnected", status := "False",
         reason := "ExternalClusterStateError",
         message := "External CephCluster error: disk full" },
       { type := "ExternalClusterConnecting", status := "False",
         reason := "ExternalClusterStateError",
         message := "External CephCluster error: disk full" }] ∧
    FindStatusCondition (ReconcileExternalStorageCluster {} errorChildWorld).world.conditions
      ConditionAvailable = none ∧
    FindStatusCondition (ReconcileExternalStorageCluster {} errorChildWorld).world.conditions
      ConditionDegraded = none ∧
    IsStatusConditionTrue
      (ReconcileExternalStorageCluster {} errorChildWorld).world.sc.status.conditions
      ConditionDegraded = false ∧
    holdsRecord (ReconcileExternalStorageCluster {} errorChildWorld).world.sc.status.conditions
      ConditionReconcileComplete ConditionTrue ReconcileCompleted ReconcileCompletedMessage ∧
    (ReconcileExternalStorageCluster {} errorChildWorld).world.sc.status.phase = PhaseError :=
  have h := child_error_aggregation {} errorChildWorld _ _ _ _
    { name := "ocs", nameSpace := "openshift-storage", resourceVersion := 4,
      spec := { externalEnable := true, dataDirHostPath := "/var/lib/rook" },
      status := { state := "Error", message := "disk full" } }
    "disk full" rfl rfl rfl rfl rfl rfl rfl rfl rfl rfl
  ⟨by decide, h.2.2.1, h.2.2.2.1, h.2.2.2.2.1, by decide, h.2.2.2.2.2.2.2.2.1,
    (h.2.2.2.2.2.2.2.2.2.2.2.2.2 (by decide) (by decide) (by decide)).1⟩


/-! ## Claims on the connection conditions, the step loop and the reporters -/

/-- What a list holds as False it does not hold as True. -/
theorem not_true_of_holds_false (l : List Condition) (t : String)
    (h : holdsStatus l t ConditionFalse) : IsStatusConditionTrue l t = false := by
  obtain ⟨r, hr, hs⟩ := h
  unfold IsStatusConditionTrue
  rw [hr]
  simp only [hs]
  decide

/-- An upsert of another type keeps the truth of `t`. -/
theorem IsStatusConditionTrue_upsert_other (now : Time) (l : List Condition) (n : Condition)
    (t : String) (ht : t ≠ n.type) :
    IsStatusConditionTrue (SetStatusCondition now l n) t = IsStatusConditionTrue l t := by
  unfold IsStatusConditionTrue
  rw [Find_SetStatusCondition_other now l n t ht]

/-- C21: if the aggregate does not hold both ExternalClusterConnecting and
ExternalClusterConnected as True, neither does the aggregate left by
`MapExternalCephClusterNegativeConditions`, for every CephCluster status; state Connecting leaves
ExternalClusterConnecting=True and ExternalClusterConnected=False, state Error leaves both False
(whatever the aggregate held before), and every other state leaves both lookups as they were. -/
theorem connection_tracking_exclusive (clk : Clock) (conds : List Condition)
    (found : ClusterStatus)
    (h : ¬ (IsStatusConditionTrue conds ConditionExternalClusterConnecting = true ∧
            IsStatusConditionTrue conds ConditionExternalClusterConnected = true)) :
    ¬ (IsStatusConditionTrue (MapExternalCephClusterNegativeConditions clk conds found)
          ConditionExternalClusterConnecting = true ∧
        IsStatusConditionTrue (MapExternalCephClusterNegativeConditions clk conds found)
          ConditionExternalClusterConnected = true) ∧
    (found.state = ClusterStateConnecting →
      holdsStatus (MapExternalCephClusterNegativeConditions clk conds found)
        ConditionExternalClusterConnecting ConditionTrue ∧
      holdsStatus (MapExternalCephClusterNegativeConditions clk conds found)
        ConditionExternalClusterConnected ConditionFalse) ∧
    (found.state = ClusterStateError →
      holdsStatus (MapExternalCephClusterNegativeConditions clk conds found)
        ConditionExternalClusterConnecting ConditionFalse ∧
      holdsStatus (MapExternalCephClusterNegativeConditions clk conds found)
        ConditionExternalClusterConnected ConditionFalse) ∧
    (found.state ≠ ClusterStateConnecting → found.state ≠ ClusterStateError →
      FindStatusCondition (MapExternalCephClusterNegativeConditions clk conds found)
        ConditionExternalClusterConnecting =
        FindStatusCondition conds ConditionExternalClusterConnecting ∧
      FindStatusCondition (MapExternalCephClusterNegativeConditions clk conds found)
        ConditionExternalClusterConnected =
        FindStatusCondition conds ConditionExternalClusterConnected) := by
  have hne : ConditionExternalClusterConnecting ≠ ConditionExternalClusterConnected := by decide
  have hconnecting : found.state = ClusterStateConnecting →
      holdsStatus (MapExternalCephClusterNegativeConditions clk conds found)
        ConditionExternalClusterConnecting ConditionTrue ∧
      holdsStatus (MapExternalCephClusterNegativeConditions clk conds found)
        ConditionExternalClusterConnected ConditionFalse := by
    intro hs
    unfold MapExternalCephClusterNegativeConditions
    rw [if_pos hs]
    exact ⟨holdsStatus_upsert_other _ _ _ _ _ hne (holdsStatus_upsert _ _ _),
      holdsStatus_upsert _ _ _⟩
  have herror : found.state = ClusterStateError →
      holdsStatus (MapExternalCephClusterNegativeConditions clk conds found)
        ConditionExternalClusterConnecting ConditionFalse ∧
      holdsStatus (MapExternalCephClusterNegativeConditions clk conds found)
        ConditionExternalClusterConnected ConditionFalse := by
    intro hs
    have h1 : ¬ found.state = ClusterStateConnecting := by rw [hs]; decide
    unfold MapExternalCephClusterNegativeConditions
    rw [if_neg h1, if_pos hs]
    exact ⟨holdsStatus_upsert _ _ _,
      holdsStatus_upsert_other _ _ _ _ _ hne.symm (holdsStatus_upsert _ _ _)⟩
  have hother : found.state ≠ ClusterStateConnecting → found.state ≠ ClusterStateError →
      FindStatusCondition (MapExternalCephClusterNegativeConditions clk conds found)
        ConditionExternalClusterConnecting =
        FindStatusCondition conds ConditionExternalClusterConnecting ∧
      FindStatusCondition (MapExternalCephClusterNegativeConditions clk conds found)
        ConditionExternalClusterConnected =
        FindStatusCondition conds ConditionExternalClusterConnected := by
    intro h1 h2
    unfold MapExternalCephClusterNegativeConditions
    rw [if_neg h1, if_neg h2]
    exact ⟨Find_SetStatusCondition_other _ _ _ _ (by dsimp only; decide),
      Find_SetStatusCondition_other _ _ _ _ (by dsimp only; decide)⟩
  refine ⟨?_, hconnecting, herror, hother⟩
  by_cases h1 : found.state = ClusterStateConnecting
  · intro hboth
    rw [not_true_of_holds_false _ _ (hconnecting h1).2] at hboth
    exact Bool.false_ne_true hboth.2
  · by_cases h2 : found.state = ClusterStateError
    · intro hboth
      rw [not_true_of_holds_false _ _ (herror h2).1] at hboth
      exact Bool.false_ne_true hboth.1
    · intro hboth
      apply h
      unfold IsStatusConditionTrue at hboth ⊢
      rw [(hother h1 h2).1, (hother h1 h2).2] at hboth
      exact hboth

/-- C21, at an aggregate that holds ExternalClusterConnected=True from an earlier report and a
CephCluster in state Connecting: the connected record becomes False and the connecting record
True. -/
theorem connection_tracking_exclusive_witness :
    holdsStatus (MapExternalCephClusterNegativeConditions (fun _ => 5)
        [{ type := "ExternalClusterConnected", status := "True", reason := "r", message := "m" }]
        { state := "Connecting" })
      ConditionExternalClusterConnecting ConditionTrue ∧
    holdsStatus (MapExternalCephClusterNegativeConditions (fun _ => 5)
        [{ type := "ExternalClusterConnected", status := "True", reason := "r", message := "m" }]
        { state := "Connecting" })
      ConditionExternalClusterConnected ConditionFalse :=
  (connection_tracking_exclusive (fun _ => 5)
    [{ type := "ExternalClusterConnected", status := "True", reason := "r", message := "m" }]
    { state := "Connecting" } (by decide)).2.1 rfl

/-- C25: in the step loop the provisional phase update runs after every step, whether or not the
step returned an error, and before the error exit. In it, if the expansion flag is set the phase
of the resource becomes ExpandingCapacity; otherwise a phase that is one of Ready, Connecting,
Connected is left unchanged (nothing is written at all), and any other phase is replaced by
Progressing; a phase that is set is sent with a status update. -/
theorem provisional_phase_after_step (env : Env) (f : Step) (fs : List Step) (i : Nat)
    (w : World) :
    runSteps env (f :: fs) i w =
      (match (f w).2 with
       | some e => (stepFailed env (provisionalPhase env i (f w).1) e, i + 1, some e)
       | none => runSteps env fs (i + 1) (provisionalPhase env i (f w).1)) ∧
    (∀ u : World, u.phase = PhaseClusterExpanding →
      (provisionalPhase env i u).sc.status.phase = PhaseClusterExpanding ∧
      (provisionalPhase env i u).calls =
        u.calls ++ [Call.statusUpdate (u.setPhase PhaseClusterExpanding).sc]) ∧
    (∀ u : World, u.phase ≠ PhaseClusterExpanding →
      (u.sc.status.phase = PhaseReady ∨ u.sc.status.phase = PhaseConnecting ∨
        u.sc.status.phase = PhaseConnected) →
      provisionalPhase env i u = u) ∧
    (∀ u : World, u.phase ≠ PhaseClusterExpanding →
      u.sc.status.phase ≠ PhaseReady → u.sc.status.phase ≠ PhaseConnecting →
      u.sc.status.phase ≠ PhaseConnected →
      (provisionalPhase env i u).sc.status.phase = PhaseProgressing ∧
      (provisionalPhase env i u).calls =
        u.calls ++ [Call.statusUpdate (u.setPhase PhaseProgressing).sc]) := by
  refine ⟨?_, ?_, ?_, ?_⟩
  · simp only [runSteps]
  · intro u hu
    unfold provisionalPhase
    rw [if_pos hu]
    simp
  · intro u hu hp
    unfold provisionalPhase
    rw [if_neg hu, if_neg]
    rintro ⟨h1, h2, h3⟩
    rcases hp with h | h | h
    · exact h1 h
    · exact h2 h
    · exact h3 h
  · intro u hu h1 h2 h3
    unfold provisionalPhase
    rw [if_neg hu, if_pos ⟨h1, h2, h3⟩]
    simp

/-- C25, at a step that fails on `liveWorld` after `ensureExternalCephCluster` has set the phase
Connected: the phase stays Connected in the provisional update (and becomes Error only in the
error exit); at `errorChildWorld` put in phase Error, it becomes Progressing. -/
theorem provisional_phase_after_step_witness :
    provisionalPhase {} 1 (liveWorld.setPhase PhaseConnected)
      = liveWorld.setPhase PhaseConnected ∧
    (provisionalPhase {} 1 (errorChildWorld.setPhase PhaseError)).sc.status.phase
      = PhaseProgressing :=
  have h := provisional_phase_after_step {} (fun w => (w, some (Err.failure "x"))) [] 1 liveWorld
  ⟨h.2.2.1 (liveWorld.setPhase PhaseConnected) (by decide) (Or.inr (Or.inr rfl)),
    (h.2.2.2 (errorChildWorld.setPhase PhaseError) (by decide) (by decide) (by decide)
      (by decide)).1⟩

/-- `MapNoobaaNegativeConditions` keeps every record the aggregate holds as True: it only ever
reports a status True, through `setStatusConditionIfNotPresent`. -/
theorem MapNoobaa_keeps_true (clk : Clock) (conds : List Condition) (found : Option NooBaa)
    (t r m : String) (h : holdsRecord conds t ConditionTrue r m) :
    holdsRecord (MapNoobaaNegativeConditions clk conds found) t ConditionTrue r m := by
  have hkeep : ∀ (now : Time) (c : Condition), c.status = ConditionTrue →
      holdsRecord (setStatusConditionIfNotPresent now conds c) t ConditionTrue r m := by
    intro now c hc
    by_cases ht : t = c.type
    · obtain ⟨x, hx, hs, hrm⟩ := h
      have hsame : setStatusConditionIfNotPresent now conds c = conds :=
        setStatusConditionIfNotPresent_same now conds c ⟨x, by rw [← ht]; exact hx, by rw [hs, hc]⟩
      rw [hsame]
      exact ⟨x, hx, hs, hrm⟩
    · unfold setStatusConditionIfNotPresent
      split
      · split
        · exact h
        · exact holdsRecord_upsert_other _ _ _ _ _ _ _ ht h
      · exact holdsRecord_upsert_other _ _ _ _ _ _ _ ht h
  unfold MapNoobaaNegativeConditions
  cases found with
  | none => exact hkeep _ _ rfl
  | some nb =>
    simp only
    split_ifs
    · exact hkeep _ _ rfl
    · exact hkeep _ _ rfl
    · exact h
    · exact hkeep _ _ rfl

/-- C26 (amended): `MapNoobaaNegativeConditions` does not override: a record the aggregate holds
as True keeps its reason and message, for every NooBaa (nil included). The three reporters that
use the plain upsert do override: after `MapCephClusterNegativeConditions` (states Creating,
Updating, Error), `MapCephClusterNoConditions` and `MapExternalCephClusterNegativeConditions`
(states Connecting, Error and every other state) the aggregate holds each type they report with
the status, reason and message of that report, whatever it held before. In particular, the
CephCluster report of state Error followed by the NooBaa report of phase Rejected on an empty
aggregate leaves Degraded with the reason and message of the CephCluster report. The merge then
writes the status, reason and message recorded in the aggregate to the status conditions of the
resource. -/
theorem noobaa_report_keeps_earlier (clk : Clock) (conds : List Condition)
    (found : Option NooBaa) (t r m : String)
    (h : holdsRecord conds t ConditionTrue r m) :
    holdsRecord (MapNoobaaNegativeConditions clk conds found) t ConditionTrue r m ∧
    (∀ (clk2 : Clock) (l : List Condition) (st : ClusterStatus),
      (st.state = ClusterStateCreating →
        holdsRecord (MapCephClusterNegativeConditions clk2 l st) ConditionProgressing
          ConditionTrue "ClusterStateCreating" ("CephCluster is creating: " ++ st.message) ∧
        holdsRecord (MapCephClusterNegativeConditions clk2 l st) ConditionUpgradeable
          ConditionFalse "ClusterStateCreating" ("CephCluster is creating: " ++ st.message)) ∧
      (st.state = ClusterStateUpdating →
        holdsRecord (MapCephClusterNegativeConditions clk2 l st) ConditionProgressing
          ConditionTrue "ClusterStateUpdating" ("CephCluster is updating: " ++ st.message) ∧
        holdsRecord (MapCephClusterNegativeConditions clk2 l st) ConditionUpgradeable
          ConditionFalse "ClusterStateUpdating" ("CephCluster is updating: " ++ st.message)) ∧
      (st.state = ClusterStateError →
        holdsRecord (MapCephClusterNegativeConditions clk2 l st) ConditionAvailable
          ConditionFalse "ClusterStateError" ("CephCluster error: " ++ st.message) ∧
        holdsRecord (MapCephClusterNegativeConditions clk2 l st) ConditionDegraded
          ConditionTrue "ClusterStateError" ("CephCluster error: " ++ st.message))) ∧
    (∀ (clk2 : Clock) (l : List Condition) (reason message : String),
      holdsRecord (MapCephClusterNoConditions clk2 l reason message) ConditionAvailable
        ConditionFalse reason message ∧
      holdsRecord (MapCephClusterNoConditions clk2 l reason message) ConditionProgressing
        ConditionTrue reason message ∧
      holdsRecord (MapCephClusterNoConditions clk2 l reason message) ConditionUpgradeable
        ConditionFalse reason message) ∧
    (∀ (clk2 : Clock) (l : List Condition) (st : ClusterStatus),
      (st.state = ClusterStateConnecting →
        holdsRecord (MapExternalCephClusterNegativeConditions clk2 l st)
          ConditionExternalClusterConnecting ConditionTrue "ExternalClusterStateConnecting"
          ("ExternalCephCluster is trying to connect: " ++ st.message) ∧
        holdsRecord (MapExternalCephClusterNegativeConditions clk2 l st)
          ConditionExternalClusterConnected ConditionFalse "ExternalClusterStateConnecting"
          ("ExternalCephCluster is trying to connect: " ++ st.message)) ∧
      (st.state = ClusterStateError →
        holdsRecord (MapExternalCephClusterNegativeConditions clk2 l st)
          ConditionExternalClusterConnected ConditionFalse "ExternalClusterStateError"
          ("External CephCluster error: " ++ st.message) ∧
        holdsRecord (MapExternalCephClusterNegativeConditions clk2 l st)
          ConditionExternalClusterConnecting ConditionFalse "ExternalClusterStateError"
          ("External CephCluster error: " ++ st.message)) ∧
      (st.state ≠ ClusterStateConnecting → st.state ≠ ClusterStateError →
        holdsRecord (MapExternalCephClusterNegativeConditions clk2 l st)
          ConditionDegraded ConditionTrue "ExternalClusterStateUnknownCondition"
          ("External CephCluster Unknown Condition: " ++ st.message))) ∧
    (∀ (clk1 : Clock) (msg : String),
      holdsRecord
        (MapNoobaaNegativeConditions clk
          (MapCephClusterNegativeConditions clk1 [] { state := ClusterStateError, message := msg })
          (some { phase := SystemPhaseRejected }))
        ConditionDegraded ConditionTrue "ClusterStateError" ("CephCluster error: " ++ msg)) ∧
    (∀ (clk3 : Clock) (status agg : List Condition), UniqueTypes agg → ∀ c ∈ agg,
      c.type ≠ ConditionReconcileComplete →
      holdsRecord (mergeAggregate clk3 status agg) c.type c.status c.reason c.message) := by
  have hpu : ConditionProgressing ≠ ConditionUpgradeable := by decide
  have had : ConditionAvailable ≠ ConditionDegraded := by decide
  have hap : ConditionAvailable ≠ ConditionProgressing := by decide
  have hau : ConditionAvailable ≠ ConditionUpgradeable := by decide
  have hcc : ConditionExternalClusterConnecting ≠ ConditionExternalClusterConnected := by decide
  have hceph : ∀ (clk2 : Clock) (l : List Condition) (st : ClusterStatus),
      st.state = ClusterStateError →
      holdsRecord (MapCephClusterNegativeConditions clk2 l st) ConditionAvailable
        ConditionFalse "ClusterStateError" ("CephCluster error: " ++ st.message) ∧
      holdsRecord (MapCephClusterNegativeConditions clk2 l st) ConditionDegraded
        ConditionTrue "ClusterStateError" ("CephCluster error: " ++ st.message) := by
    intro clk2 l st hs
    unfold MapCephClusterNegativeConditions
    rw [hs, if_neg (by decide), if_neg (by decide), if_pos rfl]
    exact ⟨holdsRecord_upsert_other _ _ _ _ _ _ _ had (holdsRecord_upsert _ _ _),
      holdsRecord_upsert _ _ _⟩
  refine ⟨MapNoobaa_keeps_true clk conds found t r m h, ?_, ?_, ?_, ?_, ?_⟩
  · intro clk2 l st
    refine ⟨?_, ?_, hceph clk2 l st⟩
    · intro hs
      unfold MapCephClusterNegativeConditions
      rw [if_pos hs]
      exact ⟨holdsRecord_upsert_other _ _ _ _ _ _ _ hpu (holdsRecord_upsert _ _ _),
        holdsRecord_upsert _ _ _⟩
    · intro hs
      unfold MapCephClusterNegativeConditions
      rw [hs, if_neg (by decide), if_pos rfl]
      exact ⟨holdsRecord_upsert_other _ _ _ _ _ _ _ hpu (holdsRecord_upsert _ _ _),
        holdsRecord_upsert _ _ _⟩
  · intro clk2 l reason message
    unfold MapCephClusterNoConditions
    exact ⟨holdsRecord_upsert_other _ _ _ _ _ _ _ hau
        (holdsRecord_upsert_other _ _ _ _ _ _ _ hap (holdsRecord_upsert _ _ _)),
      holdsRecord_upsert_other _ _ _ _ _ _ _ hpu (holdsRecord_upsert _ _ _),
      holdsRecord_upsert _ _ _⟩
  · intro clk2 l st
    refine ⟨?_, ?_, ?_⟩
    · intro hs
      unfold MapExternalCephClusterNegativeConditions
      rw [if_pos hs]
      exact ⟨holdsRecord_upsert_other _ _ _ _ _ _ _ hcc (holdsRecord_upsert _ _ _),
        holdsRecord_upsert _ _ _⟩
    · intro hs
      unfold MapExternalCephClusterNegativeConditions
      rw [hs, if_neg (by decide), if_pos rfl]
      exact ⟨holdsRecord_upsert_other _ _ _ _ _ _ _ hcc.symm (holdsRecord_upsert _ _ _),
        holdsRecord_upsert _ _ _⟩
    · intro h1 h2
      unfold MapExternalCephClusterNegativeConditions
      rw [if_neg h1, if_neg h2]
      exact holdsRecord_upsert _ _ _
  · intro clk1 msg
    exact MapNoobaa_keeps_true _ _ _ _ _ _ (hceph clk1 [] _ rfl).2
  · intro clk3 status agg hu c hc hrc
    exact holdsRecord_upsert_other _ _ _ _ _ _ _ hrc (mergeConditions_holds _ _ hu _ _ c hc)

/-- C26 (amended), at an aggregate that holds Degraded=True from the external CephCluster report
and a NooBaa that is not found. -/
theorem noobaa_report_keeps_earlier_witness :
    holdsRecord
      (MapNoobaaNegativeConditions (fun _ => 8)
        [{ type := "Degraded", status := "True", reason := "ExternalClusterStateUnknownCondition",
           message := "External CephCluster Unknown Condition: ", lastTransitionTime := 3,
           lastHeartbeatTime := 3 }] none)
      ConditionDegraded ConditionTrue "ExternalClusterStateUnknownCondition"
      "External CephCluster Unknown Condition: " :=
  (noobaa_report_keeps_earlier (fun _ => 8)
    [{ type := "Degraded", status := "True", reason := "ExternalClusterStateUnknownCondition",
       message := "External CephCluster Unknown Condition: ", lastTransitionTime := 3,
       lastHeartbeatTime := 3 }] none "Degraded" "ExternalClusterStateUnknownCondition"
    "External CephCluster Unknown Condition: " ⟨_, rfl, rfl, rfl, rfl⟩).1

/-- C26 as stated fails: the report of a CephCluster in state Error and then of a NooBaa in
phase Rejected on an empty aggregate leaves the Degraded condition with the reason and message of
the CephCluster report, the first reporter, not with those of the NooBaa report. -/
theorem last_reporter_does_not_win :
    FindStatusCondition
      (MapNoobaaNegativeConditions (fun _ => 2)
        (MapCephClusterNegativeConditions (fun _ => 1) []
          { state := ClusterStateError, message := "disk full" })
        (some { phase := SystemPhaseRejected }))
      ConditionDegraded =
      some { type := "Degraded", status := "True", reason := "ClusterStateError",
             message := "CephCluster error: disk full", lastTransitionTime := 1,
             lastHeartbeatTime := 1 } ∧
    ¬ holdsRecord
      (MapNoobaaNegativeConditions (fun _ => 2)
        (MapCephClusterNegativeConditions (fun _ => 1) []
          { state := ClusterStateError, message := "disk full" })
        (some { phase := SystemPhaseRejected }))
      ConditionDegraded ConditionTrue "NoobaaSpecRejected"
      "Noobaa object's configuration is rejected by the noobaa operator" := by
  have hfind : FindStatusCondition
      (MapNoobaaNegativeConditions (fun _ => 2)
        (MapCephClusterNegativeConditions (fun _ => 1) []
          { state := ClusterStateError, message := "disk full" })
        (some { phase := SystemPhaseRejected }))
      ConditionDegraded =
      some { type := "Degraded", status := "True", reason := "ClusterStateError",
             message := "CephCluster error: disk full", lastTransitionTime := 1,
             lastHeartbeatTime := 1 } := by decide
  refine ⟨hfind, ?_⟩
  rintro ⟨x, hx, _, hreason, _⟩
  rw [hfind] at hx
  cases hx
  revert hreason
  decide

/-- `ensureExternalCephCluster` never writes the status conditions of the owner, on any path. -/
theorem ensure_keeps_status_conditions (env : Env) (w : World) :
    (ensureExternalCephCluster env w).1.sc.status.conditions = w.sc.status.conditions := by
  unfold ensureExternalCephCluster SetControllerReference
  cases env.ensureControllerRefErr with
  | some text => rfl
  | none =>
    simp only [clientGet, newExternalCephCluster]
    cases env.ensureGetErr with
    | some text => simp [Err.isNotFound]
    | none =>
      cases w.cephClusters (w.sc.nameSpace, env.generateNameForExternalCephCluster w.sc.name) with
      | none =>
        simp only [Err.isNotFound, if_true]
        unfold clientCreate
        cases env.ensureCreateErr with
        | some text => rfl
        | none =>
          simp only
          split <;> rfl
      | some found =>
        simp only
        split
        · cases hs : env.ensureStatusErr with
          | some text => simp [statusUpdate]
          | none =>
            simp only [statusUpdate]
            unfold clientUpdate
            cases env.ensureUpdateErr with
            | some text => rfl
            | none =>
              simp only
              split
              · rfl
              · split <;> rfl
        · unfold ensureExternalCephClusterFound GetReference
          cases env.getReferenceErr with
          | some text => rfl
          | none =>
            simp only
            split_ifs <;> rfl

/-- A step loop whose steps leave the status conditions of the owner alone and that ends with an
error: the status conditions are those at the start of the loop with ReconcileComplete=False
upserted, and the world is the one left by the error exit. -/
theorem runSteps_error_conditions (env : Env) (steps : List Step)
    (hframe : ∀ f ∈ steps, ∀ u : World,
      (f u).1.sc.status.conditions = u.sc.status.conditions) :
    ∀ (i : Nat) (w w1 : World) (n : Nat) (e : Err),
      runSteps env steps i w = (w1, n, some e) →
      w1.sc.status.conditions =
        SetErrorCondition env.errorClock w.sc.status.conditions ReconcileFailed
          ("Error while reconciling: " ++ e.text) ∧
      ∃ u, w1 = stepFailed env u e := by
  induction steps with
  | nil => intro i w w1 n e h; simp [runSteps] at h
  | cons f fs ih =>
    intro i w w1 n e h
    have hf := hframe f (List.mem_cons_self _ _) w
    simp only [runSteps] at h
    cases he : (f w).2 with
    | none =>
      rw [he] at h
      have hrec := ih (fun g hg => hframe g (List.mem_cons_of_mem _ hg)) _ _ _ _ _ h
      rw [(provisionalPhase_flag env i (f w).1).2.2.1, hf] at hrec
      exact hrec
    | some e2 =>
      rw [he] at h
      simp only [Prod.mk.injEq, Option.some.injEq] at h
      obtain ⟨hw, _, hee⟩ := h
      subst hw hee
      refine ⟨?_, _, rfl⟩
      unfold stepFailed
      simp only [statusUpdate_sc, setPhase_conditions, setConditions_conditions]
      rw [(provisionalPhase_flag env i (f w).1).2.2.1, hf]

/-- C22: in a pass that reaches the step loop and in which a step of the ordered list returns an
error `e` (the two steps outside the sources leaving the status conditions of the resource
alone), the pass returns `e` and the status conditions after the pass are those before the step
loop with the one upsert of ReconcileComplete=False: apart from the ReconcileComplete record they
are the same records in the same order, so nothing of the aggregate is written, whatever the
aggregate holds; this is also what the store holds when the status update of the error exit
succeeds. -/
theorem step_error_discards_aggregate (env : Env) (w w0 w1 : World) (n : Nat) (e : Err)
    (hpre : beforeSteps env w = .ok w0)
    (hcfg : ∀ u : World, (env.ensureCephConfig u).1.sc.status.conditions = u.sc.status.conditions)
    (hnb : ∀ u : World,
      (env.ensureNoobaaSystem u).1.sc.status.conditions = u.sc.status.conditions)
    (hsteps : runSteps env (stepList env) 0 w0 = (w1, n, some e)) :
    (ReconcileExternalStorageCluster env w).err = some e ∧
    (ReconcileExternalStorageCluster env w).world.conditions = w1.conditions ∧
    (ReconcileExternalStorageCluster env w).world.sc.status.conditions =
      SetErrorCondition env.errorClock w0.sc.status.conditions ReconcileFailed
        ("Error while reconciling: " ++ e.text) ∧
    (ReconcileExternalStorageCluster env w).world.sc.status.conditions.filter
        (fun c => c.type ≠ ConditionReconcileComplete) =
      w0.sc.status.conditions.filter (fun c => c.type ≠ ConditionReconcileComplete) ∧
    (env.errorStatusErr = none →
      (ReconcileExternalStorageCluster env w).world.stored.status.conditions =
        SetErrorCondition env.errorClock w0.sc.status.conditions ReconcileFailed
          ("Error while reconciling: " ++ e.text)) := by
  have hrec : ReconcileExternalStorageCluster env w = ⟨w1, some e, n⟩ := by
    unfold ReconcileExternalStorageCluster
    rw [hpre]
    simp only [hsteps]
  have hframe : ∀ f ∈ stepList env, ∀ u : World,
      (f u).1.sc.status.conditions = u.sc.status.conditions := by
    intro f hf u
    simp only [stepList, List.mem_cons, List.mem_singleton, List.not_mem_nil, or_false] at hf
    rcases hf with rfl | rfl | rfl
    · exact hcfg u
    · exact ensure_keeps_status_conditions env u
    · exact hnb u
  obtain ⟨hconds, u, hu⟩ := runSteps_error_conditions env (stepList env) hframe 0 w0 w1 n e hsteps
  rw [hrec]
  refine ⟨rfl, rfl, hconds, ?_, ?_⟩
  · simp only [hconds]
    unfold SetErrorCondition
    exact filter_SetStatusCondition _ _ _ _ (by intro r hr; simp [hr])
  · intro herr
    simp only
    rw [← hconds, hu]
    unfold stepFailed
    rw [herr]
    rfl

/-- C22, at `errorChildWorld` with a third step that fails: the aggregate holds the report of
the child (ExternalClusterConnected=False) when the step fails, and the status conditions hold no
such record: they are the record the resource had, plus ReconcileComplete=False. -/
theorem step_error_discards_aggregate_witness :
    IsStatusConditionFalse
      (ReconcileExternalStorageCluster noobaaFailsEnv errorChildWorld).world.conditions
      ConditionExternalClusterConnected = true ∧
    (ReconcileExternalStorageCluster noobaaFailsEnv errorChildWorld).world.sc.status.conditions =
      [{ type := "Available", status := "False", reason := "Init", message := "m" },
       { type := "ReconcileComplete", status := "False", reason := "ReconcileFailed",
         message := "Error while reconciling: noobaa is down" }] :=
  have h := step_error_discards_aggregate noobaaFailsEnv errorChildWorld _ _ _
    (Err.failure "noobaa is down") rfl (fun _ => rfl) (fun _ => rfl) rfl
  ⟨by decide, h.2.2.1.trans (by decide)⟩

/-! ## Claims on the quickstarts -/

/-- Every path of the loop of `ensureQuickStarts` ends with a nil error and leaves the
StorageCluster as it was. -/
theorem ensureQuickStartsLoop_nonfatal (env : QuickStartEnv) (qs : List ConsoleQuickStart) :
    ∀ (i : Nat) (w : QuickStartWorld),
      (ensureQuickStartsLoop env qs i w).2 = none ∧
      (ensureQuickStartsLoop env qs i w).1.sc = w.sc := by
  induction qs with
  | nil => intro i w; exact ⟨rfl, rfl⟩
  | cons q rest ih =>
    intro i w
    simp only [ensureQuickStartsLoop]
    cases hg : getQuickStart (env.getErr i) w q.nameSpace q.name with
    | error err =>
      simp only
      by_cases hnf : err.isNotFound = true
      · rw [if_pos hnf]
        have hsc : (createQuickStart (env.createErr i) w q).1.sc = w.sc := by
          unfold createQuickStart
          cases env.createErr i with
          | some e => rfl
          | none =>
            simp only
            split <;> rfl
        cases hc : (createQuickStart (env.createErr i) w q).2 with
        | some e =>
          have hpair : createQuickStart (env.createErr i) w q =
              ((createQuickStart (env.createErr i) w q).1, some e) := by rw [← hc]
          rw [hpair]
          exact ⟨rfl, hsc⟩
        | none =>
          have hpair : createQuickStart (env.createErr i) w q =
              ((createQuickStart (env.createErr i) w q).1, none) := by rw [← hc]
          rw [hpair]
          simp only
          exact ⟨(ih _ _).1, (ih _ _).2.trans hsc⟩
      · rw [if_neg hnf]
        exact ⟨rfl, rfl⟩
    | ok found =>
      simp only
      have hsc : (updateQuickStart (env.updateErr i) w { found with spec := q.spec }).1.sc
          = w.sc := by
        unfold updateQuickStart
        cases env.updateErr i with
        | some e => rfl
        | none =>
          simp only
          split
          · rfl
          · split <;> rfl
      cases hc : (updateQuickStart (env.updateErr i) w { found with spec := q.spec }).2 with
      | some e =>
        have hpair : updateQuickStart (env.updateErr i) w { found with spec := q.spec } =
            ((updateQuickStart (env.updateErr i) w { found with spec := q.spec }).1, some e) := by
          rw [← hc]
        rw [hpair]
        exact ⟨rfl, hsc⟩
      | none =>
        have hpair : updateQuickStart (env.updateErr i) w { found with spec := q.spec } =
            ((updateQuickStart (env.updateErr i) w { found with spec := q.spec }).1, none) := by
          rw [← hc]
        rw [hpair]
        simp only
        exact ⟨(ih _ _).1, (ih _ _).2.trans hsc⟩

/-- C24: for every outcome of `FetchQuickStarts` (an error, the empty list, a non-empty list) and
every outcome of the get, create and update calls, `ensureQuickStarts` returns a nil error and
leaves the StorageCluster passed to it (its spec and its status with phase and conditions
included) unchanged; when the fetch fails or finds nothing, the store is not touched either. -/
theorem ensureQuickStarts_nonfatal (env : QuickStartEnv) (w : QuickStartWorld) :
    (ensureQuickStarts env w).2 = none ∧
    (ensureQuickStarts env w).1.sc = w.sc ∧
    (∀ err, FetchQuickStarts env.files quickstartDir = .error err →
      ensureQuickStarts env w = (w, none)) ∧
    (FetchQuickStarts env.files quickstartDir = .ok [] →
      ensureQuickStarts env w = (w, none)) := by
  refine ⟨?_, ?_, ?_, ?_⟩
  · unfold ensureQuickStarts
    cases FetchQuickStarts env.files quickstartDir with
    | error err => rfl
    | ok qs =>
      simp only
      split
      · rfl
      · exact (ensureQuickStartsLoop_nonfatal env qs 0 w).1
  · unfold ensureQuickStarts
    cases FetchQuickStarts env.files quickstartDir with
    | error err => rfl
    | ok qs =>
      simp only
      split
      · rfl
      · exact (ensureQuickStartsLoop_nonfatal env qs 0 w).2
  · intro err h
    unfold ensureQuickStarts
    rw [h]
  · intro h
    unfold ensureQuickStarts
    rw [h]
    rfl

/-- C24, at `createFailsEnv` (two documents, the create fails): the function returns nil, the
StorageCluster is the one passed in, and the store holds no new object. -/
theorem ensureQuickStarts_nonfatal_witness :
    (ensureQuickStarts createFailsEnv oldQuickStartWorld).2 = none ∧
    (ensureQuickStarts createFailsEnv oldQuickStartWorld).1.sc = oldQuickStartWorld.sc ∧
    (ensureQuickStarts createFailsEnv oldQuickStartWorld).1.quickStarts
      ("", "getting-started-ocs") = none :=
  ⟨(ensureQuickStarts_nonfatal createFailsEnv oldQuickStartWorld).1,
    (ensureQuickStarts_nonfatal createFailsEnv oldQuickStartWorld).2.1, by decide⟩

/-- Writing an object under its own key keeps the store well formed. -/
theorem QuickStartStore.wf_after_put (store : QuickStartStore) (k : String × String)
    (obj : ConsoleQuickStart) (hwf : store.wf) (hk : obj.key = k) : (store.put k obj).wf := by
  intro k2 q h
  unfold QuickStartStore.put at h
  by_cases hk2 : k2 = k
  · rw [if_pos hk2] at h
    cases h
    rw [hk2]
    exact hk
  · rw [if_neg hk2] at h
    exact hwf k2 q h

/-- The object written by an iteration is stored under the key of the quickstart. -/
theorem writtenQuickStart_key (store : QuickStartStore) (q : ConsoleQuickStart)
    (hwf : store.wf) : (writtenQuickStart store q).key = q.key := by
  unfold writtenQuickStart
  cases h : store q.key with
  | none => rfl
  | some found => exact hwf q.key found h

/-- The object written by an iteration has the spec of the quickstart. -/
theorem writtenQuickStart_spec (store : QuickStartStore) (q : ConsoleQuickStart) :
    (writtenQuickStart store q).spec = q.spec := by
  unfold writtenQuickStart
  cases store q.key <;> rfl

/-- One iteration of the loop whose calls succeed, on a well-formed store: the quickstart is
created when absent and the object found gets its spec replaced when present; the loop goes on. -/
theorem ensureQuickStartsLoop_cons (env : QuickStartEnv) (q : ConsoleQuickStart)
    (rest : List ConsoleQuickStart) (i : Nat) (w : QuickStartWorld)
    (hwf : w.quickStarts.wf) (hget : env.getErr i = none) (hcreate : env.createErr i = none)
    (hupdate : env.updateErr i = none) :
    ensureQuickStartsLoop env (q :: rest) i w =
      ensureQuickStartsLoop env rest (i + 1)
        { w with quickStarts :=
            w.quickStarts.put q.key (writtenQuickStart w.quickStarts q) } := by
  simp only [ensureQuickStartsLoop, getQuickStart, hget]
  cases h : w.quickStarts (q.nameSpace, q.name) with
  | none =>
    have hk : w.quickStarts q.key = none := h
    simp only [Err.isNotFound, if_true, createQuickStart, hcreate, hk, writtenQuickStart]
  | some found =>
    have hk : w.quickStarts q.key = some found := h
    have hkey : found.key = q.key := hwf _ _ hk
    have hkey2 : ConsoleQuickStart.key { found with spec := q.spec } = q.key := hkey
    simp only [updateQuickStart, hupdate, hkey2, hk, writtenQuickStart, if_true]

/-- The loop of `ensureQuickStarts` when every call succeeds, on a well-formed store and a list
of quickstarts with pairwise distinct keys: the other keys are left alone, and each key of the
list holds the object written by its iteration. -/
theorem ensureQuickStartsLoop_success (env : QuickStartEnv)
    (hget : ∀ i, env.getErr i = none) (hcreate : ∀ i, env.createErr i = none)
    (hupdate : ∀ i, env.updateErr i = none) (qs : List ConsoleQuickStart) :
    ∀ (i : Nat) (w : QuickStartWorld), w.quickStarts.wf →
      (qs.map ConsoleQuickStart.key).Nodup →
      (∀ k, k ∉ qs.map ConsoleQuickStart.key →
        (ensureQuickStartsLoop env qs i w).1.quickStarts k = w.quickStarts k) ∧
      (∀ q ∈ qs, (ensureQuickStartsLoop env qs i w).1.quickStarts q.key =
        some (writtenQuickStart w.quickStarts q)) := by
  induction qs with
  | nil =>
    intro i w _ _
    exact ⟨fun _ _ => rfl, fun q hq => by simp at hq⟩
  | cons q rest ih =>
    intro i w hwf hnodup
    simp only [List.map_cons, List.nodup_cons] at hnodup
    rw [ensureQuickStartsLoop_cons env q rest i w hwf (hget i) (hcreate i) (hupdate i)]
    have hwf1 : (w.quickStarts.put q.key (writtenQuickStart w.quickStarts q)).wf :=
      QuickStartStore.wf_after_put _ _ _ hwf (writtenQuickStart_key _ _ hwf)
    obtain ⟨hframe, hheld⟩ := ih (i + 1)
      { w with quickStarts := w.quickStarts.put q.key (writtenQuickStart w.quickStarts q) }
      hwf1 hnodup.2
    refine ⟨?_, ?_⟩
    · intro k hk
      simp only [List.map_cons, List.mem_cons, not_or] at hk
      rw [hframe k hk.2]
      simp only [QuickStartStore.put]
      rw [if_neg hk.1]
    · intro q2 hq2
      rcases List.mem_cons.mp hq2 with rfl | hmem
      · rw [hframe _ hnodup.1]
        simp only [QuickStartStore.put]
        exact if_pos trivial
      · rw [hheld q2 hmem]
        have hne : ¬ q2.key = q.key := by
          intro e
          exact hnodup.1 (e ▸ List.mem_map_of_mem ConsoleQuickStart.key hmem)
        unfold writtenQuickStart
        simp only [QuickStartStore.put]
        rw [if_neg hne]

/-- C23: when `FetchQuickStarts` returns the list `qs` whose name/namespace keys are pairwise
distinct, the store is well formed and every get, create and update call succeeds,
`ensureQuickStarts` returns nil and afterwards the store holds, for each fetched quickstart, an
object with its name and namespace whose spec is the fetched spec: the fetched object itself when
the key was absent (created), the object found with its spec replaced when the key was present.
The number of keys of the list that hold an object is the number of fetched quickstarts, and the
other keys of the store are left as they were. -/
theorem ensureQuickStarts_upserts (env : QuickStartEnv) (w : QuickStartWorld)
    (qs : List ConsoleQuickStart)
    (hfetch : FetchQuickStarts env.files quickstartDir = .ok qs)
    (hkeys : (qs.map ConsoleQuickStart.key).Nodup)
    (hwf : w.quickStarts.wf)
    (hget : ∀ i, env.getErr i = none) (hcreate : ∀ i, env.createErr i = none)
    (hupdate : ∀ i, env.updateErr i = none) :
    (ensureQuickStarts env w).2 = none ∧
    (∀ q ∈ qs, ∃ o,
      (ensureQuickStarts env w).1.quickStarts (q.nameSpace, q.name) = some o ∧
      o.name = q.name ∧ o.nameSpace = q.nameSpace ∧ o.spec = q.spec ∧
      (w.quickStarts (q.nameSpace, q.name) = none → o = { q with resourceVersion := 1 }) ∧
      (∀ found, w.quickStarts (q.nameSpace, q.name) = some found →
        o = { found with spec := q.spec, resourceVersion := found.resourceVersion + 1 })) ∧
    ((qs.map ConsoleQuickStart.key).filter
      (fun k => ((ensureQuickStarts env w).1.quickStarts k).isSome)).length = qs.length ∧
    (∀ k, k ∉ qs.map ConsoleQuickStart.key →
      (ensureQuickStarts env w).1.quickStarts k = w.quickStarts k) := by
  have hrun : ensureQuickStarts env w = ensureQuickStartsLoop env qs 0 w := by
    unfold ensureQuickStarts
    rw [hfetch]
    simp only
    split
    · rename_i h
      rw [List.length_eq_zero.mp h]
      rfl
    · rfl
  obtain ⟨hframe, hheld⟩ :=
    ensureQuickStartsLoop_success env hget hcreate hupdate qs 0 w hwf hkeys
  rw [hrun]
  refine ⟨(ensureQuickStartsLoop_nonfatal env qs 0 w).1, ?_, ?_, hframe⟩
  · intro q hq
    refine ⟨writtenQuickStart w.quickStarts q, hheld q hq, ?_, ?_,
      writtenQuickStart_spec _ _, ?_, ?_⟩
    · exact congrArg Prod.snd (writtenQuickStart_key _ q hwf)
    · exact congrArg Prod.fst (writtenQuickStart_key _ q hwf)
    · intro h
      have hk : w.quickStarts q.key = none := h
      unfold writtenQuickStart
      rw [hk]
    · intro found h
      have hk : w.quickStarts q.key = some found := h
      unfold writtenQuickStart
      rw [hk]
  · rw [List.filter_eq_self.mpr, List.length_map]
    intro k hk
    obtain ⟨q, hq, rfl⟩ := List.mem_map.mp hk
    rw [hheld q hq]
    rfl

/-- The store of `oldQuickStartWorld` is well formed. -/
theorem oldQuickStartWorld_wf : oldQuickStartWorld.quickStarts.wf := by
  intro k q h
  unfold oldQuickStartWorld at h
  simp only at h
  split at h
  · rename_i hk
    cases h
    rw [hk]
    rfl
  · cases h

/-- C23, at the two documents of the package test and a store that holds an older version of
the second: the first is created, the second gets the fetched spec and the next version token. -/
theorem ensureQuickStarts_upserts_witness :
    (ensureQuickStarts { files := twoDocuments } oldQuickStartWorld).2 = none ∧
    (ensureQuickStarts { files := twoDocuments } oldQuickStartWorld).1.quickStarts
        ("", "getting-started-ocs") =
      some { name := "getting-started-ocs", resourceVersion := 1,
             spec := { displayName := "Getting started", durationMinutes := 10 } } ∧
    (ensureQuickStarts { files := twoDocuments } oldQuickStartWorld).1.quickStarts
        ("", "ocs-configuration") =
      some { name := "ocs-configuration", resourceVersion := 8,
             spec := { displayName := "Configuration", durationMinutes := 5 } } :=
  have h := ensureQuickStarts_upserts { files := twoDocuments } oldQuickStartWorld
    [{ name := "getting-started-ocs",
       spec := { displayName := "Getting started", durationMinutes := 10 } },
     { name := "ocs-configuration",
       spec := { displayName := "Configuration", durationMinutes := 5 } }]
    rfl (by decide) oldQuickStartWorld_wf (fun _ => rfl) (fun _ => rfl) (fun _ => rfl)
  ⟨h.1, by decide, by decide⟩

end Ocs
